import Mathlib

/-!
# Marketplace transaction engine: trust score, payment split, purchase sagas

A shallow embedding of the Go use cases

* `internal/usecase/trust/trust_usecase.go`
* `internal/usecase/order/OrderUsecase.go`
* `internal/usecase/cartitem/cartitem_usecase.go`

## Conventions of the embedding

* `float64` values are the rationals they denote, and every arithmetic operation rounds its
  exact result to the nearest binary64 value, ties to even (`F64.round`), one rounding per
  operation as the Go compiler emits them on amd64 (no fused multiply-add).  Gradual
  underflow is modelled.  These finite values are those of the Go run as long as the run
  divides by no zero and no result reaches `2 ^ 1024` in magnitude; the trust update is
  embedded a second time with infinities and NaN (`F64.Val`, `recomputeVal`).
* Go `int` is a 64-bit two's complement integer: sums and differences go through `wrapInt64`.
* A Go `error` is its message; `nil` is `none`.
* A repository is an interface in the Go code.  Here every call of a repository method is
  recorded in a history (`List Event`) with the error it returned, and what a method answers is
  an arbitrary function of the history so far (`Env`), which covers every deterministic
  implementation, the Mongo ones and the test mocks alike.
* A nil pointer dereference is the outcome `Outcome.panicked`.
-/

/-! ## binary64 arithmetic -/

namespace F64

/-- Nearest integer to a rational, ties going to the even neighbour. -/
def roundHalfEven (q : ℚ) : ℤ :=
  if q - ⌊q⌋ < 1 / 2 then ⌊q⌋
  else if 1 / 2 < q - ⌊q⌋ then ⌊q⌋ + 1
  else if ⌊q⌋ % 2 = 0 then ⌊q⌋ else ⌊q⌋ + 1

/-- Exponent of the unit in the last place of the binary64 values around `q`:
53 significant bits, and never below the subnormal spacing `2 ^ (-1074)`. -/
def ulpExp (q : ℚ) : ℤ := max (Int.log 2 |q| - 52) (-1074)

/-- Rounding of an exact result to binary64 (round to nearest, ties to even). -/
def round (q : ℚ) : ℚ := (roundHalfEven (q / 2 ^ ulpExp q) : ℚ) * 2 ^ ulpExp q

/-- The finite binary64 values: an integer significand of at most 53 bits times a power of
two that is at least `2 ^ (-1074)`. -/
def IsF64 (x : ℚ) : Prop := ∃ M e : ℤ, x = M * 2 ^ e ∧ |M| ≤ 2 ^ 53 ∧ -1074 ≤ e

/-- A decimal literal of the Go source, converted to `float64`. -/
def lit (q : ℚ) : ℚ := round q

/-- Go `x + y` on `float64`. -/
def add (x y : ℚ) : ℚ := round (x + y)

/-- Go `x - y` on `float64`. -/
def sub (x y : ℚ) : ℚ := round (x - y)

/-- Go `x * y` on `float64`. -/
def mul (x y : ℚ) : ℚ := round (x * y)

/-- Go `x / y` on `float64`, for a divisor other than zero. -/
def div (x y : ℚ) : ℚ := round (x / y)

/-- Go `float64(n)` for an `int`. -/
def ofInt (n : ℤ) : ℚ := round n

/-- Go `int(x)` for a `float64`: the fraction is discarded (truncation towards zero). -/
def toInt (x : ℚ) : ℤ := if 0 ≤ x then ⌊x⌋ else ⌈x⌉

/-- A `float64` as a Go run holds it: a finite value, an infinity or NaN.  The sign of a zero
is not kept: it matters only to a division by zero, and the divisors of the source are
conversions of an `int`, which never give a negative zero. -/
inductive Val where
  | fin (q : ℚ)
  | inf (negative : Bool)
  | nan
deriving DecidableEq

namespace Val

/-- The `float64` result of an operation whose exact result is `q`: the rounded value, or
an infinity when the rounded value reaches `2 ^ 1024` in magnitude (overflow). -/
def ofRat (q : ℚ) : Val :=
  if 2 ^ 1024 ≤ |round q| then .inf (decide (q < 0)) else .fin (round q)

/-- Go `x + y` on `float64`, with the special values. -/
def add : Val → Val → Val
  | .fin a, .fin b => ofRat (a + b)
  | .nan, _ => .nan
  | _, .nan => .nan
  | .inf s, .inf t => if s = t then .inf s else .nan
  | .inf s, .fin _ => .inf s
  | .fin _, .inf t => .inf t

/-- Go `x - y` on `float64`, with the special values. -/
def sub : Val → Val → Val
  | .fin a, .fin b => ofRat (a - b)
  | .nan, _ => .nan
  | _, .nan => .nan
  | .inf s, .inf t => if s = t then .nan else .inf s
  | .inf s, .fin _ => .inf s
  | .fin _, .inf t => .inf (!t)

/-- Go `x * y` on `float64`, with the special values: zero times an infinity is NaN. -/
def mul : Val → Val → Val
  | .fin a, .fin b => ofRat (a * b)
  | .nan, _ => .nan
  | _, .nan => .nan
  | .inf s, .inf t => .inf (s != t)
  | .inf s, .fin b => if b = 0 then .nan else .inf (s != decide (b < 0))
  | .fin a, .inf t => if a = 0 then .nan else .inf (decide (a < 0) != t)

/-- Go `x / y` on `float64`, with the special values: `0 / 0` is NaN, another finite value
divided by zero is the infinity of its sign. -/
def div : Val → Val → Val
  | .fin a, .fin b =>
    if b = 0 then (if a = 0 then .nan else .inf (decide (a < 0))) else ofRat (a / b)
  | .nan, _ => .nan
  | _, .nan => .nan
  | .inf _, .inf _ => .nan
  | .inf s, .fin b => .inf (s != decide (b < 0))
  | .fin _, .inf _ => .fin 0

/-- Go `math.Abs`. -/
def abs : Val → Val
  | .fin a => .fin |a|
  | .inf _ => .inf false
  | .nan => .nan

/-- Go `math.Max`: `+Inf` if either argument is `+Inf`, otherwise NaN if either is NaN. -/
def max : Val → Val → Val
  | .inf false, _ => .inf false
  | _, .inf false => .inf false
  | .nan, _ => .nan
  | _, .nan => .nan
  | .inf true, y => y
  | x, .inf true => x
  | .fin a, .fin b => .fin (Max.max a b)

/-- Go `x < y` on `float64`: false when either side is NaN. -/
def lt : Val → Val → Bool
  | .fin a, .fin b => decide (a < b)
  | .nan, _ => false
  | _, .nan => false
  | .inf s, .inf t => s && !t
  | .inf s, .fin _ => s
  | .fin _, .inf t => !t

/-- Go `float64(n)` for an `int`. -/
def ofInt (n : ℤ) : Val := ofRat n

/-- Go `int(x)` for a `float64`: truncation towards zero.  For NaN, an infinity or a value
outside the range of `int` Go leaves the result to the implementation; on amd64 it is
`-9223372036854775808`. -/
def toInt : Val → ℤ
  | .fin q => if -2 ^ 63 ≤ F64.toInt q ∧ F64.toInt q < 2 ^ 63 then F64.toInt q else -2 ^ 63
  | _ => -2 ^ 63

end Val

end F64

/-- Go `int` arithmetic wraps around in 64-bit two's complement. -/
def wrapInt64 (z : ℤ) : ℤ := (z + 2 ^ 63) % 2 ^ 64 - 2 ^ 63

/-! ## Data model -/

/-- Modelled from the spec: the declaration of `user.User` is not among the sources; these
are the fields the use cases read or write (the trust profile embedded in an account). -/
structure User where
  ID : String
  Username : String
  TrustScore : ℤ
  TrustTotalError : ℚ
  TrustRatedCount : ℤ
  IsBlacklisted : Bool
deriving DecidableEq

/-- Modelled from the spec: the declaration of `bundle.Bundle` is not among the sources;
these are the fields the use cases read (`Type_` is the Go field `Type`; `DateListed` is the
instant of the `time.Time` value, in nanoseconds). -/
structure Bundle where
  ID : String
  Title : String
  SupplierID : String
  Price : ℚ
  Status : String
  DeclaredRating : ℤ
  RemainingItemCount : ℤ
  Grade : String
  Type_ : String
  Quantity : ℤ
  SortingLevel : String
  SampleImage : String
  DateListed : ℤ
deriving DecidableEq

/-- Modelled from the spec: `order.OrderStatus`, an enumeration of Pending, Completed,
Failed and Delivered. -/
inductive OrderStatus
  | OrderStatusPending
  | OrderStatusCompleted
  | OrderStatusFailed
  | OrderStatusDelivered
deriving DecidableEq, Inhabited

/-- Modelled from the spec: the declaration of `order.Order` is not among the sources; these
are the fields the use cases write.  A nil `ProductIDs` slice is the empty list. -/
structure Order where
  ID : String
  BundleID : String
  ResellerID : String
  SupplierID : String
  ConsumerID : String
  ProductIDs : List String
  TotalPrice : ℚ
  PlatformFee : ℚ
  Status : OrderStatus
  CreatedAt : String
deriving DecidableEq, Inhabited

/-- Modelled from the spec: `payment.PaymentType`, B2B for a bundle purchase and B2C for a
product purchase. -/
inductive PaymentType
  | B2B
  | B2C
deriving DecidableEq, Inhabited

/-- Modelled from the spec: the declaration of `payment.Payment` is not among the sources;
these are the fields the use cases write. -/
structure Payment where
  FromUserID : String
  ToUserID : String
  Amount : ℚ
  PlatformFee : ℚ
  SellerEarning : ℚ
  Status : String
  ReferenceID : String
  Type_ : PaymentType
  CreatedAt : String
deriving DecidableEq, Inhabited

/-- The struct `warehouse.WarehouseItem` of `internal/domain/warehouse/warehouse.go`. -/
structure WarehouseItem where
  ID : String
  ResellerID : String
  BundleID : String
  ProductID : String
  Status : String
  CreatedAt : String
  DeclaredRating : ℤ
  RemainingItemCount : ℤ
  Grade : String
  Type_ : String
  Quantity : ℤ
  SortingLevel : String
  SampleImage : String
deriving DecidableEq, Inhabited

/-- Modelled from the spec: the declaration of `product.Product` is not among the sources;
these are the fields the use cases read.  `ResellerID` is the hexadecimal text of the
ObjectID, so that `ResellerID.Hex()` is the field itself. -/
structure Product where
  ID : String
  ResellerID : String
  Title : String
  Price : ℚ
  Status : String
  ImageURL : String
  Grade : String
  Rating : ℚ
deriving DecidableEq

/-- Modelled from the spec: the declaration of `cartitem.CartItem` is not among the sources;
a pending purchase line of a user's cart.  `CreatedAt` is the clock reading at creation; no
use case reads it, and it is empty where a cart line is written without it. -/
structure CartItem where
  ID : String
  UserID : String
  ListingID : String
  Title : String
  Price : ℚ
  ImageURL : String
  Grade : String
  CreatedAt : String := ""
deriving DecidableEq

/-- Modelled from the spec: `models.CheckoutItemResponse`, one line of a checkout summary. -/
structure CheckoutItemResponse where
  ListingID : String
  Title : String
  Price : ℚ
  SellerID : String
  Status : String
deriving DecidableEq

/-- Modelled from the spec: `models.CheckoutResponse`, the checkout summary. -/
structure CheckoutResponse where
  TotalAmount : ℚ
  Items : List CheckoutItemResponse
  PlatformFee : ℚ
  NetPayable : ℚ
deriving DecidableEq

/-! ## Repository calls and their history -/

/-- One effect of a use case: a repository method call with its arguments, the payment
gateway call, a fresh ObjectID, a clock read, or the launch of a goroutine. -/
inductive Call
  | UserGetByID (id : String)
  | UserUpdateTrustData (u : User)
  | BundleGetBundleByID (id : String)
  | BundleListAvailableBundles
  | BundleMarkAsPurchased (bundleID resellerID : String)
  | OrderCreateOrder (o : Order)
  | PaymentRecordPayment (p : Payment)
  | WarehouseAddItem (w : WarehouseItem)
  | ProductGetProductByID (id : String)
  | ProductUpdateProduct (id : String) (updates : List (String × String))
  | CartGetCartItems (userID : String)
  | CartClearCart (userID : String)
  | CartDeleteCartItem (userID listingID : String)
  | CartCreateCartItem (item : CartItem)
  | WarehouseGetItemsByReseller (resellerID : String)
  | BundleListBundles (supplierID : String)
  | BundleListPurchasedByReseller (resellerID : String)
  | ProductGetSoldProductsByReseller (resellerID : String)
  | OrderGetOrdersBySupplier (supplierID : String)
  | OrderGetOrdersByReseller (resellerID : String)
  | OrderGetOrdersByConsumer (consumerID : String)
  | StripePayment (amount : ℚ)
  | NewObjectID
  | NewUUID
  | TimeNow
  | GoMarkItemAsListed (itemID : String)
  | GoDeliverySimulation
deriving DecidableEq

/-- An entry of the history: a call and the error it returned (`none` for nil, and for the
effects that return no error). -/
structure Event where
  call : Call
  err : Option String
deriving DecidableEq

/-- What the collaborators answer, as a function of the history so far.  `SortSlice` is
`sort.Slice` of the Go library on a slice of bundles with the given `less` (the order it
leaves equal elements in is not specified), and `MapRange` is the order in which a `range`
loop visits the given keys of a map (not specified either).  `UserGetByID` answers an
error, an account, or nil without an error (`.ok none`), the answer that
`GetOrdersByReseller` and `GetOrdersByConsumer` check for with `user != nil`.  `Quote` is
`strconv.Quote` of the Go library, which the verb `%q` applies to a string: a function of
the string alone, not translated here. -/
structure Env where
  UserGetByID : List Event → String → Except String (Option User)
  UserUpdateTrustData : List Event → User → Option String
  BundleGetBundleByID : List Event → String → Except String Bundle
  BundleListAvailableBundles : List Event → Except String (List Bundle)
  BundleMarkAsPurchased : List Event → String → String → Option String
  OrderCreateOrder : List Event → Order → Option String
  PaymentRecordPayment : List Event → Payment → Option String
  WarehouseAddItem : List Event → WarehouseItem → Option String
  ProductGetProductByID : List Event → String → Except String (Option Product)
  ProductUpdateProduct : List Event → String → List (String × String) → Option String
  CartGetCartItems : List Event → String → Except String (List CartItem)
  CartClearCart : List Event → String → Option String
  CartDeleteCartItem : List Event → String → String → Option String
  CartCreateCartItem : List Event → CartItem → Option String
  WarehouseGetItemsByReseller : List Event → String → Except String (List WarehouseItem)
  BundleListBundles : List Event → String → Except String (List Bundle)
  BundleListPurchasedByReseller : List Event → String → Except String (List Bundle)
  ProductGetSoldProductsByReseller : List Event → String → Except String (List Product)
  OrderGetOrdersBySupplier : List Event → String → Except String (List Order)
  OrderGetOrdersByReseller : List Event → String → Except String (List Order)
  OrderGetOrdersByConsumer : List Event → String → Except String (List Order)
  SortSlice : (Bundle → Bundle → Bool) → List Bundle → List Bundle
  Quote : String → String
  MapRange : List Event → List String → List String
  RandIntn : List Event → ℕ
  NewObjectID : List Event → String
  NewUUID : List Event → String
  TimeNow : List Event → String

/-- The persistent writes among the calls: the repository methods that create or change a
stored record. -/
def Call.isWrite : Call → Bool
  | .UserUpdateTrustData _ => true
  | .BundleMarkAsPurchased _ _ => true
  | .OrderCreateOrder _ => true
  | .PaymentRecordPayment _ => true
  | .WarehouseAddItem _ => true
  | .ProductUpdateProduct _ _ => true
  | .CartClearCart _ => true
  | .CartDeleteCartItem _ _ => true
  | .CartCreateCartItem _ => true
  | _ => false

/-- The external payment step among the calls. -/
def Call.isPaymentStep : Call → Bool
  | .StripePayment _ => true
  | _ => false

/-- The persistent writes of a history with the errors they returned, in the order they were
made. -/
def writesOf (h : List Event) : List Event := h.filter (fun e => e.call.isWrite)

/-- The calls a run made: what the history `after` holds beyond the history `before` the
run started from. -/
def callsSince (before after : List Event) : List Event := after.drop before.length

/-- How a Go call ends: it returns, or a nil pointer dereference panics. -/
inductive Outcome (α : Type)
  | returned (a : α)
  | panicked
deriving DecidableEq

/-! ## Trust engine (`trust_usecase.go`) -/

/-- Steps 2 to 5 of `UpdateSupplierTrustScoreOnNewRating`: the first-rating reset, the error
and count update, the windowed error, the blended and clamped score, the blacklist flag, and
the conversion of the score to `int`.  The arithmetic is the finite one: the record is that
of the Go run as long as the run divides by no zero and no operation overflows, which is so
for `0 ≤ TrustRatedCount`, `TrustRatedCount + 1 ≤ 2 ^ 53` and magnitudes up to `2 ^ 1000`
(`recomputeVal_eq_recompute`).  `recomputeVal` is the same computation with infinities and
NaN. -/
def recompute (user : User) (declaredRating productRating : ℚ) : User :=
  let user : User :=
    if user.TrustRatedCount = 0 then
      { user with TrustTotalError := 0, TrustRatedCount := 0, TrustScore := 100 }
    else user
  let diff : ℚ := |F64.sub productRating declaredRating|
  let newTotalError : ℚ := F64.add user.TrustTotalError diff
  let newRatedCount : ℤ := wrapInt64 (user.TrustRatedCount + 1)
  let windowSize : ℤ := 5
  let windowError : ℚ :=
    if newRatedCount > 1 then
      let windowStart : ℚ := max 0 (F64.ofInt (wrapInt64 (newRatedCount - windowSize)))
      F64.div (F64.sub newTotalError user.TrustTotalError)
        (F64.ofInt (wrapInt64 (newRatedCount - F64.toInt windowStart)))
    else diff
  let historicalWeight : ℚ := F64.lit (3 / 10)
  let recentWeight : ℚ := F64.lit (7 / 10)
  let historicalScore : ℚ :=
    F64.sub 100 (F64.mul (F64.div newTotalError (F64.ofInt newRatedCount)) 10)
  let recentScore : ℚ := F64.sub 100 (F64.mul windowError 10)
  let newTrust : ℚ :=
    F64.add (F64.mul historicalScore historicalWeight) (F64.mul recentScore recentWeight)
  let newTrust : ℚ := if newTrust < 0 then 0 else if newTrust > 100 then 100 else newTrust
  { user with
    IsBlacklisted := decide (newTrust < 40)
    TrustScore := F64.toInt newTrust
    TrustRatedCount := newRatedCount
    TrustTotalError := newTotalError }

/-- The value of the local variable `newTrust` of the two trust updates after the clamp to
`[0, 100]`: the blended score that is then compared with 40 and converted to `int`, in the
finite arithmetic of `recompute` (no zero divisor, no overflow). -/
def newTrustScore (user : User) (declaredRating productRating : ℚ) : ℚ :=
  let user : User :=
    if user.TrustRatedCount = 0 then
      { user with TrustTotalError := 0, TrustRatedCount := 0, TrustScore := 100 }
    else user
  let diff : ℚ := |F64.sub productRating declaredRating|
  let newTotalError : ℚ := F64.add user.TrustTotalError diff
  let newRatedCount : ℤ := wrapInt64 (user.TrustRatedCount + 1)
  let windowSize : ℤ := 5
  let windowError : ℚ :=
    if newRatedCount > 1 then
      let windowStart : ℚ := max 0 (F64.ofInt (wrapInt64 (newRatedCount - windowSize)))
      F64.div (F64.sub newTotalError user.TrustTotalError)
        (F64.ofInt (wrapInt64 (newRatedCount - F64.toInt windowStart)))
    else diff
  let historicalWeight : ℚ := F64.lit (3 / 10)
  let recentWeight : ℚ := F64.lit (7 / 10)
  let historicalScore : ℚ :=
    F64.sub 100 (F64.mul (F64.div newTotalError (F64.ofInt newRatedCount)) 10)
  let recentScore : ℚ := F64.sub 100 (F64.mul windowError 10)
  let newTrust : ℚ :=
    F64.add (F64.mul historicalScore historicalWeight) (F64.mul recentScore recentWeight)
  if newTrust < 0 then 0 else if newTrust > 100 then 100 else newTrust

/-- The use case `trustUsecase.UpdateSupplierTrustScoreOnNewRating`: the returned error and
the history after the call.  A nil account is dereferenced right after the lookup. -/
def UpdateSupplierTrustScoreOnNewRating (env : Env) (h : List Event) (supplierID : String)
    (declaredRating productRating : ℚ) : Outcome (Option String) × List Event :=
  match env.UserGetByID h supplierID with
  | .error err => (.returned (some err), h ++ [⟨Call.UserGetByID supplierID, some err⟩])
  | .ok none => (.panicked, h ++ [⟨Call.UserGetByID supplierID, none⟩])
  | .ok (some supplier) =>
    let h := h ++ [⟨Call.UserGetByID supplierID, none⟩]
    let supplier := recompute supplier declaredRating productRating
    let err := env.UserUpdateTrustData h supplier
    (.returned err, h ++ [⟨Call.UserUpdateTrustData supplier, err⟩])

/-- Steps 2 to 5 of `UpdateResellerTrustScoreOnNewRating`, translated from the body of that
function on its own: the reset on the first rating, the error and count update, the windowed
error, the blended and clamped score, the blacklist flag, and the conversion of the score
to `int`, in the finite arithmetic of `recompute` (no zero divisor, no overflow). -/
def recomputeReseller (reseller : User) (declaredRating productRating : ℚ) : User :=
  let reseller : User :=
    if reseller.TrustRatedCount = 0 then
      { reseller with TrustTotalError := 0, TrustRatedCount := 0, TrustScore := 100 }
    else reseller
  let diff : ℚ := |F64.sub productRating declaredRating|
  let newTotalError : ℚ := F64.add reseller.TrustTotalError diff
  let newRatedCount : ℤ := wrapInt64 (reseller.TrustRatedCount + 1)
  let windowSize : ℤ := 5
  let windowError : ℚ :=
    if newRatedCount > 1 then
      let windowStart : ℚ := max 0 (F64.ofInt (wrapInt64 (newRatedCount - windowSize)))
      F64.div (F64.sub newTotalError reseller.TrustTotalError)
        (F64.ofInt (wrapInt64 (newRatedCount - F64.toInt windowStart)))
    else diff
  let historicalWeight : ℚ := F64.lit (3 / 10)
  let recentWeight : ℚ := F64.lit (7 / 10)
  let historicalScore : ℚ :=
    F64.sub 100 (F64.mul (F64.div newTotalError (F64.ofInt newRatedCount)) 10)
  let recentScore : ℚ := F64.sub 100 (F64.mul windowError 10)
  let newTrust : ℚ :=
    F64.add (F64.mul historicalScore historicalWeight) (F64.mul recentScore recentWeight)
  let newTrust : ℚ := if newTrust < 0 then 0 else if newTrust > 100 then 100 else newTrust
  let isBlacklisted : Bool := if newTrust < 40 then true else false
  { reseller with
    IsBlacklisted := isBlacklisted
    TrustScore := F64.toInt newTrust
    TrustRatedCount := newRatedCount
    TrustTotalError := newTotalError }

/-- The use case `trustUsecase.UpdateResellerTrustScoreOnNewRating`: the returned error and
the history after the call.  A nil account is dereferenced right after the lookup. -/
def UpdateResellerTrustScoreOnNewRating (env : Env) (h : List Event) (resellerID : String)
    (declaredRating productRating : ℚ) : Outcome (Option String) × List Event :=
  match env.UserGetByID h resellerID with
  | .error err => (.returned (some err), h ++ [⟨Call.UserGetByID resellerID, some err⟩])
  | .ok none => (.panicked, h ++ [⟨Call.UserGetByID resellerID, none⟩])
  | .ok (some reseller) =>
    let h := h ++ [⟨Call.UserGetByID resellerID, none⟩]
    let reseller := recomputeReseller reseller declaredRating productRating
    let err := env.UserUpdateTrustData h reseller
    (.returned err, h ++ [⟨Call.UserUpdateTrustData reseller, err⟩])

/-! ## Order orchestrator (`OrderUsecase.go`) -/

/-- The function `simulateStripePayment`: a charge reference and a nil error, always. -/
def simulateStripePayment (env : Env) (h : List Event) (amount : ℚ) :
    (String × Option String) × List Event :=
  (("ch_" ++ toString (env.RandIntn h), none), h ++ [⟨Call.StripePayment amount, none⟩])

/-- The function `processPayment`: the fee, the net amount, the error of the payment step,
and the history after the call. -/
def processPayment (env : Env) (h : List Event) (total : ℚ) :
    (ℚ × ℚ × Option String) × List Event :=
  let fee := F64.mul total (F64.lit (2 / 100))
  let net := F64.sub total fee
  let r := simulateStripePayment env h total
  ((fee, net, r.1.2), r.2)

/-- The four results of `PurchaseBundle`; a nil pointer is `none`. -/
structure PurchaseBundleResult where
  order : Option Order
  payment : Option Payment
  warehouseItem : Option WarehouseItem
  err : Option String
deriving DecidableEq

/-- The statement `return nil, nil, nil, err`. -/
def PurchaseBundleResult.fail (err : String) : PurchaseBundleResult :=
  { order := none, payment := none, warehouseItem := none, err := some err }

/-- The use case `orderUseCaseImpl.PurchaseBundle`: its four results and the history after
the call. -/
def PurchaseBundle (env : Env) (h : List Event) (bundleID resellerID : String) :
    PurchaseBundleResult × List Event :=
  match env.BundleGetBundleByID h bundleID with
  | .error err => (.fail err, h ++ [⟨Call.BundleGetBundleByID bundleID, some err⟩])
  | .ok b =>
    let h := h ++ [⟨Call.BundleGetBundleByID bundleID, none⟩]
    match env.BundleListAvailableBundles h with
    | .error err => (.fail err, h ++ [⟨Call.BundleListAvailableBundles, some err⟩])
    | .ok availables =>
      let h := h ++ [⟨Call.BundleListAvailableBundles, none⟩]
      let found := availables.any (fun available => available.ID == b.ID)
      if !found then (.fail "bundle not available", h)
      else if b.SupplierID == resellerID then
        (.fail "reseller cannot purchase their own bundle", h)
      else
        match processPayment env h b.Price with
        | ((_, _, some err), h) => (.fail err, h)
        | ((fee, net, none), h) =>
          let orderID := env.NewObjectID h
          let h := h ++ [⟨Call.NewObjectID, none⟩]
          let orderCreatedAt := env.TimeNow h
          let h := h ++ [⟨Call.TimeNow, none⟩]
          let order : Order :=
            { ID := orderID
              BundleID := b.ID
              ResellerID := resellerID
              SupplierID := b.SupplierID
              ConsumerID := ""
              ProductIDs := []
              TotalPrice := b.Price
              PlatformFee := fee
              Status := OrderStatus.OrderStatusCompleted
              CreatedAt := orderCreatedAt }
          match env.OrderCreateOrder h order with
          | some err => (.fail err, h ++ [⟨Call.OrderCreateOrder order, some err⟩])
          | none =>
            let h := h ++ [⟨Call.OrderCreateOrder order, none⟩]
            let paymentCreatedAt := env.TimeNow h
            let h := h ++ [⟨Call.TimeNow, none⟩]
            let payment : Payment :=
              { FromUserID := resellerID
                ToUserID := b.SupplierID
                Amount := b.Price
                PlatformFee := fee
                SellerEarning := net
                Status := "Paid"
                ReferenceID := b.ID
                Type_ := PaymentType.B2B
                CreatedAt := paymentCreatedAt }
            match env.PaymentRecordPayment h payment with
            | some err => (.fail err, h ++ [⟨Call.PaymentRecordPayment payment, some err⟩])
            | none =>
              let h := h ++ [⟨Call.PaymentRecordPayment payment, none⟩]
              match env.BundleMarkAsPurchased h b.ID resellerID with
              | some err =>
                (.fail err, h ++ [⟨Call.BundleMarkAsPurchased b.ID resellerID, some err⟩])
              | none =>
                let h := h ++ [⟨Call.BundleMarkAsPurchased b.ID resellerID, none⟩]
                let itemID := env.NewObjectID h
                let h := h ++ [⟨Call.NewObjectID, none⟩]
                let itemCreatedAt := env.TimeNow h
                let h := h ++ [⟨Call.TimeNow, none⟩]
                let warehouseItem : WarehouseItem :=
                  { ID := itemID
                    BundleID := b.ID
                    ResellerID := resellerID
                    ProductID := ""
                    Status := "pending"
                    DeclaredRating := b.DeclaredRating
                    RemainingItemCount := b.RemainingItemCount
                    Grade := b.Grade
                    Type_ := b.Type_
                    Quantity := b.Quantity
                    SortingLevel := b.SortingLevel
                    SampleImage := b.SampleImage
                    CreatedAt := itemCreatedAt }
                match env.WarehouseAddItem h warehouseItem with
                | some err =>
                  (.fail err, h ++ [⟨Call.WarehouseAddItem warehouseItem, some err⟩])
                | none =>
                  let h := h ++ [⟨Call.WarehouseAddItem warehouseItem, none⟩]
                  let h := h ++ [⟨Call.GoMarkItemAsListed warehouseItem.ID, none⟩]
                  ({ order := some order, payment := some payment,
                     warehouseItem := some warehouseItem, err := none }, h)

/-- The three results of `PurchaseProduct`; a nil pointer is `none`. -/
structure PurchaseProductResult where
  order : Option Order
  payment : Option Payment
  err : Option String
deriving DecidableEq

/-- The use case `orderUseCaseImpl.PurchaseProduct`: its three results and the history after
the call.  The product pointer is dereferenced without a nil check. -/
def PurchaseProduct (env : Env) (h : List Event) (productID consumerID : String)
    (totalPrice : ℚ) : Outcome PurchaseProductResult × List Event :=
  match env.ProductGetProductByID h productID with
  | .error err =>
    (.returned { order := none, payment := none,
                 err := some ("failed to get product details: " ++ err) },
      h ++ [⟨Call.ProductGetProductByID productID, some err⟩])
  | .ok none => (.panicked, h ++ [⟨Call.ProductGetProductByID productID, none⟩])
  | .ok (some prod) =>
    let h := h ++ [⟨Call.ProductGetProductByID productID, none⟩]
    let platformFee := F64.mul totalPrice (F64.lit (2 / 100))
    let netAmount := F64.sub totalPrice platformFee
    let orderID := env.NewObjectID h
    let h := h ++ [⟨Call.NewObjectID, none⟩]
    let orderCreatedAt := env.TimeNow h
    let h := h ++ [⟨Call.TimeNow, none⟩]
    let order : Order :=
      { ID := orderID
        ResellerID := prod.ResellerID
        SupplierID := ""
        BundleID := ""
        ConsumerID := consumerID
        ProductIDs := [productID]
        TotalPrice := totalPrice
        PlatformFee := platformFee
        Status := OrderStatus.OrderStatusCompleted
        CreatedAt := orderCreatedAt }
    match env.OrderCreateOrder h order with
    | some err =>
      (.returned { order := none, payment := none, err := some err },
        h ++ [⟨Call.OrderCreateOrder order, some err⟩])
    | none =>
      let h := h ++ [⟨Call.OrderCreateOrder order, none⟩]
      let paymentCreatedAt := env.TimeNow h
      let h := h ++ [⟨Call.TimeNow, none⟩]
      let payment : Payment :=
        { FromUserID := consumerID
          ToUserID := prod.ResellerID
          Amount := totalPrice
          PlatformFee := platformFee
          SellerEarning := netAmount
          Status := "Paid"
          ReferenceID := productID
          Type_ := PaymentType.B2C
          CreatedAt := paymentCreatedAt }
      match env.PaymentRecordPayment h payment with
      | some err =>
        (.returned { order := none, payment := none, err := some err },
          h ++ [⟨Call.PaymentRecordPayment payment, some err⟩])
      | none =>
        (.returned { order := some order, payment := some payment, err := none },
          h ++ [⟨Call.PaymentRecordPayment payment, none⟩])

/-! ## Cart checkout (`cartitem_usecase.go`) -/

/-- The body of the `for _, item := range items` loop of `CheckoutCart`, run over the lines
still to process: the running total and response lines on success or the error that ends the
checkout, and the history after the loop. -/
def checkoutLoop (env : Env) (userID : String) :
    List CartItem → List Event → ℚ → List CheckoutItemResponse →
      Outcome (Except String (ℚ × List CheckoutItemResponse)) × List Event
  | [], h, total, checkoutItems => (.returned (.ok (total, checkoutItems)), h)
  | item :: rest, h, total, checkoutItems =>
    let notFound : String := "product with ListingID " ++ item.ListingID ++ " not found"
    match env.ProductGetProductByID h item.ListingID with
    | .error err =>
      (.returned (.error notFound),
        h ++ [⟨Call.ProductGetProductByID item.ListingID, some err⟩])
    | .ok none =>
      (.returned (.error notFound),
        h ++ [⟨Call.ProductGetProductByID item.ListingID, none⟩])
    | .ok (some prod) =>
      let h := h ++ [⟨Call.ProductGetProductByID item.ListingID, none⟩]
      if prod.Status != "available" then
        (.returned (.error ("item " ++ env.Quote prod.Title ++ " is no longer available")), h)
      else
        let total := F64.add total prod.Price
        let checkoutItems := checkoutItems ++
          [{ ListingID := prod.ID, Title := prod.Title, Price := prod.Price,
             SellerID := prod.ResellerID, Status := prod.Status }]
        match PurchaseProduct env h prod.ID userID prod.Price with
        | (.panicked, h) => (.panicked, h)
        | (.returned { order := _, payment := _, err := some err }, h) =>
          (.returned (.error ("failed to create order for product " ++ prod.ID ++ ": " ++ err)),
            h)
        | (.returned { order := _, payment := none, err := none }, h) => (.panicked, h)
        | (.returned { order := _, payment := some payment, err := none }, h) =>
          let payment := { payment with ToUserID := prod.ResellerID }
          match env.PaymentRecordPayment h payment with
          | some err =>
            (.returned
              (.error ("failed to update payment for product " ++ prod.ID ++ ": " ++ err)),
              h ++ [⟨Call.PaymentRecordPayment payment, some err⟩])
          | none =>
            let h := h ++ [⟨Call.PaymentRecordPayment payment, none⟩]
            match env.ProductUpdateProduct h prod.ID [("status", "sold")] with
            | some err =>
              (.returned
                (.error ("failed to mark product " ++ prod.ID ++ " as sold: " ++ err)),
                h ++ [⟨Call.ProductUpdateProduct prod.ID [("status", "sold")], some err⟩])
            | none =>
              checkoutLoop env userID rest
                (h ++ [⟨Call.ProductUpdateProduct prod.ID [("status", "sold")], none⟩])
                total checkoutItems

/-- The use case `cartItemUsecase.CheckoutCart`, with the order use case it is wired to in
`cmd/main.go`: the summary or the error, and the history after the call. -/
def CheckoutCart (env : Env) (h : List Event) (userID : String) :
    Outcome (Except String CheckoutResponse) × List Event :=
  match env.CartGetCartItems h userID with
  | .error err => (.returned (.error err), h ++ [⟨Call.CartGetCartItems userID, some err⟩])
  | .ok items =>
    let h := h ++ [⟨Call.CartGetCartItems userID, none⟩]
    if items.length = 0 then (.returned (.error "cart is empty"), h)
    else
      match checkoutLoop env userID items h 0 [] with
      | (.panicked, h) => (.panicked, h)
      | (.returned (.error err), h) => (.returned (.error err), h)
      | (.returned (.ok (total, checkoutItems)), h) =>
        let platformFee := F64.mul total (F64.lit (2 / 100))
        let netPayable := F64.sub total platformFee
        match env.CartClearCart h userID with
        | some err => (.returned (.error err), h ++ [⟨Call.CartClearCart userID, some err⟩])
        | none =>
          let h := h ++ [⟨Call.CartClearCart userID, none⟩]
          let h := h ++ [⟨Call.GoDeliverySimulation, none⟩]
          (.returned (.ok { TotalAmount := total, Items := checkoutItems,
                            PlatformFee := platformFee, NetPayable := netPayable }), h)

/-- The use case `cartItemUsecase.CheckoutSingleItem`, with the order use case it is wired to
in `cmd/main.go`: the summary or the error, and the history after the call. -/
def CheckoutSingleItem (env : Env) (h : List Event) (userID listingID : String) :
    Outcome (Except String CheckoutResponse) × List Event :=
  match env.CartGetCartItems h userID with
  | .error err => (.returned (.error err), h ++ [⟨Call.CartGetCartItems userID, some err⟩])
  | .ok items =>
    let h := h ++ [⟨Call.CartGetCartItems userID, none⟩]
    match items.find? (fun i => i.ListingID == listingID) with
    | none => (.returned (.error "item not found in cart"), h)
    | some _ =>
      let notFound : String := "product with ListingID " ++ listingID ++ " not found"
      match env.ProductGetProductByID h listingID with
      | .error err =>
        (.returned (.error notFound), h ++ [⟨Call.ProductGetProductByID listingID, some err⟩])
      | .ok none =>
        (.returned (.error notFound), h ++ [⟨Call.ProductGetProductByID listingID, none⟩])
      | .ok (some prod) =>
        let h := h ++ [⟨Call.ProductGetProductByID listingID, none⟩]
        if prod.Status != "available" then
          (.returned (.error ("item " ++ env.Quote prod.Title ++ " is no longer available")), h)
        else
          let total := prod.Price
          let platformFee := F64.mul total (F64.lit (2 / 100))
          let netPayable := F64.sub total platformFee
          match PurchaseProduct env h prod.ID userID prod.Price with
          | (.panicked, h) => (.panicked, h)
          | (.returned { order := _, payment := _, err := some err }, h) =>
            (.returned
              (.error ("failed to create order for product " ++ prod.ID ++ ": " ++ err)), h)
          | (.returned { order := _, payment := none, err := none }, h) => (.panicked, h)
          | (.returned { order := _, payment := some payment, err := none }, h) =>
            let payment := { payment with ToUserID := prod.ResellerID }
            match env.PaymentRecordPayment h payment with
            | some err =>
              (.returned
                (.error ("failed to update payment for product " ++ prod.ID ++ ": " ++ err)),
                h ++ [⟨Call.PaymentRecordPayment payment, some err⟩])
            | none =>
              let h := h ++ [⟨Call.PaymentRecordPayment payment, none⟩]
              match env.ProductUpdateProduct h prod.ID [("status", "sold")] with
              | some err =>
                (.returned
                  (.error ("failed to mark product " ++ prod.ID ++ " as sold: " ++ err)),
                  h ++ [⟨Call.ProductUpdateProduct prod.ID [("status", "sold")], some err⟩])
              | none =>
                let h := h ++ [⟨Call.ProductUpdateProduct prod.ID [("status", "sold")], none⟩]
                match env.CartDeleteCartItem h userID listingID with
                | some err =>
                  (.returned (.error err),
                    h ++ [⟨Call.CartDeleteCartItem userID listingID, some err⟩])
                | none =>
                  let h := h ++ [⟨Call.CartDeleteCartItem userID listingID, none⟩]
                  let h := h ++ [⟨Call.GoDeliverySimulation, none⟩]
                  (.returned (.ok
                    { TotalAmount := total
                      Items := [{ ListingID := prod.ID, Title := prod.Title,
                                  Price := prod.Price, SellerID := prod.ResellerID,
                                  Status := "sold" }]
                      PlatformFee := platformFee
                      NetPayable := netPayable }), h)

/-- What a cart line that went through leaves behind: the product fetched for the line, and
the order and the payment that `PurchaseProduct` created for it. -/
structure CartLine where
  prod : Product
  order : Order
  payment : Payment

/-- The four writes of a cart line that went through, each without error: the order, the
payment recorded by `PurchaseProduct`, the payment recorded again by the checkout, and the
update of the product status to "sold". -/
def CartLine.writes (l : CartLine) : List Event :=
  [⟨Call.OrderCreateOrder l.order, none⟩, ⟨Call.PaymentRecordPayment l.payment, none⟩,
   ⟨Call.PaymentRecordPayment { l.payment with ToUserID := l.prod.ResellerID }, none⟩,
   ⟨Call.ProductUpdateProduct l.prod.ID [("status", "sold")], none⟩]

/-- The response line `CheckoutCart` appends for a fetched product. -/
def checkoutItemOf (prod : Product) : CheckoutItemResponse :=
  { ListingID := prod.ID, Title := prod.Title, Price := prod.Price,
    SellerID := prod.ResellerID, Status := prod.Status }

/-- Line `l` is what the cart item `item` of user `userID` left behind: its product was
fetched under the item's listing ID and was available, the order is for that product alone,
by that user, at the product's price, and the payment refers to the product, comes from that
user and has the product's price as amount. -/
def CartLine.settles (env : Env) (userID : String) (item : CartItem) (l : CartLine) : Prop :=
  (∃ hh, env.ProductGetProductByID hh item.ListingID = .ok (some l.prod)) ∧
  l.prod.Status = "available" ∧
  l.order.ProductIDs = [l.prod.ID] ∧ l.order.ConsumerID = userID ∧
  l.order.TotalPrice = l.prod.Price ∧
  l.payment.ReferenceID = l.prod.ID ∧ l.payment.FromUserID = userID ∧
  l.payment.Amount = l.prod.Price

/-! ## Order orchestrator: dashboards and order histories (`OrderUsecase.go`) -/

/-- A Go `map[string]string`: the value stored under each key, if any. -/
def GoMap : Type := String → Option String

/-- The map `make(map[string]string)`. -/
def GoMap.empty : GoMap := fun _ => none

/-- The assignment `m[k] = v`. -/
def GoMap.set (m : GoMap) (k v : String) : GoMap := fun x => if x = k then some v else m x

/-- Modelled from the spec: `order.PerformanceMetrics`, whose declaration is not among the
sources.  The counters are Go `int`s counting elements of a slice, which has fewer than
`2 ^ 63` elements, so they do not wrap. -/
structure PerformanceMetrics where
  TotalBundlesListed : ℤ
  ActiveCount : ℤ
  SoldCount : ℤ
deriving DecidableEq

/-- Modelled from the spec: `order.DashboardMetrics`, whose declaration is not among the
sources; these are the fields `GetDashboardMetrics` fills. -/
structure DashboardMetrics where
  TotalSales : ℚ
  ActiveBundles : List Bundle
  PerformanceMetrics : PerformanceMetrics
  Rating : ℤ
  BestSelling : ℚ
deriving DecidableEq

/-- Modelled from the spec: `order.ResellerMetrics`, whose declaration is not among the
sources; these are the fields `GetResellerMetrics` fills. -/
structure ResellerMetrics where
  TotalBoughtBundles : ℤ
  TotalItemsSold : ℤ
  Rating : ℤ
  BestSelling : ℚ
  BoughtBundles : List Bundle
deriving DecidableEq

/-- The `for _, b := range bundles` loop of `GetDashboardMetrics`: the values of
`totalSales`, `activeCount`, `soldCount`, `bestSelling` and `activeBundles` after it. -/
def dashboardLoop : List Bundle → ℚ → ℤ → ℤ → ℚ → List Bundle →
    ℚ × ℤ × ℤ × ℚ × List Bundle
  | [], totalSales, activeCount, soldCount, bestSelling, activeBundles =>
    (totalSales, activeCount, soldCount, bestSelling, activeBundles)
  | b :: rest, totalSales, activeCount, soldCount, bestSelling, activeBundles =>
    if b.Status == "purchased" then
      dashboardLoop rest (F64.add totalSales b.Price) activeCount (soldCount + 1)
        (if b.Price > bestSelling then b.Price else bestSelling) activeBundles
    else if b.Status == "available" then
      dashboardLoop rest totalSales (activeCount + 1) soldCount bestSelling
        (activeBundles ++ [b])
    else
      dashboardLoop rest totalSales activeCount soldCount bestSelling activeBundles

/-- The use case `orderUseCaseImpl.GetDashboardMetrics`: the metrics or the error, and the
history after the call.  The `less` handed to `sort.Slice` is `DateListed.After`.  A nil
account is dereferenced when the metrics are built (`userData.TrustScore`). -/
def GetDashboardMetrics (env : Env) (h : List Event) (supplierID : String) :
    Outcome (Except String DashboardMetrics) × List Event :=
  match env.BundleListBundles h supplierID with
  | .error err =>
    (.returned (.error err), h ++ [⟨Call.BundleListBundles supplierID, some err⟩])
  | .ok bundles =>
    let h := h ++ [⟨Call.BundleListBundles supplierID, none⟩]
    match env.UserGetByID h supplierID with
    | .error err => (.returned (.error err), h ++ [⟨Call.UserGetByID supplierID, some err⟩])
    | .ok none => (.panicked, h ++ [⟨Call.UserGetByID supplierID, none⟩])
    | .ok (some userData) =>
      let h := h ++ [⟨Call.UserGetByID supplierID, none⟩]
      match dashboardLoop bundles 0 0 0 0 [] with
      | (totalSales, activeCount, soldCount, bestSelling, activeBundles) =>
        let activeBundles :=
          env.SortSlice (fun a b => decide (a.DateListed > b.DateListed)) activeBundles
        (.returned (.ok
          { TotalSales := totalSales
            ActiveBundles := activeBundles
            PerformanceMetrics :=
              { TotalBundlesListed := bundles.length, ActiveCount := activeCount,
                SoldCount := soldCount }
            Rating := userData.TrustScore
            BestSelling := bestSelling }), h)

/-- The use case `orderUseCaseImpl.GetResellerMetrics`: the metrics or the error, and the
history after the call.  A nil account is dereferenced right after the lookup
(`reseller.Username`). -/
def GetResellerMetrics (env : Env) (h : List Event) (resellerID : String) :
    Outcome (Except String ResellerMetrics) × List Event :=
  match env.BundleListPurchasedByReseller h resellerID with
  | .error err =>
    (.returned (.error err),
      h ++ [⟨Call.BundleListPurchasedByReseller resellerID, some err⟩])
  | .ok bundles =>
    let h := h ++ [⟨Call.BundleListPurchasedByReseller resellerID, none⟩]
    match env.UserGetByID h resellerID with
    | .error err => (.returned (.error err), h ++ [⟨Call.UserGetByID resellerID, some err⟩])
    | .ok none => (.panicked, h ++ [⟨Call.UserGetByID resellerID, none⟩])
    | .ok (some reseller) =>
      let h := h ++ [⟨Call.UserGetByID resellerID, none⟩]
      match env.ProductGetSoldProductsByReseller h resellerID with
      | .error err =>
        (.returned (.error err),
          h ++ [⟨Call.ProductGetSoldProductsByReseller resellerID, some err⟩])
      | .ok soldProducts =>
        let h := h ++ [⟨Call.ProductGetSoldProductsByReseller resellerID, none⟩]
        let bestSelling := soldProducts.foldl
          (fun bestSelling product =>
            if product.Price > bestSelling then product.Price else bestSelling) 0
        (.returned (.ok
          { TotalBoughtBundles := bundles.length
            TotalItemsSold := soldProducts.length
            Rating := reseller.TrustScore
            BestSelling := bestSelling
            BoughtBundles := bundles }), h)

/-- The `for _, order := range orders` loop of `GetSoldBundleHistory`: the map `userNames`
and the history after it.  A failed lookup is logged and the loop continues; the account of
a lookup without an error is dereferenced without a nil check (`user.Username`). -/
def soldBundleHistoryLoop (env : Env) :
    List Order → List Event → GoMap → Outcome GoMap × List Event
  | [], h, userNames => (.returned userNames, h)
  | order :: rest, h, userNames =>
    if order.ResellerID != "" then
      match env.UserGetByID h order.ResellerID with
      | .error err =>
        soldBundleHistoryLoop env rest
          (h ++ [⟨Call.UserGetByID order.ResellerID, some err⟩]) userNames
      | .ok none => (.panicked, h ++ [⟨Call.UserGetByID order.ResellerID, none⟩])
      | .ok (some user) =>
        soldBundleHistoryLoop env rest (h ++ [⟨Call.UserGetByID order.ResellerID, none⟩])
          (userNames.set order.ResellerID user.Username)
    else soldBundleHistoryLoop env rest h userNames

/-- The use case `orderUseCaseImpl.GetSoldBundleHistory`: the orders and the user names, or
the error, and the history after the call. -/
def GetSoldBundleHistory (env : Env) (h : List Event) (supplierID : String) :
    Outcome (Except String (List Order × GoMap)) × List Event :=
  match env.OrderGetOrdersBySupplier h supplierID with
  | .error err =>
    (.returned (.error err), h ++ [⟨Call.OrderGetOrdersBySupplier supplierID, some err⟩])
  | .ok orders =>
    let h := h ++ [⟨Call.OrderGetOrdersBySupplier supplierID, none⟩]
    match soldBundleHistoryLoop env orders h GoMap.empty with
    | (.panicked, h) => (.panicked, h)
    | (.returned userNames, h) => (.returned (.ok (orders, userNames)), h)

/-- The `for _, order := range orders` loop of `GetOrdersByReseller`: the map `userNames` and
the history after it.  An order with product IDs is a sold order, joined with its consumer;
otherwise an order with a bundle ID is a bought order, joined with its supplier. -/
def ordersByResellerLoop (env : Env) : List Order → List Event → GoMap → GoMap × List Event
  | [], h, userNames => (userNames, h)
  | order :: rest, h, userNames =>
    if order.ProductIDs.length > 0 then
      if order.ConsumerID != "" then
        match env.UserGetByID h order.ConsumerID with
        | .ok (some user) =>
          ordersByResellerLoop env rest (h ++ [⟨Call.UserGetByID order.ConsumerID, none⟩])
            (userNames.set order.ConsumerID user.Username)
        | .ok none =>
          ordersByResellerLoop env rest (h ++ [⟨Call.UserGetByID order.ConsumerID, none⟩])
            userNames
        | .error err =>
          ordersByResellerLoop env rest
            (h ++ [⟨Call.UserGetByID order.ConsumerID, some err⟩]) userNames
      else ordersByResellerLoop env rest h userNames
    else if order.BundleID != "" then
      if order.SupplierID != "" then
        match env.UserGetByID h order.SupplierID with
        | .ok (some user) =>
          ordersByResellerLoop env rest (h ++ [⟨Call.UserGetByID order.SupplierID, none⟩])
            (userNames.set order.SupplierID user.Username)
        | .ok none =>
          ordersByResellerLoop env rest (h ++ [⟨Call.UserGetByID order.SupplierID, none⟩])
            userNames
        | .error err =>
          ordersByResellerLoop env rest
            (h ++ [⟨Call.UserGetByID order.SupplierID, some err⟩]) userNames
      else ordersByResellerLoop env rest h userNames
    else ordersByResellerLoop env rest h userNames

/-- The use case `orderUseCaseImpl.GetOrdersByReseller`: the orders and the user names, or
the error, and the history after the call. -/
def GetOrdersByReseller (env : Env) (h : List Event) (resellerID : String) :
    Except String (List Order × GoMap) × List Event :=
  match env.OrderGetOrdersByReseller h resellerID with
  | .error err => (.error err, h ++ [⟨Call.OrderGetOrdersByReseller resellerID, some err⟩])
  | .ok orders =>
    let h := h ++ [⟨Call.OrderGetOrdersByReseller resellerID, none⟩]
    match ordersByResellerLoop env orders h GoMap.empty with
    | (userNames, h) => (.ok (orders, userNames), h)

/-- The keys of the set `productIDs` of `GetOrdersByConsumer` after `productIDs[productID] =
true`, in the order they were first inserted. -/
def insertKey (keys : List String) (productID : String) : List String :=
  if productID ∈ keys then keys else keys ++ [productID]

/-- The first loop of `GetOrdersByConsumer`: the map `userNames`, the keys of the set
`productIDs` and the history after it. -/
def ordersByConsumerLoop (env : Env) :
    List Order → List Event → GoMap → List String → GoMap × List String × List Event
  | [], h, userNames, productIDs => (userNames, productIDs, h)
  | order :: rest, h, userNames, productIDs =>
    if order.ResellerID != "" then
      match env.UserGetByID h order.ResellerID with
      | .ok (some user) =>
        ordersByConsumerLoop env rest (h ++ [⟨Call.UserGetByID order.ResellerID, none⟩])
          (userNames.set order.ResellerID user.Username)
          (order.ProductIDs.foldl insertKey productIDs)
      | .ok none =>
        ordersByConsumerLoop env rest (h ++ [⟨Call.UserGetByID order.ResellerID, none⟩])
          userNames (order.ProductIDs.foldl insertKey productIDs)
      | .error err =>
        ordersByConsumerLoop env rest
          (h ++ [⟨Call.UserGetByID order.ResellerID, some err⟩]) userNames
          (order.ProductIDs.foldl insertKey productIDs)
    else
      ordersByConsumerLoop env rest h userNames (order.ProductIDs.foldl insertKey productIDs)

/-- The second loop of `GetOrdersByConsumer`, over the product IDs in the order the `range`
visits them: the map `productNames` and the history after it. -/
def productNamesLoop (env : Env) : List String → List Event → GoMap → GoMap × List Event
  | [], h, productNames => (productNames, h)
  | productID :: rest, h, productNames =>
    match env.ProductGetProductByID h productID with
    | .ok (some product) =>
      productNamesLoop env rest (h ++ [⟨Call.ProductGetProductByID productID, none⟩])
        (productNames.set productID product.Title)
    | .ok none =>
      productNamesLoop env rest (h ++ [⟨Call.ProductGetProductByID productID, none⟩])
        productNames
    | .error err =>
      productNamesLoop env rest (h ++ [⟨Call.ProductGetProductByID productID, some err⟩])
        productNames

/-- The use case `orderUseCaseImpl.GetOrdersByConsumer`: the orders, the user names and the
product names, or the error, and the history after the call. -/
def GetOrdersByConsumer (env : Env) (h : List Event) (consumerID : String) :
    Except String (List Order × GoMap × GoMap) × List Event :=
  match env.OrderGetOrdersByConsumer h consumerID with
  | .error err =>
    (.error ("failed to get consumer orders: " ++ err),
      h ++ [⟨Call.OrderGetOrdersByConsumer consumerID, some err⟩])
  | .ok orders =>
    let h := h ++ [⟨Call.OrderGetOrdersByConsumer consumerID, none⟩]
    match ordersByConsumerLoop env orders h GoMap.empty [] with
    | (userNames, productIDs, h) =>
      match productNamesLoop env (env.MapRange h productIDs) h GoMap.empty with
      | (productNames, h) => (.ok (orders, userNames, productNames), h)

/-- The names a loop of lookups leaves in a map: for each key in turn, the name found for
it, if any, is stored under the key. -/
def collectNames (found : String → Option String) (keys : List String) (m : GoMap) : GoMap :=
  keys.foldl (fun m k => match found k with
    | some v => m.set k v
    | none => m) m

/-! ## Fulfillment state machine -/

/-- Modelled from the spec: the warehouse repository method `MarkItemAsListed`, whose
implementation is not among the sources (only its caller, the goroutine launched by
`PurchaseBundle`, and its mocks are).  The automatic transition "must re-check that the item
is still Pending before writing Listed": the item with the given ID becomes "listed" if its
status is "pending", and nothing else in the store changes. -/
def MarkItemAsListed (store : List WarehouseItem) (itemID : String) : List WarehouseItem :=
  store.map (fun item =>
    if item.ID = itemID ∧ item.Status = "pending" then { item with Status := "listed" }
    else item)

/-- Modelled from the spec: the warehouse repository method `MarkItemAsSkipped`, whose
implementation is not among the sources: the manual transition `Pending → Skipped`. -/
def MarkItemAsSkipped (store : List WarehouseItem) (itemID : String) : List WarehouseItem :=
  store.map (fun item =>
    if item.ID = itemID ∧ item.Status = "pending" then { item with Status := "skipped" }
    else item)

/-- The transitions of the fulfillment state machine: the automatic one, which the goroutine
launched by `PurchaseBundle` performs after its delay by calling `MarkItemAsListed`, and the
manual skip. -/
inductive WarehouseTransition
  | timerFires (itemID : String)
  | manualSkip (itemID : String)
deriving DecidableEq

/-- The store after a transition. -/
def WarehouseTransition.apply (store : List WarehouseItem) :
    WarehouseTransition → List WarehouseItem
  | .timerFires itemID => MarkItemAsListed store itemID
  | .manualSkip itemID => MarkItemAsSkipped store itemID

/-- The store after a sequence of transitions, in the order they happen. -/
def runTransitions (store : List WarehouseItem) (ts : List WarehouseTransition) :
    List WarehouseItem :=
  ts.foldl WarehouseTransition.apply store

/-! ## Warehouse (`warehouse_usecase.go`) -/

/-- The use case `cartItemUsecase.AddCartItem`: the returned error and the history after the
call. -/
def AddCartItem (env : Env) (h : List Event) (userID listingID : String) :
    Option String × List Event :=
  match env.ProductGetProductByID h listingID with
  | .error err =>
    (some ("failed to fetch product: " ++ err),
      h ++ [⟨Call.ProductGetProductByID listingID, some err⟩])
  | .ok none => (some "product not found", h ++ [⟨Call.ProductGetProductByID listingID, none⟩])
  | .ok (some prod) =>
    let h := h ++ [⟨Call.ProductGetProductByID listingID, none⟩]
    if prod.Status != "available" then
      (some ("product " ++ listingID ++ " is not available"), h)
    else
      let id := env.NewUUID h
      let h := h ++ [⟨Call.NewUUID, none⟩]
      let createdAt := env.TimeNow h
      let h := h ++ [⟨Call.TimeNow, none⟩]
      let cartItem : CartItem :=
        { ID := id
          UserID := userID
          ListingID := prod.ID
          Title := prod.Title
          Price := prod.Price
          ImageURL := prod.ImageURL
          Grade := prod.Grade
          CreatedAt := createdAt }
      let err := env.CartCreateCartItem h cartItem
      (err, h ++ [⟨Call.CartCreateCartItem cartItem, err⟩])

/-! ## Consumer controller (`consumer_controller.go`) -/

/-- The pagination bounds of `ConsumerController.GetOrderHistory` for a list of `n` orders:
the values of `start` and `end` after the two caps.  `page` and `limit` are what
`strconv.Atoi` made of the query string: any `int`, and 0 for text that is not a number. -/
def paginationBounds (n page limit : ℤ) : ℤ × ℤ :=
  let start := wrapInt64 (wrapInt64 (page - 1) * limit)
  let end_ := wrapInt64 (start + limit)
  let start := if start > n then n else start
  let end_ := if end_ > n then n else end_
  (start, end_)

/-- The slice expression `orders[start:end]` of `GetOrderHistory`: the page of orders, or the
run-time panic of Go for bounds that are out of range (a slice expression requires
`0 ≤ start ≤ end ≤ cap(orders)`; `end` has been capped at `len(orders)`, which is at most
the capacity). -/
def paginatedOrders (orders : List Order) (page limit : ℤ) : Outcome (List Order) :=
  match paginationBounds orders.length page limit with
  | (start, end_) =>
    if 0 ≤ start ∧ start ≤ end_ ∧ end_ ≤ orders.length then
      .returned ((orders.drop start.toNat).take (end_ - start).toNat)
    else .panicked

/-! ## Trust engine with the special values of `float64`

`recompute` evaluates the statements of the trust update with finite arithmetic: its values
are those of the Go run as long as the run divides by no zero and no operation overflows.
`recomputeVal` evaluates the same statements with infinities and NaN. -/

/-- The trust fields of an account as a Go run holds them: `TrustTotalError` is a `float64`,
which may be an infinity or NaN. -/
structure TrustData where
  TrustScore : ℤ
  TrustTotalError : F64.Val
  TrustRatedCount : ℤ
  IsBlacklisted : Bool
deriving DecidableEq

/-- The trust fields of a stored account. -/
def User.trustData (user : User) : TrustData :=
  { TrustScore := user.TrustScore, TrustTotalError := .fin user.TrustTotalError,
    TrustRatedCount := user.TrustRatedCount, IsBlacklisted := user.IsBlacklisted }

/-- Steps 2 to 5 of `UpdateSupplierTrustScoreOnNewRating` (and, statement for statement, of
`UpdateResellerTrustScoreOnNewRating`) with the special values of `float64`: a window
divisor of zero gives an infinity or NaN, both comparisons of the clamp are false on NaN,
and so is `newTrust < 40`. -/
def recomputeVal (user : TrustData) (declaredRating productRating : F64.Val) : TrustData :=
  let user : TrustData :=
    if user.TrustRatedCount = 0 then
      { user with TrustTotalError := .fin 0, TrustRatedCount := 0, TrustScore := 100 }
    else user
  let diff : F64.Val := (productRating.sub declaredRating).abs
  let newTotalError : F64.Val := user.TrustTotalError.add diff
  let newRatedCount : ℤ := wrapInt64 (user.TrustRatedCount + 1)
  let windowSize : ℤ := 5
  let windowError : F64.Val :=
    if newRatedCount > 1 then
      let windowStart : F64.Val :=
        F64.Val.max (.fin 0) (F64.Val.ofInt (wrapInt64 (newRatedCount - windowSize)))
      (newTotalError.sub user.TrustTotalError).div
        (F64.Val.ofInt (wrapInt64 (newRatedCount - windowStart.toInt)))
    else diff
  let historicalWeight : F64.Val := F64.Val.ofRat (3 / 10)
  let recentWeight : F64.Val := F64.Val.ofRat (7 / 10)
  let historicalScore : F64.Val :=
    (F64.Val.fin 100).sub
      ((newTotalError.div (F64.Val.ofInt newRatedCount)).mul (.fin 10))
  let recentScore : F64.Val := (F64.Val.fin 100).sub (windowError.mul (.fin 10))
  let newTrust : F64.Val :=
    (historicalScore.mul historicalWeight).add (recentScore.mul recentWeight)
  let newTrust : F64.Val :=
    if newTrust.lt (.fin 0) then .fin 0
    else if (F64.Val.fin 100).lt newTrust then .fin 100 else newTrust
  { user with
    IsBlacklisted := newTrust.lt (.fin 40)
    TrustScore := newTrust.toInt
    TrustRatedCount := newRatedCount
    TrustTotalError := newTotalError }

/-- The trust fields of an account after a sequence of successful trust updates, each given
by its declared and its observed rating, with the special values of `float64`. -/
def applyRatingsVal (user : TrustData) (ratings : List (F64.Val × F64.Val)) : TrustData :=
  ratings.foldl (fun user rating => recomputeVal user rating.1 rating.2) user

/-! ## Trust engine: sequences of updates -/

/-- The stored profile of an account after a sequence of successful trust updates, each
given by its declared and its observed rating: every update loads the stored profile and
stores what `recompute` makes of it. -/
def applyRatings (user : User) (ratings : List (ℚ × ℚ)) : User :=
  ratings.foldl (fun user rating => recompute user rating.1 rating.2) user

/-! ## Sample collaborators

Stub answers in the manner of the test mocks of the repository, used to run the use cases
on concrete inputs. -/

/-- The account of the trust test "multiple ratings": one rating so far, total error 0.5. -/
def sampleUser : User :=
  { ID := "supplier1", Username := "supplier one", TrustScore := 90,
    TrustTotalError := 1 / 2, TrustRatedCount := 1, IsBlacklisted := false }

/-- The bundle of `TestPurchaseBundle`: `bundle1` of `supplier1`, priced 100.0. -/
def sampleBundle : Bundle :=
  { ID := "bundle1", Title := "Test Bundle", SupplierID := "supplier1", Price := 100,
    Status := "available", DeclaredRating := 4, RemainingItemCount := 10, Grade := "A",
    Type_ := "sorted", Quantity := 10, SortingLevel := "sorted", SampleImage := "img.jpg",
    DateListed := 0 }

/-- A product listed by `reseller1`, priced 100.0. -/
def sampleProduct : Product :=
  { ID := "prod1", ResellerID := "reseller1", Title := "Test Product 1", Price := 100,
    Status := "available", ImageURL := "img1.jpg", Grade := "A", Rating := 9 / 2 }

/-- A cart line for `sampleProduct`. -/
def sampleCartItem : CartItem :=
  { ID := "item1", UserID := "user1", ListingID := "prod1", Title := "Test Product 1",
    Price := 100, ImageURL := "img1.jpg", Grade := "A" }

/-- Collaborators that answer every call successfully with the sample records.  `Quote` puts
its argument between double quotes, which is what `strconv.Quote` does to the sample titles
(printable ASCII characters, no double quote and no backslash). -/
def stubEnv : Env :=
  { UserGetByID := fun _ _ => .ok (some sampleUser)
    UserUpdateTrustData := fun _ _ => none
    BundleGetBundleByID := fun _ _ => .ok sampleBundle
    BundleListAvailableBundles := fun _ => .ok [sampleBundle]
    BundleMarkAsPurchased := fun _ _ _ => none
    OrderCreateOrder := fun _ _ => none
    PaymentRecordPayment := fun _ _ => none
    WarehouseAddItem := fun _ _ => none
    ProductGetProductByID := fun _ _ => .ok (some sampleProduct)
    ProductUpdateProduct := fun _ _ _ => none
    CartGetCartItems := fun _ _ => .ok [sampleCartItem]
    CartClearCart := fun _ _ => none
    CartDeleteCartItem := fun _ _ _ => none
    CartCreateCartItem := fun _ _ => none
    WarehouseGetItemsByReseller := fun _ _ => .ok []
    BundleListBundles := fun _ _ => .ok [sampleBundle]
    BundleListPurchasedByReseller := fun _ _ => .ok [sampleBundle]
    ProductGetSoldProductsByReseller := fun _ _ => .ok [sampleProduct]
    OrderGetOrdersBySupplier := fun _ _ => .ok []
    OrderGetOrdersByReseller := fun _ _ => .ok []
    OrderGetOrdersByConsumer := fun _ _ => .ok []
    SortSlice := fun less l => l.insertionSort (fun a b => less b a = false)
    Quote := fun s => "\"" ++ s ++ "\""
    MapRange := fun _ keys => keys
    RandIntn := fun _ => 42
    NewObjectID := fun h => "oid" ++ toString h.length
    NewUUID := fun h => "uuid" ++ toString h.length
    TimeNow := fun _ => "2025-01-01T00:00:00Z" }

/-- Modelled from the spec: the `Conflict` class of the error taxonomy (self-purchase,
not-available).  The Go code has no error types; the two conflicts `PurchaseBundle` raises
are these messages. -/
def isConflictError (err : String) : Bool :=
  err == "bundle not available" || err == "reseller cannot purchase their own bundle"

/-- Collaborators as `stubEnv`, except that listing the available bundles fails. -/
def listingDownEnv : Env :=
  { stubEnv with BundleListAvailableBundles := fun _ => .error "connection refused" }

/-- Collaborators as `stubEnv`, except that the availability listing is empty while the
status field of `sampleBundle` still says "available". -/
def unlistedEnv : Env :=
  { stubEnv with BundleListAvailableBundles := fun _ => .ok [] }

/-- Modelled from the spec: `round(newScore)` of step 8 of the trust engine, the nearest
integer of the clamped score. -/
def specRoundedScore (user : User) (declaredRating productRating : ℚ) : ℤ :=
  round (newTrustScore user declaredRating productRating)

/-- Modelled from the spec: an amount "rounded to the currency's minor unit", one hundredth
of the unit. -/
def roundToMinorUnit (amount : ℚ) : ℚ := (round (amount * 100) : ℤ) / 100

/-- An account that has not been rated yet. -/
def newUser : User :=
  { ID := "supplier1", Username := "supplier one", TrustScore := 0,
    TrustTotalError := 0, TrustRatedCount := 0, IsBlacklisted := false }

/-- Modelled from the spec: `clamp(0, 100, x)`. -/
def clampScore (x : ℚ) : ℚ := if x < 0 then 0 else if x > 100 then 100 else x

/-- Both trust updates, run from history `h` for the account `id`, hand the profile
`persisted` to `UpdateTrustData` (which stores it when it succeeds) and return that call's
error. -/
def TrustUpdatePersists (env : Env) (h : List Event) (id : String)
    (declaredRating productRating : ℚ) (persisted : User) : Prop :=
  UpdateSupplierTrustScoreOnNewRating env h id declaredRating productRating =
      (.returned (env.UserUpdateTrustData (h ++ [⟨Call.UserGetByID id, none⟩]) persisted),
        h ++ [⟨Call.UserGetByID id, none⟩] ++ [⟨Call.UserUpdateTrustData persisted,
          env.UserUpdateTrustData (h ++ [⟨Call.UserGetByID id, none⟩]) persisted⟩]) ∧
  UpdateResellerTrustScoreOnNewRating env h id declaredRating productRating =
      (.returned (env.UserUpdateTrustData (h ++ [⟨Call.UserGetByID id, none⟩]) persisted),
        h ++ [⟨Call.UserGetByID id, none⟩] ++ [⟨Call.UserUpdateTrustData persisted,
          env.UserUpdateTrustData (h ++ [⟨Call.UserGetByID id, none⟩]) persisted⟩])

/-- A run is payment-gated when it makes no persistent write at all, or a payment step that
returned no error stands before its first persistent write. -/
def paymentGated (calls : List Event) : Bool :=
  (writesOf calls).isEmpty ||
    (calls.takeWhile (fun e => !e.call.isWrite)).any
      (fun e => e.call.isPaymentStep && e.err.isNone)

/-- The second product of `TestCheckoutCart_Success`, priced 200.0. -/
def sampleProduct2 : Product :=
  { ID := "prod2", ResellerID := "reseller2", Title := "Test Product 2", Price := 200,
    Status := "available", ImageURL := "img2.jpg", Grade := "B", Rating := 4 }

/-- Two cart lines for `prod1` and `prod2` whose stored prices (90.0 and 180.0) are out of
date. -/
def staleCart : List CartItem :=
  [{ ID := "item1", UserID := "user1", ListingID := "prod1", Title := "Test Product 1",
     Price := 90, ImageURL := "img1.jpg", Grade := "A" },
   { ID := "item2", UserID := "user1", ListingID := "prod2", Title := "Test Product 2",
     Price := 180, ImageURL := "img2.jpg", Grade := "B" }]

/-- The product store of the two-line checkout: `prod1` at 100.0, every other ID answers
`prod2` at 200.0. -/
def twoProducts (id : String) : Product :=
  if id = "prod1" then sampleProduct else sampleProduct2

/-- Collaborators of the two-line checkout: the cart is `staleCart`, both products are
stored and available, and every write succeeds. -/
def twoLineEnv : Env :=
  { stubEnv with
    CartGetCartItems := fun _ _ => .ok staleCart
    ProductGetProductByID := fun _ id => .ok (some (twoProducts id)) }

/-- Collaborators as `twoLineEnv`, except that `prod2` has been sold in the meantime. -/
def secondLineSoldEnv : Env :=
  { stubEnv with
    CartGetCartItems := fun _ _ => .ok staleCart
    ProductGetProductByID := fun _ id =>
      if id = "prod1" then .ok (some sampleProduct)
      else .ok (some { sampleProduct2 with Status := "sold" }) }

/-- The calls that end a checkout: the removal of lines from a cart and the launch of the
delivery simulation that follows it. -/
def Call.isCartCleanup : Call → Bool
  | .CartClearCart _ => true
  | .CartDeleteCartItem _ _ => true
  | .GoDeliverySimulation => true
  | _ => false

/-- Collaborators as `stubEnv`, except that clearing a cart fails. -/
def clearCartDownEnv : Env :=
  { stubEnv with CartClearCart := fun _ _ => some "connection refused" }

/-- Collaborators as `stubEnv`, except that no account can be loaded. -/
def userDownEnv : Env :=
  { stubEnv with UserGetByID := fun _ _ => .error "user not found" }

/-- An order with the given ID, parties, bundle and products. -/
def sampleOrder (id resellerID supplierID consumerID bundleID : String)
    (productIDs : List String) : Order :=
  { ID := id, BundleID := bundleID, ResellerID := resellerID, SupplierID := supplierID,
    ConsumerID := consumerID, ProductIDs := productIDs, TotalPrice := 100, PlatformFee := 2,
    Status := OrderStatus.OrderStatusCompleted, CreatedAt := "2025-01-01T00:00:00Z" }

/-- Three orders: a bundle order of `reseller1` from `supplier1`, a product order of the
deleted account `ghost` at the reseller `ghost` for the products `prod1` and `gone`, and a
product order of `user1` at `reseller1` for `prod1`. -/
def sampleOrders : List Order :=
  [sampleOrder "order1" "reseller1" "supplier1" "" "bundle1" [],
   sampleOrder "order2" "ghost" "" "ghost" "" ["prod1", "gone"],
   sampleOrder "order3" "reseller1" "" "user1" "" ["prod1"]]

/-- The accounts of the order histories: every ID but `ghost` loads an account named after
the ID. -/
def sampleUsers (id : String) : Except String (Option User) :=
  if id = "ghost" then .error "user not found"
  else .ok (some { sampleUser with ID := id, Username := "name of " ++ id })

/-- The products of the order histories: every ID but `gone` loads `sampleProduct`. -/
def sampleProducts (id : String) : Except String (Option Product) :=
  if id = "gone" then .error "product not found" else .ok (some { sampleProduct with ID := id })

/-- Collaborators of the order histories: the three order listings answer `sampleOrders`,
the account `ghost` and the product `gone` cannot be loaded, and a `range` over a map visits
the keys in reverse. -/
def historyEnv : Env :=
  { stubEnv with
    OrderGetOrdersBySupplier := fun _ _ => .ok sampleOrders
    OrderGetOrdersByReseller := fun _ _ => .ok sampleOrders
    OrderGetOrdersByConsumer := fun _ _ => .ok sampleOrders
    UserGetByID := fun _ id => sampleUsers id
    ProductGetProductByID := fun _ id => sampleProducts id
    MapRange := fun _ keys => keys.reverse }

/-- The accounts of `sampleUsers`, except that the lookup of `ghost` answers nil without an
error. -/
def nilGhostUsers (id : String) : Except String (Option User) :=
  if id = "ghost" then .ok none else sampleUsers id

/-- Collaborators as `historyEnv`, except that the lookup of the account `ghost` answers nil
without an error. -/
def nilAccountEnv : Env :=
  { historyEnv with UserGetByID := fun _ id => nilGhostUsers id }

/-- A warehouse item as `PurchaseBundle` adds it: status "pending". -/
def sampleWarehouseItem : WarehouseItem :=
  { ID := "item1", ResellerID := "reseller1", BundleID := "bundle1", ProductID := "",
    Status := "pending", CreatedAt := "2025-01-01T00:00:00Z", DeclaredRating := 4,
    RemainingItemCount := 10, Grade := "A", Type_ := "sorted", Quantity := 10,
    SortingLevel := "sorted", SampleImage := "img.jpg" }

/-- A stored profile whose count is beyond the integers that `float64` holds exactly:
`TrustRatedCount = 2 ^ 56 + 13`, `TrustTotalError = 2 ^ 53`. -/
def hugeCountUser : User :=
  { ID := "supplier1", Username := "supplier one", TrustScore := 99,
    TrustTotalError := 9007199254740992, TrustRatedCount := 72057594037927949,
    IsBlacklisted := false }

/-- A stored profile whose next count makes the window divisor zero:
`TrustRatedCount = 2 ^ 56 + 15`, `TrustTotalError = 0`. -/
def zeroDivisorUser : User :=
  { ID := "supplier1", Username := "supplier one", TrustScore := 100,
    TrustTotalError := 0, TrustRatedCount := 72057594037927951,
    IsBlacklisted := false }

/-- Collaborators as `stubEnv`, except that no product can be loaded. -/
def productDownEnv : Env :=
  { stubEnv with ProductGetProductByID := fun _ _ => .error "product not found" }

/-- Collaborators as `stubEnv`, except that the product store answers nil without an error,
as the mock of `TestAddCartItem_ProductNotFound` does. -/
def productMissingEnv : Env :=
  { stubEnv with ProductGetProductByID := fun _ _ => .ok none }

/-- Collaborators as `stubEnv`, except that the product has been sold. -/
def productSoldEnv : Env :=
  { stubEnv with
    ProductGetProductByID := fun _ _ => .ok (some { sampleProduct with Status := "sold" }) }

/-- Collaborators as `stubEnv`, except that the cart is empty. -/
def emptyCartEnv : Env :=
  { stubEnv with CartGetCartItems := fun _ _ => .ok [] }

/-! ## Facts about binary64 rounding -/

namespace F64

theorem roundHalfEven_sub_abs_le (q : ℚ) : |(roundHalfEven q : ℚ) - q| ≤ 1 / 2 := by
  have h1 := Int.floor_le q
  have h2 := Int.lt_floor_add_one q
  unfold roundHalfEven
  split_ifs with ha hb hc
  · rw [abs_le]; constructor <;> linarith
  · rw [abs_le]; push_cast; constructor <;> linarith
  · rw [abs_le]; constructor <;> linarith
  · rw [abs_le]; push_cast; constructor <;> linarith

theorem roundHalfEven_eq_of_abs_lt (q : ℚ) (m : ℤ) (h : |q - m| < 1 / 2) :
    roundHalfEven q = m := by
  rw [abs_lt] at h
  obtain ⟨hl, hr⟩ := h
  have h1 := Int.floor_le q
  have h2 := Int.lt_floor_add_one q
  unfold roundHalfEven
  split_ifs with ha hb hc
  · -- floor q ≤ q < floor q + 1/2 and m - 1/2 < q < m + 1/2
    have : (⌊q⌋ : ℚ) < m + 1 := by linarith
    have : (m : ℚ) < ⌊q⌋ + 1 := by linarith
    have a : ⌊q⌋ < m + 1 := by exact_mod_cast ‹(⌊q⌋ : ℚ) < m + 1›
    have b : m < ⌊q⌋ + 1 := by exact_mod_cast ‹(m : ℚ) < ⌊q⌋ + 1›
    omega
  · have h3 : ((⌊q⌋ + 1 : ℤ) : ℚ) < m + 1 := by push_cast; linarith
    have h4 : (m : ℚ) < ((⌊q⌋ + 1 : ℤ) : ℚ) + 1 := by push_cast; linarith
    have a : ⌊q⌋ + 1 < m + 1 := by exact_mod_cast h3
    have b : m < ⌊q⌋ + 1 + 1 := by exact_mod_cast h4
    omega
  · exfalso
    have e : q - ⌊q⌋ = 1 / 2 := le_antisymm (not_lt.mp hb) (not_lt.mp ha)
    have h3 : (2 * m - 1 : ℤ) < (2 * ⌊q⌋ + 1 : ℤ) := by
      have : ((2 * m - 1 : ℤ) : ℚ) < ((2 * ⌊q⌋ + 1 : ℤ) : ℚ) := by push_cast; linarith
      exact_mod_cast this
    have h4 : (2 * ⌊q⌋ + 1 : ℤ) < (2 * m + 1 : ℤ) := by
      have : ((2 * ⌊q⌋ + 1 : ℤ) : ℚ) < ((2 * m + 1 : ℤ) : ℚ) := by push_cast; linarith
      exact_mod_cast this
    omega
  · exfalso
    have e : q - ⌊q⌋ = 1 / 2 := le_antisymm (not_lt.mp hb) (not_lt.mp ha)
    have h3 : (2 * m - 1 : ℤ) < (2 * ⌊q⌋ + 1 : ℤ) := by
      have : ((2 * m - 1 : ℤ) : ℚ) < ((2 * ⌊q⌋ + 1 : ℤ) : ℚ) := by push_cast; linarith
      exact_mod_cast this
    have h4 : (2 * ⌊q⌋ + 1 : ℤ) < (2 * m + 1 : ℤ) := by
      have : ((2 * ⌊q⌋ + 1 : ℤ) : ℚ) < ((2 * m + 1 : ℤ) : ℚ) := by push_cast; linarith
      exact_mod_cast this
    omega

theorem roundHalfEven_intCast (m : ℤ) : roundHalfEven (m : ℚ) = m :=
  roundHalfEven_eq_of_abs_lt _ m (by simp)

theorem two_zpow_pos (e : ℤ) : (0 : ℚ) < 2 ^ e := zpow_pos (by norm_num) e

theorem ulpExp_ge (q : ℚ) : -1074 ≤ ulpExp q := le_max_right _ _

theorem log_le_ulpExp (q : ℚ) : Int.log 2 |q| - 52 ≤ ulpExp q := le_max_left _ _

theorem zpow_log_le (q : ℚ) (hq : q ≠ 0) : (2 : ℚ) ^ Int.log 2 |q| ≤ |q| := by
  have := Int.zpow_log_le_self (b := 2) (r := |q|) one_lt_two (abs_pos.mpr hq)
  simpa using this

theorem lt_zpow_log_succ (q : ℚ) : |q| < (2 : ℚ) ^ (Int.log 2 |q| + 1) := by
  have := Int.lt_zpow_succ_log_self (b := 2) one_lt_two |q|
  simpa using this

theorem log_lt_of_lt_zpow (q : ℚ) (hq : q ≠ 0) (k : ℤ) (h : |q| < (2 : ℚ) ^ k) :
    Int.log 2 |q| < k := by
  have := (Int.lt_zpow_iff_log_lt (b := 2) (x := k) (r := |q|) one_lt_two (abs_pos.mpr hq)).1
  apply this
  simpa using h

theorem le_log_of_zpow_le (q : ℚ) (hq : q ≠ 0) (k : ℤ) (h : (2 : ℚ) ^ k ≤ |q|) :
    k ≤ Int.log 2 |q| := by
  have := (Int.zpow_le_iff_le_log (b := 2) (x := k) (r := |q|) one_lt_two (abs_pos.mpr hq)).1
  apply this
  simpa using h

theorem round_zero : round 0 = 0 := by
  simp [round, roundHalfEven]

theorem round_eq_self_of_div (x : ℚ) (K : ℤ) (h : x / 2 ^ ulpExp x = K) : round x = x := by
  unfold round
  rw [h, roundHalfEven_intCast, ← h]
  have := (two_zpow_pos (ulpExp x)).ne'
  field_simp

/-- The scaled significand handed to the integer rounding is below 2^53 in magnitude. -/
theorem abs_div_ulp_lt (q : ℚ) : |q / 2 ^ ulpExp q| < 2 ^ (53 : ℕ) := by
  rw [abs_div, abs_of_pos (two_zpow_pos _), div_lt_iff₀ (two_zpow_pos _)]
  calc |q| < (2 : ℚ) ^ (Int.log 2 |q| + 1) := lt_zpow_log_succ q
    _ ≤ (2 : ℚ) ^ ((53 : ℤ) + ulpExp q) := by
        apply zpow_le_zpow_right₀ (by norm_num)
        have := log_le_ulpExp q
        omega
    _ = 2 ^ (53 : ℕ) * 2 ^ ulpExp q := by
        rw [zpow_add₀ (by norm_num)]; norm_num

theorem round_isF64 (q : ℚ) : IsF64 (round q) := by
  refine ⟨roundHalfEven (q / 2 ^ ulpExp q), ulpExp q, rfl, ?_, ulpExp_ge q⟩
  have h1 := roundHalfEven_sub_abs_le (q / 2 ^ ulpExp q)
  have h2 := abs_div_ulp_lt q
  have h3 : |(roundHalfEven (q / 2 ^ ulpExp q) : ℚ)| < 2 ^ (53 : ℕ) + 1 := by
    rw [abs_lt] at *
    rw [abs_le] at h1
    constructor <;> linarith [h1.1, h1.2, h2.1, h2.2]
  have h4 : |roundHalfEven (q / 2 ^ ulpExp q)| < 2 ^ (53 : ℕ) + 1 := by
    rw [← Int.cast_abs] at h3
    exact_mod_cast h3
  omega

theorem round_of_isF64 (x : ℚ) (hx : IsF64 x) : round x = x := by
  obtain ⟨M, e, rfl, hM, he⟩ := hx
  by_cases hM0 : M = 0
  · subst hM0; simp [round_zero]
  have hx0 : (M : ℚ) * 2 ^ e ≠ 0 := mul_ne_zero (by exact_mod_cast hM0) (two_zpow_pos e).ne'
  have habs : |(M : ℚ) * 2 ^ e| = |(M : ℚ)| * 2 ^ e := by
    rw [abs_mul, abs_of_pos (two_zpow_pos e)]
  have hMq : |(M : ℚ)| ≤ 2 ^ (53 : ℕ) := by
    have : ((|M| : ℤ) : ℚ) ≤ ((2 ^ (53 : ℕ) : ℤ) : ℚ) := by exact_mod_cast hM
    simpa using this
  -- the logarithm is at most 53 + e
  have hlog : Int.log 2 |(M : ℚ) * 2 ^ e| < 54 + e := by
    apply log_lt_of_lt_zpow _ hx0
    rw [habs, zpow_add₀ (by norm_num : (2 : ℚ) ≠ 0)]
    have : (0 : ℚ) < 2 ^ e := two_zpow_pos e
    have h54 : |(M : ℚ)| < 2 ^ (54 : ℤ) := by
      calc |(M : ℚ)| ≤ 2 ^ (53 : ℕ) := hMq
        _ < 2 ^ (54 : ℤ) := by norm_num
    exact mul_lt_mul_of_pos_right h54 this
  set e' := ulpExp ((M : ℚ) * 2 ^ e) with he'
  have he'le : e' ≤ e + 1 := by
    rw [he']; unfold ulpExp
    apply max_le <;> omega
  by_cases hcase : e' ≤ e
  · -- the quotient is M * 2 ^ (e - e'), an integer
    obtain ⟨n, hn⟩ := Int.eq_ofNat_of_zero_le (by omega : 0 ≤ e - e')
    apply round_eq_self_of_div _ (M * 2 ^ n)
    rw [← he', mul_div_assoc, ← zpow_sub₀ (by norm_num : (2 : ℚ) ≠ 0), hn]
    push_cast
    rw [zpow_natCast]
  · -- e' = e + 1, which forces |M| = 2 ^ 53
    have hee : e' = e + 1 := by omega
    have hL : Int.log 2 |(M : ℚ) * 2 ^ e| = 53 + e := by
      have h1 : e' = max (Int.log 2 |(M : ℚ) * 2 ^ e| - 52) (-1074) := he'
      have : Int.log 2 |(M : ℚ) * 2 ^ e| - 52 = e + 1 := by
        rcases max_choice (Int.log 2 |(M : ℚ) * 2 ^ e| - 52) (-1074) with h | h
        · rw [h] at h1; omega
        · rw [h] at h1; omega
      omega
    have hge : (2 : ℚ) ^ (53 + e) ≤ |(M : ℚ)| * 2 ^ e := by
      have := zpow_log_le _ hx0
      rwa [hL, habs] at this
    have hM53 : (2 : ℚ) ^ (53 : ℕ) ≤ |(M : ℚ)| := by
      rw [zpow_add₀ (by norm_num : (2 : ℚ) ≠ 0)] at hge
      have h := le_of_mul_le_mul_right hge (two_zpow_pos e)
      norm_num at h ⊢
      exact h
    have hMeq : |(M : ℚ)| = 2 ^ (53 : ℕ) := le_antisymm hMq hM53
    have hhalf : (M : ℚ) / 2 = ((M / 2 : ℤ) : ℚ) := by
      have hMz : |M| = 2 ^ (53 : ℕ) := by
        have : ((|M| : ℤ) : ℚ) = ((2 ^ (53 : ℕ) : ℤ) : ℚ) := by push_cast; exact hMeq
        exact_mod_cast this
      have h2 : (2 : ℤ) ∣ M := by
        rcases abs_choice M with h | h
        · rw [h] at hMz; rw [hMz]; norm_num
        · rw [h] at hMz
          have : M = -(2 ^ (53 : ℕ)) := by omega
          rw [this]; norm_num
      rw [Int.cast_div h2 (by norm_num)]
      norm_num
    apply round_eq_self_of_div _ (M / 2)
    rw [← he', hee, ← hhalf, zpow_add₀ (by norm_num : (2 : ℚ) ≠ 0)]
    have := (two_zpow_pos e).ne'
    field_simp
    ring

theorem round_round (q : ℚ) : round (round q) = round q := round_of_isF64 _ (round_isF64 q)


theorem round_sub_abs_le (q : ℚ) : |round q - q| ≤ 2 ^ ulpExp q / 2 := by
  have hpos := two_zpow_pos (ulpExp q)
  have h := roundHalfEven_sub_abs_le (q / 2 ^ ulpExp q)
  have e : round q - q = ((roundHalfEven (q / 2 ^ ulpExp q) : ℚ) - q / 2 ^ ulpExp q)
      * 2 ^ ulpExp q := by
    unfold round
    field_simp
  rw [e, abs_mul, abs_of_pos hpos]
  calc |(roundHalfEven (q / 2 ^ ulpExp q) : ℚ) - q / 2 ^ ulpExp q| * 2 ^ ulpExp q
      ≤ 1 / 2 * 2 ^ ulpExp q := mul_le_mul_of_nonneg_right h hpos.le
    _ = 2 ^ ulpExp q / 2 := by ring

theorem ulpExp_of_normal (q : ℚ) (h : (2 : ℚ) ^ (-1022 : ℤ) ≤ |q|) :
    ulpExp q = Int.log 2 |q| - 52 := by
  have hq : q ≠ 0 := by
    intro h0
    rw [h0, abs_zero] at h
    exact absurd h (not_le.mpr (two_zpow_pos _))
  have := le_log_of_zpow_le q hq (-1022) h
  unfold ulpExp
  apply max_eq_left
  omega

/-- In the normal range a rounding moves a value by at most the relative error `2 ^ (-53)`. -/
theorem round_rel_err (q : ℚ) (h : (2 : ℚ) ^ (-1022 : ℤ) ≤ |q|) :
    |round q - q| ≤ |q| * 2 ^ (-53 : ℤ) := by
  have hq : q ≠ 0 := by
    intro h0
    rw [h0, abs_zero] at h
    exact absurd h (not_le.mpr (two_zpow_pos _))
  have h1 := round_sub_abs_le q
  rw [ulpExp_of_normal q h] at h1
  have h2 := zpow_log_le q hq
  calc |round q - q| ≤ 2 ^ (Int.log 2 |q| - 52) / 2 := h1
    _ = 2 ^ Int.log 2 |q| * 2 ^ (-53 : ℤ) := by
        rw [zpow_sub₀ (by norm_num : (2 : ℚ) ≠ 0)]
        norm_num
        ring
    _ ≤ |q| * 2 ^ (-53 : ℤ) := mul_le_mul_of_nonneg_right h2 (two_zpow_pos _).le

/-- Evaluation of a rounding in the normal range: with `2 ^ L ≤ |q| < 2 ^ (L + 1)` and
`q / 2 ^ (L - 52)` strictly within one half of the integer `M`, the result is
`M * 2 ^ (L - 52)`. -/
theorem round_eq_of_bounds (q : ℚ) (L M : ℤ) (h1 : (2 : ℚ) ^ L ≤ |q|)
    (h2 : |q| < (2 : ℚ) ^ (L + 1)) (h3 : -1022 ≤ L)
    (h4 : |q / 2 ^ (L - 52) - M| < 1 / 2) : round q = M * 2 ^ (L - 52) := by
  have hq : q ≠ 0 := by
    intro h0
    rw [h0, abs_zero] at h1
    exact absurd h1 (not_le.mpr (two_zpow_pos _))
  have hL : Int.log 2 |q| = L := by
    have a := le_log_of_zpow_le q hq L h1
    have b := log_lt_of_lt_zpow q hq (L + 1) h2
    omega
  have hu : ulpExp q = L - 52 := by
    unfold ulpExp
    rw [hL]
    apply max_eq_left
    omega
  unfold round
  rw [hu, roundHalfEven_eq_of_abs_lt _ M h4]

theorem isF64_intCast (n : ℤ) (h : |n| ≤ 2 ^ 53) : IsF64 (n : ℚ) :=
  ⟨n, 0, by simp, h, by norm_num⟩

theorem isF64_zero : IsF64 0 := ⟨0, 0, by simp, by norm_num, by norm_num⟩

theorem isF64_abs (x : ℚ) (h : IsF64 x) : IsF64 |x| := by
  obtain ⟨M, e, rfl, hM, he⟩ := h
  refine ⟨|M|, e, ?_, by rwa [abs_abs], he⟩
  rw [abs_mul, abs_of_pos (two_zpow_pos e), Int.cast_abs]

theorem isF64_neg (x : ℚ) (h : IsF64 x) : IsF64 (-x) := by
  obtain ⟨M, e, rfl, hM, he⟩ := h
  refine ⟨-M, e, by push_cast; ring, by rwa [abs_neg], he⟩

/-- Every finite binary64 value is a whole multiple of the smallest subnormal. -/
theorem isF64_multiple (x : ℚ) (h : IsF64 x) : ∃ K : ℤ, x = K * 2 ^ (-1074 : ℤ) := by
  obtain ⟨M, e, rfl, _, he⟩ := h
  obtain ⟨n, hn⟩ := Int.eq_ofNat_of_zero_le (by omega : 0 ≤ e + 1074)
  refine ⟨M * 2 ^ n, ?_⟩
  have he2 : e = (n : ℤ) + (-1074) := by omega
  rw [he2, zpow_add₀ (by norm_num : (2 : ℚ) ≠ 0), zpow_natCast]
  push_cast
  ring

/-- A difference of binary64 values is rounded with relative error at most `2 ^ (-53)`, in
the subnormal range too, where it is exact. -/
theorem sub_err (x y : ℚ) (hx : IsF64 x) (hy : IsF64 y) :
    |sub x y - (x - y)| ≤ |x - y| * 2 ^ (-53 : ℤ) := by
  unfold sub
  by_cases hn : (2 : ℚ) ^ (-1022 : ℤ) ≤ |x - y|
  · exact round_rel_err _ hn
  · have hlt : |x - y| < (2 : ℚ) ^ (-1022 : ℤ) := not_le.mp hn
    obtain ⟨K1, h1⟩ := isF64_multiple x hx
    obtain ⟨K2, h2⟩ := isF64_multiple y hy
    have hd : x - y = ((K1 - K2 : ℤ) : ℚ) * 2 ^ (-1074 : ℤ) := by
      rw [h1, h2]; push_cast; ring
    have hK : |K1 - K2| ≤ 2 ^ 53 := by
      have hpos := two_zpow_pos (-1074)
      rw [hd, abs_mul, abs_of_pos hpos] at hlt
      have h52 : (2 : ℚ) ^ (-1022 : ℤ) = 2 ^ (52 : ℕ) * 2 ^ (-1074 : ℤ) := by
        rw [← zpow_natCast, ← zpow_add₀ (by norm_num : (2 : ℚ) ≠ 0)]
        norm_num
      rw [h52] at hlt
      have h3 := lt_of_mul_lt_mul_right hlt hpos.le
      rw [← Int.cast_abs] at h3
      have h4 : |K1 - K2| < 2 ^ (52 : ℕ) := by exact_mod_cast h3
      have : (2 : ℤ) ^ (52 : ℕ) ≤ 2 ^ 53 := by norm_num
      omega
    have hr : round (x - y) = x - y :=
      round_of_isF64 _ ⟨K1 - K2, -1074, hd, hK, le_refl _⟩
    rw [hr, sub_self, abs_zero]
    exact mul_nonneg (abs_nonneg _) (two_zpow_pos _).le

/-- Evaluation of the rounding of a positive value, the bounds written without absolute
values. -/
theorem round_eq_of_pos (q : ℚ) (L M : ℤ) (h1 : (2 : ℚ) ^ L ≤ q)
    (h2 : q < (2 : ℚ) ^ (L + 1)) (h3 : -1022 ≤ L)
    (h4 : (M : ℚ) - 1 / 2 < q / 2 ^ (L - 52)) (h5 : q / 2 ^ (L - 52) < M + 1 / 2) :
    round q = M * 2 ^ (L - 52) := by
  have hq : 0 < q := lt_of_lt_of_le (two_zpow_pos L) h1
  apply round_eq_of_bounds q L M
  · rwa [abs_of_pos hq]
  · rwa [abs_of_pos hq]
  · exact h3
  · rw [abs_lt]; constructor <;> linarith

theorem roundHalfEven_half (m : ℤ) :
    roundHalfEven ((m : ℚ) + 1 / 2) = if m % 2 = 0 then m else m + 1 := by
  have hf : ⌊(m : ℚ) + 1 / 2⌋ = m := by
    rw [Int.floor_eq_iff]
    constructor <;> linarith
  unfold roundHalfEven
  rw [hf]
  have e : (m : ℚ) + 1 / 2 - m = 1 / 2 := by ring
  rw [e]
  simp

/-- Evaluation of the rounding of a positive value that lies exactly half way between two
neighbouring binary64 values: the one with the even significand is taken. -/
theorem round_eq_of_pos_tie (q : ℚ) (L m M : ℤ) (h1 : (2 : ℚ) ^ L ≤ q)
    (h2 : q < (2 : ℚ) ^ (L + 1)) (h3 : -1022 ≤ L)
    (h4 : q / 2 ^ (L - 52) = (m : ℚ) + 1 / 2) (h5 : M = if m % 2 = 0 then m else m + 1) :
    round q = M * 2 ^ (L - 52) := by
  have hq : 0 < q := lt_of_lt_of_le (two_zpow_pos L) h1
  have hq0 : q ≠ 0 := hq.ne'
  have hL : Int.log 2 |q| = L := by
    have a := le_log_of_zpow_le q hq0 L (by rwa [abs_of_pos hq])
    have b := log_lt_of_lt_zpow q hq0 (L + 1) (by rwa [abs_of_pos hq])
    omega
  have hu : ulpExp q = L - 52 := by
    unfold ulpExp
    rw [hL]
    apply max_eq_left
    omega
  unfold round
  rw [hu, h4, roundHalfEven_half, h5]

end F64

/-! ## Trust engine: score range and blacklist flag -/

/-- The clamped score converted to `int` lies in 0..100, and it is below 40 exactly when the
clamped score itself is. -/
theorem clamp_toInt (x : ℚ) :
    0 ≤ F64.toInt (if x < 0 then 0 else if x > 100 then 100 else x) ∧
    F64.toInt (if x < 0 then 0 else if x > 100 then 100 else x) ≤ 100 ∧
    (decide ((if x < 0 then 0 else if x > 100 then 100 else x) < 40) = true ↔
      F64.toInt (if x < 0 then 0 else if x > 100 then 100 else x) < 40) := by
  have hc : 0 ≤ (if x < 0 then 0 else if x > 100 then 100 else x) ∧
      (if x < 0 then 0 else if x > 100 then 100 else x) ≤ 100 := by
    split_ifs with h1 h2
    · norm_num
    · norm_num
    · exact ⟨not_lt.mp h1, not_lt.mp h2⟩
  generalize (if x < 0 then 0 else if x > 100 then 100 else x) = c at hc ⊢
  obtain ⟨h0, h100⟩ := hc
  unfold F64.toInt
  rw [if_pos h0]
  refine ⟨Int.floor_nonneg.mpr h0, ?_, ?_⟩
  · have : ⌊c⌋ ≤ ⌊(100 : ℚ)⌋ := Int.floor_le_floor h100
    simpa using this
  · rw [decide_eq_true_iff]
    constructor
    · intro h
      exact Int.floor_lt.mpr (by simpa using h)
    · intro h
      simpa using Int.floor_lt.mp h

/-- The body of the reseller update computes what the body of the supplier update computes:
the two differ only in the name of the variable that holds the account. -/
theorem recomputeReseller_eq_recompute (u : User) (d p : ℚ) :
    recomputeReseller u d p = recompute u d p := by
  have hb : ∀ c : Prop, ∀ [Decidable c], (if c then true else false) = decide c := by
    intro c _
    by_cases hc : c <;> simp [hc]
  simp only [recomputeReseller, recompute, hb]

theorem recompute_score (u : User) (d p : ℚ) :
    0 ≤ (recompute u d p).TrustScore ∧ (recompute u d p).TrustScore ≤ 100 ∧
    ((recompute u d p).IsBlacklisted = true ↔ (recompute u d p).TrustScore < 40) := by
  unfold recompute
  exact clamp_toInt _

/-! ## Payment computer: fee and net -/

/-- C2, counterexample. For the gross amount 0.17 (the Go literal) `processPayment` returns
fee 0.0034000000000000002 and net 0.16660000000000003: their sum is not the gross amount,
neither exactly nor when added in `float64` (0.17000000000000004). -/
theorem processPayment_fee_plus_net_ne_gross :
    (processPayment stubEnv [] (F64.lit (17 / 100))).1.1 +
        (processPayment stubEnv [] (F64.lit (17 / 100))).1.2.1 ≠ F64.lit (17 / 100) ∧
    F64.add (processPayment stubEnv [] (F64.lit (17 / 100))).1.1
        (processPayment stubEnv [] (F64.lit (17 / 100))).1.2.1 ≠ F64.lit (17 / 100) := by
  have e1 : F64.lit (17 / 100) = 6124895493223875 / 36028797018963968 := by
    unfold F64.lit
    rw [F64.round_eq_of_pos _ (-3) 6124895493223875 (by norm_num) (by norm_num) (by norm_num)
      (by norm_num) (by norm_num)]
    norm_num
  have e2 : F64.lit (2 / 100) = 5764607523034235 / 288230376151711744 := by
    unfold F64.lit
    rw [F64.round_eq_of_pos _ (-6) 5764607523034235 (by norm_num) (by norm_num) (by norm_num)
      (by norm_num) (by norm_num)]
    norm_num
  have e3 :
      F64.mul (6124895493223875 / 36028797018963968) (5764607523034235 / 288230376151711744) =
      244995819728955 / 72057594037927936 := by
    unfold F64.mul
    rw [F64.round_eq_of_pos _ (-9) 7839866231326560 (by norm_num) (by norm_num) (by norm_num)
      (by norm_num) (by norm_num)]
    norm_num
  have e4 :
      F64.sub (6124895493223875 / 36028797018963968) (244995819728955 / 72057594037927936) =
      3001198791679699 / 18014398509481984 := by
    unfold F64.sub
    rw [F64.round_eq_of_pos_tie _ (-3) 6002397583359397 6002397583359398 (by norm_num) (by norm_num)
      (by norm_num) (by norm_num) (by decide)]
    norm_num
  have e5 :
      F64.add (244995819728955 / 72057594037927936) (3001198791679699 / 18014398509481984) =
      1531223873305969 / 9007199254740992 := by
    unfold F64.add
    rw [F64.round_eq_of_pos_tie _ (-3) 6124895493223875 6124895493223876 (by norm_num) (by norm_num)
      (by norm_num) (by norm_num) (by decide)]
    norm_num
  simp only [processPayment, e1, e2, e3, e4, e5]
  norm_num

theorem callsSince_append (h t : List Event) : callsSince h (h ++ t) = t := by
  simp [callsSince]

theorem callsSince_self (h : List Event) : callsSince h h = [] := by
  simp [callsSince]

/-- The fields of every payment that `PurchaseBundle` hands to `RecordPayment`. -/
theorem PurchaseBundle_recorded_payment (env : Env) (h : List Event)
    (bundleID resellerID : String) (b : Bundle) (p : Payment)
    (hb : env.BundleGetBundleByID h bundleID = .ok b)
    (e : Option String)
    (hp : ⟨Call.PaymentRecordPayment p, e⟩ ∈
      callsSince h (PurchaseBundle env h bundleID resellerID).2) :
    p.FromUserID = resellerID ∧ p.ToUserID = b.SupplierID ∧ p.Amount = b.Price ∧
    p.PlatformFee = F64.mul b.Price (F64.lit (2 / 100)) ∧
    p.SellerEarning = F64.sub b.Price (F64.mul b.Price (F64.lit (2 / 100))) ∧
    p.Status = "Paid" ∧ p.ReferenceID = b.ID ∧ p.Type_ = PaymentType.B2B := by
  simp only [PurchaseBundle, hb, processPayment, simulateStripePayment] at hp
  repeat' split at hp
  all_goals simp only [List.append_assoc, callsSince_append, callsSince_self] at hp
  all_goals simp at hp
  all_goals (try (obtain ⟨hp, _⟩ := hp; subst hp; simp))

/-- The fields of every payment that `PurchaseProduct` hands to `RecordPayment`. -/
theorem PurchaseProduct_recorded_payment (env : Env) (h : List Event)
    (productID consumerID : String) (totalPrice : ℚ) (p : Payment)
    (e : Option String)
    (hp : ⟨Call.PaymentRecordPayment p, e⟩ ∈
      callsSince h (PurchaseProduct env h productID consumerID totalPrice).2) :
    p.FromUserID = consumerID ∧ p.Amount = totalPrice ∧
    p.PlatformFee = F64.mul totalPrice (F64.lit (2 / 100)) ∧
    p.SellerEarning = F64.sub totalPrice (F64.mul totalPrice (F64.lit (2 / 100))) ∧
    p.Status = "Paid" ∧ p.ReferenceID = productID ∧ p.Type_ = PaymentType.B2C := by
  simp only [PurchaseProduct] at hp
  repeat' split at hp
  all_goals simp only [List.append_assoc, callsSince_append, callsSince_self] at hp
  all_goals simp at hp
  all_goals (try (obtain ⟨hp, _⟩ := hp; subst hp; simp))

/-- C2, amended. For every binary64 gross amount, `processPayment` computes the net amount as
the `float64` difference of the gross amount and the fee, so that fee plus net is the gross
amount up to the rounding of that one subtraction:
`|fee + net - g| ≤ 2 ^ (-53) * |g - fee|`.  The same bound relates `SellerEarning`,
`PlatformFee` and `Amount` of every payment that `PurchaseBundle` or `PurchaseProduct`
creates. -/
theorem payment_split_within_rounding (env : Env) (h : List Event) (g : ℚ)
    (bundleID resellerID productID consumerID : String) (b : Bundle) (totalPrice : ℚ)
    (hg : F64.IsF64 g) (hb : env.BundleGetBundleByID h bundleID = .ok b)
    (hprice : F64.IsF64 b.Price) (htotal : F64.IsF64 totalPrice) :
    |(processPayment env h g).1.1 + (processPayment env h g).1.2.1 - g| ≤
        |g - (processPayment env h g).1.1| * 2 ^ (-53 : ℤ) ∧
    (∀ (p : Payment) (e : Option String),
      ⟨Call.PaymentRecordPayment p, e⟩ ∈
          callsSince h (PurchaseBundle env h bundleID resellerID).2 →
        |p.SellerEarning + p.PlatformFee - p.Amount| ≤
          |p.Amount - p.PlatformFee| * 2 ^ (-53 : ℤ)) ∧
    (∀ (p : Payment) (e : Option String),
      ⟨Call.PaymentRecordPayment p, e⟩ ∈
          callsSince h (PurchaseProduct env h productID consumerID totalPrice).2 →
        |p.SellerEarning + p.PlatformFee - p.Amount| ≤
          |p.Amount - p.PlatformFee| * 2 ^ (-53 : ℤ)) := by
  have key : ∀ x : ℚ, F64.IsF64 x →
      |F64.sub x (F64.mul x (F64.lit (2 / 100))) + F64.mul x (F64.lit (2 / 100)) - x| ≤
        |x - F64.mul x (F64.lit (2 / 100))| * 2 ^ (-53 : ℤ) := by
    intro x hx
    have := F64.sub_err x (F64.mul x (F64.lit (2 / 100))) hx (F64.round_isF64 _)
    have e : F64.sub x (F64.mul x (F64.lit (2 / 100))) + F64.mul x (F64.lit (2 / 100)) - x =
        F64.sub x (F64.mul x (F64.lit (2 / 100))) - (x - F64.mul x (F64.lit (2 / 100))) := by
      ring
    rw [e]
    exact this
  refine ⟨?_, ?_, ?_⟩
  · have := key g hg
    simp only [processPayment]
    rwa [add_comm]
  · intro p e hp
    obtain ⟨_, _, ha, hf, hs, _⟩ := PurchaseBundle_recorded_payment env h _ _ b p hb e hp
    rw [ha, hf, hs]
    exact key _ hprice
  · intro p e hp
    obtain ⟨_, ha, hf, hs, _⟩ := PurchaseProduct_recorded_payment env h _ _ _ p e hp
    rw [ha, hf, hs]
    exact key _ htotal

theorem isF64_hundred : F64.IsF64 100 := ⟨25, 2, by norm_num, by norm_num, by norm_num⟩

/-- C2, witness: the gross amount 100.0, the sample bundle and the sample product. -/
theorem payment_split_within_rounding_witness :
    F64.IsF64 100 ∧ stubEnv.BundleGetBundleByID [] "bundle1" = .ok sampleBundle ∧
    F64.IsF64 sampleBundle.Price ∧
    (∃ (p : Payment) (e : Option String), ⟨Call.PaymentRecordPayment p, e⟩ ∈
      callsSince [] (PurchaseBundle stubEnv [] "bundle1" "reseller1").2) ∧
    (∃ (p : Payment) (e : Option String), ⟨Call.PaymentRecordPayment p, e⟩ ∈
      callsSince [] (PurchaseProduct stubEnv [] "prod1" "user1" 100).2) ∧
    |(processPayment stubEnv [] 100).1.1 + (processPayment stubEnv [] 100).1.2.1 - 100| ≤
        |100 - (processPayment stubEnv [] 100).1.1| * 2 ^ (-53 : ℤ) ∧
    (∀ (p : Payment) (e : Option String),
      ⟨Call.PaymentRecordPayment p, e⟩ ∈
          callsSince [] (PurchaseBundle stubEnv [] "bundle1" "reseller1").2 →
        |p.SellerEarning + p.PlatformFee - p.Amount| ≤
          |p.Amount - p.PlatformFee| * 2 ^ (-53 : ℤ)) ∧
    (∀ (p : Payment) (e : Option String),
      ⟨Call.PaymentRecordPayment p, e⟩ ∈
          callsSince [] (PurchaseProduct stubEnv [] "prod1" "user1" 100).2 →
        |p.SellerEarning + p.PlatformFee - p.Amount| ≤
          |p.Amount - p.PlatformFee| * 2 ^ (-53 : ℤ)) :=
  ⟨isF64_hundred, rfl, isF64_hundred,
    by simp [PurchaseBundle, stubEnv, sampleBundle, processPayment, simulateStripePayment,
      callsSince],
    by simp [PurchaseProduct, stubEnv, callsSince],
    payment_split_within_rounding stubEnv [] 100 "bundle1" "reseller1" "prod1" "user1"
      sampleBundle 100 isF64_hundred rfl isF64_hundred isF64_hundred⟩

/-! ## PurchaseBundle: guards -/

/-- C3, counterexample. `supplier1` buys the own bundle `bundle1` while the availability
listing cannot be read: the call fails with the listing's error, which is not a conflict
error. -/
theorem self_purchase_listing_error_not_conflict :
    listingDownEnv.BundleGetBundleByID [] "bundle1" = .ok sampleBundle ∧
    sampleBundle.SupplierID = "supplier1" ∧
    (PurchaseBundle listingDownEnv [] "bundle1" "supplier1").1.err =
      some "connection refused" ∧
    isConflictError "connection refused" = false := by
  refine ⟨rfl, rfl, ?_, by decide⟩
  simp [PurchaseBundle, listingDownEnv, stubEnv, PurchaseBundleResult.fail]

/-- C3, amended. Whenever the bundle can be loaded and the reseller is its supplier,
`PurchaseBundle` fails, returns nil for the order, the payment and the warehouse item, and
makes no write.  The error is the one `ListAvailableBundles` returned when that call fails;
otherwise it is a conflict: "bundle not available" when the bundle is not in the listing,
"reseller cannot purchase their own bundle" when it is. -/
theorem self_purchase_rejected (env : Env) (h : List Event) (bundleID resellerID : String)
    (b : Bundle) (hb : env.BundleGetBundleByID h bundleID = .ok b)
    (hself : b.SupplierID = resellerID) :
    (PurchaseBundle env h bundleID resellerID).1.order = none ∧
    (PurchaseBundle env h bundleID resellerID).1.payment = none ∧
    (PurchaseBundle env h bundleID resellerID).1.warehouseItem = none ∧
    writesOf (callsSince h (PurchaseBundle env h bundleID resellerID).2) = [] ∧
    (match env.BundleListAvailableBundles
        (h ++ [⟨Call.BundleGetBundleByID bundleID, none⟩]) with
      | .error err => (PurchaseBundle env h bundleID resellerID).1.err = some err
      | .ok availables =>
        (PurchaseBundle env h bundleID resellerID).1.err =
          some (if availables.any (fun available => available.ID == b.ID)
            then "reseller cannot purchase their own bundle" else "bundle not available") ∧
        ∀ err, (PurchaseBundle env h bundleID resellerID).1.err = some err →
          isConflictError err = true) := by
  simp only [PurchaseBundle, hb]
  cases hl : env.BundleListAvailableBundles (h ++ [⟨Call.BundleGetBundleByID bundleID, none⟩])
    with
  | error err =>
    simp [PurchaseBundleResult.fail, writesOf, callsSince, Call.isWrite]
  | ok availables =>
    by_cases hf : availables.any (fun available => available.ID == b.ID) = true
    · simp [hf, hself, PurchaseBundleResult.fail, writesOf, callsSince, Call.isWrite,
        isConflictError]
    · simp [hf, PurchaseBundleResult.fail, writesOf, callsSince, Call.isWrite,
        isConflictError]

/-- C3, witness: `supplier1` buys the own bundle `bundle1`, which is listed. -/
theorem self_purchase_rejected_witness :
    stubEnv.BundleGetBundleByID [] "bundle1" = .ok sampleBundle ∧
    sampleBundle.SupplierID = "supplier1" ∧
    (PurchaseBundle stubEnv [] "bundle1" "supplier1").1.order = none ∧
    (PurchaseBundle stubEnv [] "bundle1" "supplier1").1.payment = none ∧
    (PurchaseBundle stubEnv [] "bundle1" "supplier1").1.warehouseItem = none ∧
    writesOf (callsSince [] (PurchaseBundle stubEnv [] "bundle1" "supplier1").2) = [] ∧
    (match stubEnv.BundleListAvailableBundles
        ([] ++ [⟨Call.BundleGetBundleByID "bundle1", none⟩]) with
      | .error err => (PurchaseBundle stubEnv [] "bundle1" "supplier1").1.err = some err
      | .ok availables =>
        (PurchaseBundle stubEnv [] "bundle1" "supplier1").1.err =
          some (if availables.any (fun available => available.ID == sampleBundle.ID)
            then "reseller cannot purchase their own bundle" else "bundle not available") ∧
        ∀ err, (PurchaseBundle stubEnv [] "bundle1" "supplier1").1.err = some err →
          isConflictError err = true) :=
  ⟨rfl, rfl, self_purchase_rejected stubEnv [] "bundle1" "supplier1" sampleBundle rfl rfl⟩

/-- C4. A bundle whose ID is not among the IDs that `ListAvailableBundles` returns is
rejected with "bundle not available", with nil results and without any write, whatever its
`Status` field says and whoever the reseller is. -/
theorem unlisted_bundle_rejected (env : Env) (h : List Event) (bundleID resellerID : String)
    (b : Bundle) (availables : List Bundle)
    (hb : env.BundleGetBundleByID h bundleID = .ok b)
    (hl : env.BundleListAvailableBundles (h ++ [⟨Call.BundleGetBundleByID bundleID, none⟩]) =
      .ok availables)
    (hnot : ∀ available ∈ availables, available.ID ≠ b.ID) :
    (PurchaseBundle env h bundleID resellerID).1 =
      { order := none, payment := none, warehouseItem := none,
        err := some "bundle not available" } ∧
    writesOf (callsSince h (PurchaseBundle env h bundleID resellerID).2) = [] := by
  have hf : availables.any (fun available => available.ID == b.ID) = false := by
    rw [List.any_eq_false]
    intro a ha
    simpa using hnot a ha
  simp [PurchaseBundle, hb, hl, hf, PurchaseBundleResult.fail, writesOf, callsSince,
    Call.isWrite]

/-- C4, witness: `bundle1` has status "available" but the availability listing is empty. -/
theorem unlisted_bundle_rejected_witness :
    unlistedEnv.BundleGetBundleByID [] "bundle1" = .ok sampleBundle ∧
    unlistedEnv.BundleListAvailableBundles
        ([] ++ [⟨Call.BundleGetBundleByID "bundle1", none⟩]) = .ok [] ∧
    (∀ available ∈ ([] : List Bundle), available.ID ≠ sampleBundle.ID) ∧
    sampleBundle.Status = "available" ∧
    (PurchaseBundle unlistedEnv [] "bundle1" "reseller1").1 =
      { order := none, payment := none, warehouseItem := none,
        err := some "bundle not available" } ∧
    writesOf (callsSince [] (PurchaseBundle unlistedEnv [] "bundle1" "reseller1").2) = [] :=
  ⟨rfl, rfl, by simp, rfl,
    unlisted_bundle_rejected unlistedEnv [] "bundle1" "reseller1" sampleBundle [] rfl rfl
      (by simp)⟩

/-! ## PurchaseBundle: the four writes -/

theorem ofInt_eq_cast (n : ℤ) (h : |n| ≤ 2 ^ 53) : F64.ofInt n = n :=
  F64.round_of_isF64 _ (F64.isF64_intCast n h)

/-! ## Trust engine: the persisted profile -/

theorem trust_update_persists (env : Env) (h : List Event) (id : String) (d p : ℚ) (u : User)
    (hget : env.UserGetByID h id = .ok (some u)) :
    TrustUpdatePersists env h id d p (recompute u d p) := by
  constructor
  · simp only [UpdateSupplierTrustScoreOnNewRating, hget]
  · simp only [UpdateResellerTrustScoreOnNewRating, hget, recomputeReseller_eq_recompute]

theorem recompute_trustScore (u : User) (d p : ℚ) :
    (recompute u d p).TrustScore = F64.toInt (newTrustScore u d p) := rfl

theorem clamp_range (x : ℚ) :
    0 ≤ (if x < 0 then 0 else if x > 100 then 100 else x) ∧
    (if x < 0 then 0 else if x > 100 then 100 else x) ≤ 100 := by
  split_ifs with h1 h2
  · norm_num
  · norm_num
  · exact ⟨not_lt.mp h1, not_lt.mp h2⟩

theorem newTrustScore_range (u : User) (d p : ℚ) :
    0 ≤ newTrustScore u d p ∧ newTrustScore u d p ≤ 100 := by
  unfold newTrustScore
  exact clamp_range _

/-- Declared 4.0, observed 4.5 on an account with one rating and total error 0.5: the clamped
score is 96.75 and the persisted one 96. -/
theorem recompute_multiple_ratings :
    (recompute sampleUser 4 (9 / 2)).TrustScore = 96 ∧
    (recompute sampleUser 4 (9 / 2)).TrustTotalError = 1 ∧
    (recompute sampleUser 4 (9 / 2)).TrustRatedCount = 2 ∧
    (recompute sampleUser 4 (9 / 2)).IsBlacklisted = false ∧
    newTrustScore sampleUser 4 (9 / 2) = 387 / 4 := by
  have e1 : F64.sub (9 / 2) 4 =
      1 / 2 := by
    unfold F64.sub
    rw [F64.round_eq_of_pos _ (-1) 4503599627370496 (by norm_num) (by norm_num) (by norm_num)
      (by norm_num) (by norm_num)]
    norm_num
  have e2 : |(1 / 2 : ℚ)| = 1 / 2 := abs_of_pos (by norm_num)
  have e3 : F64.add (1 / 2) (1 / 2) =
      1 := by
    unfold F64.add
    rw [F64.round_eq_of_pos _ (0) 4503599627370496 (by norm_num) (by norm_num) (by norm_num)
      (by norm_num) (by norm_num)]
    norm_num
  have e4 : F64.ofInt (-3) = -3 := by
    simpa using ofInt_eq_cast (-3) (by norm_num)
  have e5 : F64.ofInt 2 = 2 := by
    simpa using ofInt_eq_cast 2 (by norm_num)
  have e6 : F64.sub 1 (1 / 2) =
      1 / 2 := by
    unfold F64.sub
    rw [F64.round_eq_of_pos _ (-1) 4503599627370496 (by norm_num) (by norm_num) (by norm_num)
      (by norm_num) (by norm_num)]
    norm_num
  have e7 : F64.div (1 / 2) 2 =
      1 / 4 := by
    unfold F64.div
    rw [F64.round_eq_of_pos _ (-2) 4503599627370496 (by norm_num) (by norm_num) (by norm_num)
      (by norm_num) (by norm_num)]
    norm_num
  have e8 : F64.lit (3 / 10) =
      5404319552844595 / 18014398509481984 := by
    unfold F64.lit
    rw [F64.round_eq_of_pos _ (-2) 5404319552844595 (by norm_num) (by norm_num) (by norm_num)
      (by norm_num) (by norm_num)]
    norm_num
  have e9 : F64.lit (7 / 10) =
      3152519739159347 / 4503599627370496 := by
    unfold F64.lit
    rw [F64.round_eq_of_pos _ (-1) 6305039478318694 (by norm_num) (by norm_num) (by norm_num)
      (by norm_num) (by norm_num)]
    norm_num
  have e10 : F64.ofInt 2 = 2 := by
    simpa using ofInt_eq_cast 2 (by norm_num)
  have e11 : F64.div 1 2 =
      1 / 2 := by
    unfold F64.div
    rw [F64.round_eq_of_pos _ (-1) 4503599627370496 (by norm_num) (by norm_num) (by norm_num)
      (by norm_num) (by norm_num)]
    norm_num
  have e12 : F64.mul (1 / 2) 10 =
      5 := by
    unfold F64.mul
    rw [F64.round_eq_of_pos _ (2) 5629499534213120 (by norm_num) (by norm_num) (by norm_num)
      (by norm_num) (by norm_num)]
    norm_num
  have e13 : F64.sub 100 5 =
      95 := by
    unfold F64.sub
    rw [F64.round_eq_of_pos _ (6) 6685030696878080 (by norm_num) (by norm_num) (by norm_num)
      (by norm_num) (by norm_num)]
    norm_num
  have e14 : F64.mul (1 / 4) 10 =
      5 / 2 := by
    unfold F64.mul
    rw [F64.round_eq_of_pos _ (1) 5629499534213120 (by norm_num) (by norm_num) (by norm_num)
      (by norm_num) (by norm_num)]
    norm_num
  have e15 : F64.sub 100 (5 / 2) =
      195 / 2 := by
    unfold F64.sub
    rw [F64.round_eq_of_pos _ (6) 6860952557322240 (by norm_num) (by norm_num) (by norm_num)
      (by norm_num) (by norm_num)]
    norm_num
  have e16 : F64.mul 95 (5404319552844595 / 18014398509481984) =
      57 / 2 := by
    unfold F64.mul
    rw [F64.round_eq_of_pos _ (4) 8022036836253696 (by norm_num) (by norm_num) (by norm_num)
      (by norm_num) (by norm_num)]
    norm_num
  have e17 : F64.mul (195 / 2) (3152519739159347 / 4503599627370496) =
      273 / 4 := by
    unfold F64.mul
    rw [F64.round_eq_of_pos _ (6) 4802666790125568 (by norm_num) (by norm_num) (by norm_num)
      (by norm_num) (by norm_num)]
    norm_num
  have e18 : F64.add (57 / 2) (273 / 4) =
      387 / 4 := by
    unfold F64.add
    rw [F64.round_eq_of_pos _ (6) 6808175999188992 (by norm_num) (by norm_num) (by norm_num)
      (by norm_num) (by norm_num)]
    norm_num
  simp only [recompute, newTrustScore, sampleUser]
  norm_num [wrapInt64, F64.toInt, e1, e2, e3, e4, e5, e6, e7, e8, e9, e10, e11, e12, e13, e14,
    e15, e16, e17, e18]

theorem add_zero_of_isF64 (x : ℚ) (hx : F64.IsF64 x) : F64.add 0 x = x := by
  unfold F64.add
  rw [zero_add]
  exact F64.round_of_isF64 x hx

theorem div_one_of_isF64 (x : ℚ) (hx : F64.IsF64 x) : F64.div x (F64.ofInt 1) = x := by
  have h1 : F64.ofInt 1 = 1 := by simpa using ofInt_eq_cast 1 (by norm_num)
  unfold F64.div
  rw [h1, div_one]
  exact F64.round_of_isF64 x hx

theorem isF64_abs_sub (p d : ℚ) : F64.IsF64 |F64.sub p d| :=
  F64.isF64_abs _ (F64.round_isF64 _)

/-- What a first rating persists, in terms of the rating difference alone. -/
theorem recompute_first_rating (u : User) (d p : ℚ) (h0 : u.TrustRatedCount = 0) :
    (recompute u d p).TrustTotalError = |F64.sub p d| ∧
    (recompute u d p).TrustRatedCount = 1 ∧
    (recompute u d p).TrustScore =
      F64.toInt (clampScore
        (F64.add (F64.mul (F64.sub 100 (F64.mul |F64.sub p d| 10)) (F64.lit (3 / 10)))
          (F64.mul (F64.sub 100 (F64.mul |F64.sub p d| 10)) (F64.lit (7 / 10))))) := by
  have hw : wrapInt64 (0 + 1) = 1 := by norm_num [wrapInt64]
  have hgt : ¬ ((1 : ℤ) > 1) := by norm_num
  simp only [recompute, h0, if_true, hw, hgt, if_false, clampScore,
    add_zero_of_isF64 _ (isF64_abs_sub p d), div_one_of_isF64 _ (isF64_abs_sub p d)]
  exact ⟨trivial, trivial, trivial⟩

/-- C8, counterexample. The account of the test "multiple ratings" (one rating, total error
0.5) rated with declared 4.0 and observed 4.5: the clamped blended score is 96.75, its
nearest integer is 97, and the persisted `TrustScore` is 96. -/
theorem persisted_score_not_rounded :
    TrustUpdatePersists stubEnv [] "supplier1" 4 (9 / 2) (recompute sampleUser 4 (9 / 2)) ∧
    newTrustScore sampleUser 4 (9 / 2) = 387 / 4 ∧
    specRoundedScore sampleUser 4 (9 / 2) = 97 ∧
    (recompute sampleUser 4 (9 / 2)).TrustScore = 96 := by
  refine ⟨trust_update_persists stubEnv [] "supplier1" 4 _ sampleUser rfl,
    recompute_multiple_ratings.2.2.2.2, ?_, recompute_multiple_ratings.1⟩
  unfold specRoundedScore
  rw [recompute_multiple_ratings.2.2.2.2, round_eq]
  norm_num

/-! ## Payment computer: the fee is not rounded to cents -/

/-- C9, counterexample. For the gross amount 1.25 the fee of `processPayment` is the
`float64` product 0.025, strictly between 0.02 and 0.03: it is not `1.25 × 0.02` rounded to
the minor unit (0.03), nor any whole number of cents. -/
theorem platform_fee_not_rounded_to_minor_unit :
    (processPayment stubEnv [] (5 / 4)).1.1 = 3602879701896397 / 144115188075855872 ∧
    roundToMinorUnit (5 / 4 * (2 / 100)) = 3 / 100 ∧
    (processPayment stubEnv [] (5 / 4)).1.1 ≠ roundToMinorUnit (5 / 4 * (2 / 100)) ∧
    2 / 100 < (processPayment stubEnv [] (5 / 4)).1.1 ∧
    (processPayment stubEnv [] (5 / 4)).1.1 < 3 / 100 := by
  have e1 : F64.lit (2 / 100) =
      5764607523034235 / 288230376151711744 := by
    unfold F64.lit
    rw [F64.round_eq_of_pos _ (-6) 5764607523034235 (by norm_num) (by norm_num) (by norm_num)
      (by norm_num) (by norm_num)]
    norm_num
  have e2 : F64.mul (5 / 4) (5764607523034235 / 288230376151711744) =
      3602879701896397 / 144115188075855872 := by
    unfold F64.mul
    rw [F64.round_eq_of_pos _ (-6) 7205759403792794 (by norm_num) (by norm_num) (by norm_num)
      (by norm_num) (by norm_num)]
    norm_num
  have hr : roundToMinorUnit (5 / 4 * (2 / 100)) = 3 / 100 := by
    unfold roundToMinorUnit
    rw [round_eq]
    norm_num
  have hf : (processPayment stubEnv [] (5 / 4)).1.1 =
      3602879701896397 / 144115188075855872 := by
    simp only [processPayment, e1, e2]
  rw [hf, hr]
  norm_num

theorem lit_two_percent :
    F64.lit (2 / 100) = 5764607523034235 / 288230376151711744 := by
  have e1 : F64.lit (2 / 100) =
      5764607523034235 / 288230376151711744 := by
    unfold F64.lit
    rw [F64.round_eq_of_pos _ (-6) 5764607523034235 (by norm_num) (by norm_num) (by norm_num)
      (by norm_num) (by norm_num)]
    norm_num
  exact e1

/-- The `float64` product with the constant 0.02 is within relative error `2 ^ (-52)` of one
fiftieth, for every value whose product lies in the normal range. -/
theorem fee_err (x : ℚ) (hx : (2 : ℚ) ^ (-1016 : ℤ) ≤ |x|) :
    |F64.mul x (F64.lit (2 / 100)) - x / 50| ≤ |x| / 50 * 2 ^ (-52 : ℤ) := by
  rw [lit_two_percent]
  unfold F64.mul
  have hc : |x * (5764607523034235 / 288230376151711744)| =
      |x| * (5764607523034235 / 288230376151711744) := by
    rw [abs_mul, abs_of_pos (by norm_num : (0 : ℚ) < 5764607523034235 / 288230376151711744)]
  have hnormal : (2 : ℚ) ^ (-1022 : ℤ) ≤ |x * (5764607523034235 / 288230376151711744)| := by
    rw [hc]
    have h6 : (2 : ℚ) ^ (-1022 : ℤ) = 2 ^ (-1016 : ℤ) * 2 ^ (-6 : ℤ) := by
      rw [← zpow_add₀ (by norm_num : (2 : ℚ) ≠ 0)]
      norm_num
    rw [h6]
    apply mul_le_mul hx _ (F64.two_zpow_pos _).le (abs_nonneg x)
    norm_num
  have h1 := F64.round_rel_err _ hnormal
  rw [hc] at h1
  have h2 : |x * (5764607523034235 / 288230376151711744) - x / 50| =
      |x| * (3 / 7205759403792793600) := by
    have e : x * (5764607523034235 / 288230376151711744) - x / 50 =
        x * (3 / 7205759403792793600) := by ring
    rw [e, abs_mul, abs_of_pos (by norm_num : (0 : ℚ) < 3 / 7205759403792793600)]
  have h3 : |F64.round (x * (5764607523034235 / 288230376151711744)) - x / 50| ≤
      |F64.round (x * (5764607523034235 / 288230376151711744)) -
          x * (5764607523034235 / 288230376151711744)| +
        |x * (5764607523034235 / 288230376151711744) - x / 50| := by
    have := abs_add (F64.round (x * (5764607523034235 / 288230376151711744)) -
      x * (5764607523034235 / 288230376151711744))
      (x * (5764607523034235 / 288230376151711744) - x / 50)
    simpa using this
  have h4 : |x| * (5764607523034235 / 288230376151711744) * 2 ^ (-53 : ℤ) +
      |x| * (3 / 7205759403792793600) ≤ |x| / 50 * 2 ^ (-52 : ℤ) := by
    have e : |x| * (5764607523034235 / 288230376151711744) * 2 ^ (-53 : ℤ) +
        |x| * (3 / 7205759403792793600) =
        |x| * (5764607523034235 / 288230376151711744 * 2 ^ (-53 : ℤ) +
          3 / 7205759403792793600) := by ring
    have e2 : |x| / 50 * 2 ^ (-52 : ℤ) = |x| * (1 / 50 * 2 ^ (-52 : ℤ)) := by ring
    rw [e, e2]
    apply mul_le_mul_of_nonneg_left _ (abs_nonneg x)
    norm_num
  rw [h2] at h3
  linarith

/-- The fields of every order that `PurchaseProduct` hands to `CreateOrder`. -/
theorem PurchaseProduct_created_order (env : Env) (h : List Event)
    (productID consumerID : String) (totalPrice : ℚ) (o : Order) (e : Option String)
    (ho : ⟨Call.OrderCreateOrder o, e⟩ ∈
      callsSince h (PurchaseProduct env h productID consumerID totalPrice).2) :
    o.ConsumerID = consumerID ∧ o.ProductIDs = [productID] ∧ o.BundleID = "" ∧
    o.TotalPrice = totalPrice ∧ o.PlatformFee = F64.mul totalPrice (F64.lit (2 / 100)) ∧
    o.Status = OrderStatus.OrderStatusCompleted := by
  simp only [PurchaseProduct] at ho
  repeat' split at ho
  all_goals simp only [List.append_assoc, callsSince_append, callsSince_self] at ho
  all_goals simp at ho
  all_goals (try (obtain ⟨ho, _⟩ := ho; subst ho; simp))

/-- The totals of every summary that `CheckoutCart` returns. -/
theorem CheckoutCart_totals (env : Env) (h : List Event) (userID : String)
    (resp : CheckoutResponse)
    (hr : (CheckoutCart env h userID).1 = .returned (.ok resp)) :
    resp.PlatformFee = F64.mul resp.TotalAmount (F64.lit (2 / 100)) ∧
    resp.NetPayable = F64.sub resp.TotalAmount resp.PlatformFee := by
  simp only [CheckoutCart] at hr
  repeat' split at hr
  all_goals simp at hr
  all_goals (try (subst hr; simp))

/-- C9, amended. For every gross amount `g` (of magnitude at least `2 ^ (-1016)`), the fee
of `processPayment` is the `float64` product `g × 0.02`, within relative error `2 ^ (-52)`
of `g / 50` and not rounded to the minor unit of the currency; the same holds for the
`PlatformFee` of the order `PurchaseProduct` creates and for the `PlatformFee` of the
checkout totals. -/
theorem platform_fee_is_float_product (env : Env) (h : List Event) (g totalPrice : ℚ)
    (productID consumerID userID : String)
    (hg : (2 : ℚ) ^ (-1016 : ℤ) ≤ |g|) (htotal : (2 : ℚ) ^ (-1016 : ℤ) ≤ |totalPrice|) :
    ((processPayment env h g).1.1 = F64.mul g (F64.lit (2 / 100)) ∧
      |(processPayment env h g).1.1 - g / 50| ≤ |g| / 50 * 2 ^ (-52 : ℤ)) ∧
    (∀ (o : Order) (e : Option String),
      ⟨Call.OrderCreateOrder o, e⟩ ∈
          callsSince h (PurchaseProduct env h productID consumerID totalPrice).2 →
        o.PlatformFee = F64.mul totalPrice (F64.lit (2 / 100)) ∧
        |o.PlatformFee - totalPrice / 50| ≤ |totalPrice| / 50 * 2 ^ (-52 : ℤ)) ∧
    (∀ resp : CheckoutResponse,
      (CheckoutCart env h userID).1 = .returned (.ok resp) →
        resp.PlatformFee = F64.mul resp.TotalAmount (F64.lit (2 / 100)) ∧
        ((2 : ℚ) ^ (-1016 : ℤ) ≤ |resp.TotalAmount| →
          |resp.PlatformFee - resp.TotalAmount / 50| ≤
            |resp.TotalAmount| / 50 * 2 ^ (-52 : ℤ))) := by
  refine ⟨⟨rfl, fee_err g hg⟩, ?_, ?_⟩
  · intro o e ho
    obtain ⟨_, _, _, _, hf, _⟩ := PurchaseProduct_created_order env h _ _ _ o e ho
    rw [hf]
    exact ⟨rfl, fee_err totalPrice htotal⟩
  · intro resp hr
    obtain ⟨hf, _⟩ := CheckoutCart_totals env h userID resp hr
    rw [hf]
    exact ⟨rfl, fun hn => fee_err _ hn⟩

theorem hundred_normal : (2 : ℚ) ^ (-1016 : ℤ) ≤ |100| := by
  rw [abs_of_pos (by norm_num : (0 : ℚ) < 100)]
  calc (2 : ℚ) ^ (-1016 : ℤ) ≤ 1 := zpow_le_one_of_nonpos₀ (by norm_num) (by norm_num)
    _ ≤ 100 := by norm_num

/-- C9, witness: the gross amount 100.0. -/
theorem platform_fee_is_float_product_witness :
    (2 : ℚ) ^ (-1016 : ℤ) ≤ |100| ∧
    (processPayment stubEnv [] 100).1.1 = F64.mul 100 (F64.lit (2 / 100)) ∧
    |(processPayment stubEnv [] 100).1.1 - 100 / 50| ≤ |100| / 50 * 2 ^ (-52 : ℤ) :=
  ⟨hundred_normal,
    (platform_fee_is_float_product stubEnv [] 100 100 "prod1" "user1" "user1"
      hundred_normal hundred_normal).1⟩

theorem PurchaseBundle_paymentGated (env : Env) (h : List Event)
    (bundleID resellerID : String) :
    paymentGated (callsSince h (PurchaseBundle env h bundleID resellerID).2) = true := by
  simp only [PurchaseBundle, processPayment, simulateStripePayment]
  repeat' split
  all_goals simp only [List.append_assoc, callsSince_append, callsSince_self]
  all_goals simp [paymentGated, writesOf, Call.isWrite, Call.isPaymentStep]

theorem PurchaseProduct_paymentGated_iff (env : Env) (h : List Event)
    (productID consumerID : String) (totalPrice : ℚ) :
    paymentGated (callsSince h (PurchaseProduct env h productID consumerID totalPrice).2) =
      (writesOf
        (callsSince h (PurchaseProduct env h productID consumerID totalPrice).2)).isEmpty := by
  simp only [PurchaseProduct]
  repeat' split
  all_goals simp only [List.append_assoc, callsSince_append, callsSince_self]
  all_goals simp [paymentGated, writesOf, Call.isWrite, Call.isPaymentStep]

/-- C6. `PurchaseBundle` runs the payment step before its first write in every run, but
`PurchaseProduct` never runs it: a run of `PurchaseProduct` is payment-gated only when it
makes no write at all.  With the product `prod1` present and every repository call
succeeding, `PurchaseProduct` and `CheckoutCart` call `CreateOrder` and `RecordPayment`
without any payment step before them. -/
theorem product_purchase_writes_without_payment_step :
    (∀ (env : Env) (h : List Event) (bundleID resellerID : String),
      paymentGated (callsSince h (PurchaseBundle env h bundleID resellerID).2) = true) ∧
    (∀ (env : Env) (h : List Event) (productID consumerID : String) (totalPrice : ℚ),
      paymentGated
          (callsSince h (PurchaseProduct env h productID consumerID totalPrice).2) =
        (writesOf (callsSince h
          (PurchaseProduct env h productID consumerID totalPrice).2)).isEmpty) ∧
    (∃ (o : Order) (p : Payment),
      writesOf (callsSince [] (PurchaseProduct stubEnv [] "prod1" "user1" 100).2) =
        [⟨Call.OrderCreateOrder o, none⟩, ⟨Call.PaymentRecordPayment p, none⟩] ∧
      p.Status = "Paid") ∧
    paymentGated (callsSince [] (PurchaseProduct stubEnv [] "prod1" "user1" 100).2) = false ∧
    paymentGated (callsSince [] (CheckoutCart stubEnv [] "user1").2) = false := by
  refine ⟨PurchaseBundle_paymentGated, PurchaseProduct_paymentGated_iff, ?_, ?_, ?_⟩
  · simp only [PurchaseProduct, stubEnv, writesOf, callsSince, Call.isWrite, List.nil_append,
      List.length_nil, List.drop_zero, List.append_assoc, List.singleton_append,
      List.cons_append, List.filter_cons, List.filter_nil, Bool.false_eq_true, if_false,
      if_true]
    exact ⟨_, _, rfl, rfl⟩
  · simp [PurchaseProduct, stubEnv, paymentGated, writesOf, callsSince, Call.isWrite,
      Call.isPaymentStep]
  · simp [CheckoutCart, checkoutLoop, PurchaseProduct, stubEnv, sampleCartItem,
      sampleProduct, paymentGated, writesOf, callsSince, Call.isWrite, Call.isPaymentStep]

/-! ## PurchaseProduct: the two writes -/

/-- C11. With the product stored and both writes succeeding, `PurchaseProduct` makes exactly
two writes, `CreateOrder` and then `RecordPayment`, and returns the order and the payment it
wrote: the order has `ProductIDs = [productID]`, an empty `BundleID`, the consumer, the
reseller who owns the product, the total price and status Completed; the payment is of type
B2C, from the consumer to that reseller, with the total price as amount and the product ID as
reference.  The run neither updates a product nor adds a warehouse item. -/
theorem PurchaseProduct_success_records (env : Env) (h : List Event)
    (productID consumerID : String) (totalPrice : ℚ) (prod : Product)
    (hprod : env.ProductGetProductByID h productID = .ok (some prod))
    (hwrites : ∀ ev ∈ writesOf
        (callsSince h (PurchaseProduct env h productID consumerID totalPrice).2),
      ev.err = none) :
    (∃ (o : Order) (p : Payment),
      (PurchaseProduct env h productID consumerID totalPrice).1 =
        .returned { order := some o, payment := some p, err := none } ∧
      writesOf (callsSince h (PurchaseProduct env h productID consumerID totalPrice).2) =
        [⟨Call.OrderCreateOrder o, none⟩, ⟨Call.PaymentRecordPayment p, none⟩] ∧
      (o.ProductIDs = [productID] ∧ o.BundleID = "" ∧ o.ConsumerID = consumerID ∧
        o.ResellerID = prod.ResellerID ∧ o.TotalPrice = totalPrice ∧
        o.Status = OrderStatus.OrderStatusCompleted) ∧
      (p.Type_ = PaymentType.B2C ∧ p.FromUserID = consumerID ∧
        p.ToUserID = prod.ResellerID ∧ p.Amount = totalPrice ∧
        p.ReferenceID = productID)) ∧
    (∀ ev ∈ callsSince h (PurchaseProduct env h productID consumerID totalPrice).2,
      (∀ id updates, ev.call ≠ Call.ProductUpdateProduct id updates) ∧
      (∀ w, ev.call ≠ Call.WarehouseAddItem w)) := by
  revert hwrites
  simp only [PurchaseProduct, hprod]
  repeat' split
  all_goals simp only [List.append_assoc, callsSince_append]
  all_goals first
    | (intro hw; exfalso; simp [writesOf, Call.isWrite] at hw; done)
    | (intro _; refine ⟨⟨_, _, rfl, ?_, ?_⟩, ?_⟩ <;> simp [writesOf, Call.isWrite])

/-- C11, witness: `user1` buys the stored product `prod1` for 100.0. -/
theorem PurchaseProduct_success_records_witness :
    stubEnv.ProductGetProductByID [] "prod1" = .ok (some sampleProduct) ∧
    (∀ ev ∈ writesOf (callsSince [] (PurchaseProduct stubEnv [] "prod1" "user1" 100).2),
      ev.err = none) ∧
    ∃ (o : Order) (p : Payment),
      (PurchaseProduct stubEnv [] "prod1" "user1" 100).1 =
        .returned { order := some o, payment := some p, err := none } ∧
      writesOf (callsSince [] (PurchaseProduct stubEnv [] "prod1" "user1" 100).2) =
        [⟨Call.OrderCreateOrder o, none⟩, ⟨Call.PaymentRecordPayment p, none⟩] ∧
      (o.ProductIDs = ["prod1"] ∧ o.BundleID = "" ∧ o.ConsumerID = "user1" ∧
        o.ResellerID = sampleProduct.ResellerID ∧ o.TotalPrice = 100 ∧
        o.Status = OrderStatus.OrderStatusCompleted) ∧
      (p.Type_ = PaymentType.B2C ∧ p.FromUserID = "user1" ∧
        p.ToUserID = sampleProduct.ResellerID ∧ p.Amount = 100 ∧
        p.ReferenceID = "prod1") :=
  have hw : ∀ ev ∈ writesOf (callsSince [] (PurchaseProduct stubEnv [] "prod1" "user1" 100).2),
      ev.err = none := by
    simp [PurchaseProduct, stubEnv, writesOf, callsSince, Call.isWrite]
  ⟨rfl, hw,
    (PurchaseProduct_success_records stubEnv [] "prod1" "user1" 100 sampleProduct rfl hw).1⟩

/-! ## Cart checkout: the loop over the lines -/

theorem checkoutLoop_nil (env : Env) (u : String) (h : List Event) (t : ℚ)
    (a : List CheckoutItemResponse) :
    checkoutLoop env u [] h t a = (.returned (.ok (t, a)), h) := by
  simp [checkoutLoop]

/-- The loop over a cart runs its body on the first line and, when that line goes through,
continues with the remaining lines from the history, total and response lines it left. -/
theorem checkoutLoop_cons (env : Env) (u : String) (item : CartItem) (rest : List CartItem)
    (h : List Event) (t : ℚ) (a : List CheckoutItemResponse) :
    checkoutLoop env u (item :: rest) h t a =
      match checkoutLoop env u [item] h t a with
      | (.returned (.ok (t2, a2)), h2) => checkoutLoop env u rest h2 t2 a2
      | r => r := by
  simp only [checkoutLoop]
  repeat' split
  all_goals simp_all

/-- What a call of `PurchaseProduct` that returned a payment and no error did. -/
theorem PurchaseProduct_ok (env : Env) (h : List Event) (productID consumerID : String)
    (totalPrice : ℚ) (oo : Option Order) (pay : Payment) (hp : List Event)
    (hpp : PurchaseProduct env h productID consumerID totalPrice =
      (.returned { order := oo, payment := some pay, err := none }, hp)) :
    ∃ (o : Order) (ext : List Event), oo = some o ∧ hp = h ++ ext ∧
      writesOf ext =
        [⟨Call.OrderCreateOrder o, none⟩, ⟨Call.PaymentRecordPayment pay, none⟩] ∧
      o.ProductIDs = [productID] ∧ o.ConsumerID = consumerID ∧ o.TotalPrice = totalPrice ∧
      pay.ReferenceID = productID ∧ pay.FromUserID = consumerID ∧
      pay.Amount = totalPrice ∧ pay.Type_ = PaymentType.B2C := by
  simp only [PurchaseProduct] at hpp
  repeat' split at hpp
  all_goals simp at hpp
  obtain ⟨⟨ho, hpay⟩, hh⟩ := hpp
  subst ho hpay hh
  refine ⟨_, _, rfl, rfl, ?_⟩
  simp [writesOf, Call.isWrite]

/-- What a cart line that went through did. -/
theorem checkoutLoop_single_ok (env : Env) (u : String) (item : CartItem)
    (h : List Event) (t : ℚ) (a : List CheckoutItemResponse)
    (t2 : ℚ) (a2 : List CheckoutItemResponse) (h2 : List Event)
    (hok : checkoutLoop env u [item] h t a = (.returned (.ok (t2, a2)), h2)) :
    ∃ l : CartLine, l.settles env u item ∧
      t2 = F64.add t l.prod.Price ∧ a2 = a ++ [checkoutItemOf l.prod] ∧
      ∃ ext, h2 = h ++ ext ∧ writesOf ext = l.writes := by
  simp only [checkoutLoop] at hok
  cases hlk : env.ProductGetProductByID h item.ListingID with
  | error e => simp [hlk] at hok
  | ok op =>
    cases op with
    | none => simp [hlk] at hok
    | some prod =>
      simp only [hlk] at hok
      by_cases hst : (prod.Status != "available") = true
      · simp [hst] at hok
      · simp only [hst, Bool.false_eq_true, if_false] at hok
        generalize hpp : PurchaseProduct env
          (h ++ [⟨Call.ProductGetProductByID item.ListingID, none⟩]) prod.ID u prod.Price = r
          at hok
        obtain ⟨out, hp⟩ := r
        cases out with
        | panicked => simp at hok
        | returned res =>
          obtain ⟨oo, opay, oerr⟩ := res
          cases oerr with
          | some e => simp at hok
          | none =>
            cases opay with
            | none => simp at hok
            | some pay =>
              obtain ⟨o, ext, ho, hext, hw, f1, f2, f3, f4, f5, f6, _⟩ :=
                PurchaseProduct_ok env _ _ _ _ oo pay hp hpp
              simp only [] at hok
              cases hrp : env.PaymentRecordPayment hp { pay with ToUserID := prod.ResellerID }
                with
              | some e => simp [hrp] at hok
              | none =>
                simp only [hrp] at hok
                cases hup : env.ProductUpdateProduct
                  (hp ++ [⟨Call.PaymentRecordPayment { pay with ToUserID := prod.ResellerID },
                    none⟩]) prod.ID [("status", "sold")] with
                | some e => simp [hup] at hok
                | none =>
                  simp only [hup] at hok
                  simp at hok
                  obtain ⟨⟨ht, ha⟩, hh⟩ := hok
                  refine ⟨⟨prod, o, pay⟩, ⟨⟨h, hlk⟩, by simpa using hst,
                    f1, f2, f3, f4, f5, f6⟩, ht.symm, ?_, ?_⟩
                  · rw [← ha]; rfl
                  · refine ⟨[⟨Call.ProductGetProductByID item.ListingID, none⟩] ++ ext ++
                      [⟨Call.PaymentRecordPayment { pay with ToUserID := prod.ResellerID },
                        none⟩,
                       ⟨Call.ProductUpdateProduct prod.ID [("status", "sold")], none⟩],
                      ?_, ?_⟩
                    · rw [← hh, hext]; simp
                    · simp only [writesOf, List.filter_append] at hw ⊢
                      rw [hw]
                      simp [Call.isWrite, CartLine.writes]

theorem writesOf_append (a b : List Event) : writesOf (a ++ b) = writesOf a ++ writesOf b := by
  simp [writesOf]

/-- What a run of the loop that went through every line did: one settled line per cart item
in cart order, the float64 running total of the fetched prices, one response line per item,
and as writes the four writes of each line in turn. -/
theorem checkoutLoop_ok (env : Env) (u : String) :
    ∀ (items : List CartItem) (h : List Event) (t : ℚ) (a : List CheckoutItemResponse)
      (t2 : ℚ) (a2 : List CheckoutItemResponse) (h2 : List Event),
      checkoutLoop env u items h t a = (.returned (.ok (t2, a2)), h2) →
      ∃ ls : List CartLine,
        List.Forall₂ (fun item l => CartLine.settles env u item l) items ls ∧
        t2 = ls.foldl (fun t l => F64.add t l.prod.Price) t ∧
        a2 = a ++ ls.map (fun l => checkoutItemOf l.prod) ∧
        ∃ ext, h2 = h ++ ext ∧ writesOf ext = ls.flatMap CartLine.writes := by
  intro items
  induction items with
  | nil =>
    intro h t a t2 a2 h2 hok
    rw [checkoutLoop_nil] at hok
    simp at hok
    obtain ⟨⟨ht, ha⟩, hh⟩ := hok
    exact ⟨[], List.Forall₂.nil, by simp [ht], by simp [ha], [], by simp [hh],
      by simp [writesOf]⟩
  | cons item rest ih =>
    intro h t a t2 a2 h2 hok
    rw [checkoutLoop_cons] at hok
    generalize h1 : checkoutLoop env u [item] h t a = r at hok
    obtain ⟨out, hm⟩ := r
    cases out with
    | panicked => simp at hok
    | returned res =>
      cases res with
      | error e => simp at hok
      | ok ta =>
        obtain ⟨tm, am⟩ := ta
        simp only [] at hok
        obtain ⟨l, hl, htm, ham, ext1, hext1, hw1⟩ :=
          checkoutLoop_single_ok env u item h t a tm am hm h1
        obtain ⟨ls, hls, ht2, ha2, ext2, hext2, hw2⟩ := ih hm tm am t2 a2 h2 hok
        refine ⟨l :: ls, List.Forall₂.cons hl hls, ?_, ?_, ext1 ++ ext2, ?_, ?_⟩
        · rw [ht2, htm]; rfl
        · rw [ha2, ham]; simp
        · rw [hext2, hext1]; simp
        · rw [writesOf_append, hw1, hw2]; simp [List.flatMap]

/-- A cart line whose product loads as available under its own ID and whose writes succeed
goes through. -/
theorem checkoutLoop_single_run (env : Env) (u : String) (item : CartItem) (p : Product)
    (hlook : ∀ hh, env.ProductGetProductByID hh item.ListingID = .ok (some p))
    (hid : p.ID = item.ListingID) (hst : p.Status = "available")
    (hord : ∀ hh o, env.OrderCreateOrder hh o = none)
    (hpay : ∀ hh q, env.PaymentRecordPayment hh q = none)
    (hupd : ∀ hh id s, env.ProductUpdateProduct hh id s = none)
    (h : List Event) (t : ℚ) (a : List CheckoutItemResponse) :
    ∃ h2, checkoutLoop env u [item] h t a =
      (.returned (.ok (F64.add t p.Price, a ++ [checkoutItemOf p])), h2) := by
  simp [checkoutLoop, PurchaseProduct, hlook, hid, hst, hord, hpay, hupd, checkoutItemOf]

/-- A cart whose products all load as available under their own IDs and whose writes all
succeed goes through every line. -/
theorem checkoutLoop_run (env : Env) (u : String) (lookup : String → Product)
    (hord : ∀ hh o, env.OrderCreateOrder hh o = none)
    (hpay : ∀ hh q, env.PaymentRecordPayment hh q = none)
    (hupd : ∀ hh id s, env.ProductUpdateProduct hh id s = none) :
    ∀ (items : List CartItem),
      (∀ item ∈ items, (∀ hh, env.ProductGetProductByID hh item.ListingID =
          .ok (some (lookup item.ListingID))) ∧
        (lookup item.ListingID).ID = item.ListingID ∧
        (lookup item.ListingID).Status = "available") →
      ∀ (h : List Event) (t : ℚ) (a : List CheckoutItemResponse),
      ∃ h2, checkoutLoop env u items h t a =
        (.returned (.ok (items.foldl (fun t item => F64.add t (lookup item.ListingID).Price) t,
          a ++ items.map (fun item => checkoutItemOf (lookup item.ListingID)))), h2) := by
  intro items
  induction items with
  | nil => intro _ h t a; exact ⟨h, by simp [checkoutLoop_nil]⟩
  | cons item rest ih =>
    intro hall h t a
    obtain ⟨hl, hid, hst⟩ := hall item (List.mem_cons_self _ _)
    obtain ⟨h1, e1⟩ := checkoutLoop_single_run env u item _ hl hid hst hord hpay hupd h t a
    obtain ⟨h2, e2⟩ := ih (fun i hi => hall i (List.mem_cons_of_mem _ hi)) h1
      (F64.add t (lookup item.ListingID).Price) (a ++ [checkoutItemOf (lookup item.ListingID)])
    refine ⟨h2, ?_⟩
    rw [checkoutLoop_cons, e1]
    simp only []
    rw [e2]
    simp

/-! ## CheckoutCart: the summary of a successful checkout -/

/-- The loop over a cart in two parts: the second part runs when the first went through. -/
theorem checkoutLoop_append (env : Env) (u : String) (ys : List CartItem) :
    ∀ (xs : List CartItem) (h : List Event) (t : ℚ) (a : List CheckoutItemResponse),
      checkoutLoop env u (xs ++ ys) h t a =
        match checkoutLoop env u xs h t a with
        | (.returned (.ok (t2, a2)), h2) => checkoutLoop env u ys h2 t2 a2
        | r => r := by
  intro xs
  induction xs with
  | nil => intro h t a; simp [checkoutLoop_nil]
  | cons x xs ih =>
    intro h t a
    rw [List.cons_append, checkoutLoop_cons, checkoutLoop_cons env u x xs]
    generalize checkoutLoop env u [x] h t a = r
    obtain ⟨out, hm⟩ := r
    cases out with
    | panicked => rfl
    | returned res =>
      cases res with
      | error e => rfl
      | ok ta => obtain ⟨tm, am⟩ := ta; exact ih hm tm am

/-- A line whose product does not load, or loads with a status other than "available", ends
the loop with an error right after the lookup, whatever follows it in the cart. -/
theorem checkoutLoop_bad_line (env : Env) (u : String) (bad : CartItem) (post : List CartItem)
    (h : List Event) (t : ℚ) (a : List CheckoutItemResponse)
    (hbad : ∀ p, env.ProductGetProductByID h bad.ListingID = .ok (some p) →
      p.Status ≠ "available") :
    ∃ (msg : String) (e : Option String), checkoutLoop env u (bad :: post) h t a =
      (.returned (.error msg), h ++ [⟨Call.ProductGetProductByID bad.ListingID, e⟩]) := by
  simp only [checkoutLoop]
  cases hlk : env.ProductGetProductByID h bad.ListingID with
  | error e => exact ⟨_, _, rfl⟩
  | ok op =>
    cases op with
    | none => exact ⟨_, _, rfl⟩
    | some p =>
      have := hbad p hlk
      simp only [bne_iff_ne, ne_eq, this, not_false_eq_true, if_true]
      exact ⟨_, _, rfl⟩

/-- C13. When the lines before line `bad` all load as available under their own IDs, every
write succeeds, and the product of `bad` does not load or is not "available", `CheckoutCart`
returns an error and no summary; the writes of the run are exactly the four writes of each
line before `bad`, in cart order (the order, the payment, the payment again, the product set
to "sold"): they stay, and nothing is written for `bad` or for the lines after it. -/
theorem CheckoutCart_fails_at_first_bad_line (env : Env) (h : List Event) (userID : String)
    (pre : List CartItem) (bad : CartItem) (post : List CartItem) (lookup : String → Product)
    (hcart : env.CartGetCartItems h userID = .ok (pre ++ bad :: post))
    (hpre : ∀ item ∈ pre,
      (∀ hh, env.ProductGetProductByID hh item.ListingID =
        .ok (some (lookup item.ListingID))) ∧
      (lookup item.ListingID).ID = item.ListingID ∧
      (lookup item.ListingID).Status = "available")
    (hbad : ∀ hh p, env.ProductGetProductByID hh bad.ListingID = .ok (some p) →
      p.Status ≠ "available")
    (hord : ∀ hh o, env.OrderCreateOrder hh o = none)
    (hpay : ∀ hh q, env.PaymentRecordPayment hh q = none)
    (hupd : ∀ hh id s, env.ProductUpdateProduct hh id s = none) :
    ∃ (msg : String) (lines : List CartLine),
      (CheckoutCart env h userID).1 = .returned (.error msg) ∧
      List.Forall₂ (fun item l => CartLine.settles env userID item l) pre lines ∧
      writesOf (callsSince h (CheckoutCart env h userID).2) =
        lines.flatMap CartLine.writes := by
  obtain ⟨h1, e1⟩ := checkoutLoop_run env userID lookup hord hpay hupd pre hpre
    (h ++ [⟨Call.CartGetCartItems userID, none⟩]) 0 []
  obtain ⟨lines, hl, _, _, ext, hext, hw⟩ := checkoutLoop_ok env userID pre _ _ _ _ _ _ e1
  obtain ⟨msg, e, e2⟩ := checkoutLoop_bad_line env userID bad post h1
    (pre.foldl (fun t item => F64.add t (lookup item.ListingID).Price) 0)
    ([] ++ pre.map (fun item => checkoutItemOf (lookup item.ListingID))) (hbad h1)
  have hloop : checkoutLoop env userID (pre ++ bad :: post)
      (h ++ [⟨Call.CartGetCartItems userID, none⟩]) 0 [] =
      (.returned (.error msg), h1 ++ [⟨Call.ProductGetProductByID bad.ListingID, e⟩]) := by
    rw [checkoutLoop_append, e1]
    exact e2
  have hlen : ¬ (pre ++ bad :: post).length = 0 := by simp
  refine ⟨msg, lines, ?_, hl, ?_⟩
  · simp only [CheckoutCart, hcart, hlen, if_false, hloop]
  · simp only [CheckoutCart, hcart, hlen, if_false, hloop, hext, List.append_assoc,
      callsSince_append]
    rw [writesOf_append, writesOf_append, hw]
    simp [writesOf, Call.isWrite]

/-- C13, witness: the two-line cart when `prod2` has been sold in the meantime: the checkout
fails at the second line, and the order, the payments and the sold-marking of `prod1` stay
written. -/
theorem CheckoutCart_fails_at_first_bad_line_witness :
    secondLineSoldEnv.CartGetCartItems [] "user1" = .ok (staleCart.take 1 ++ staleCart.drop 1) ∧
    (∃ (msg : String) (lines : List CartLine),
      (CheckoutCart secondLineSoldEnv [] "user1").1 = .returned (.error msg) ∧
      List.Forall₂ (fun item l => CartLine.settles secondLineSoldEnv "user1" item l)
        (staleCart.take 1) lines ∧
      writesOf (callsSince [] (CheckoutCart secondLineSoldEnv [] "user1").2) =
        lines.flatMap CartLine.writes) ∧
    (CheckoutCart secondLineSoldEnv [] "user1").1 =
      .returned (.error "item \"Test Product 2\" is no longer available") ∧
    (writesOf (callsSince [] (CheckoutCart secondLineSoldEnv [] "user1").2)).map
        (fun ev => ev.call.isWrite && ev.err.isNone) = [true, true, true, true] :=
  ⟨rfl,
    CheckoutCart_fails_at_first_bad_line secondLineSoldEnv [] "user1" (staleCart.take 1)
      { ID := "item2", UserID := "user1", ListingID := "prod2", Title := "Test Product 2",
        Price := 180, ImageURL := "img2.jpg", Grade := "B" } [] twoProducts rfl
      (by
        intro item hi
        simp only [staleCart, List.take, List.mem_singleton] at hi
        subst hi
        simp [secondLineSoldEnv, twoProducts, sampleProduct])
      (by
        intro hh p hp
        simp [secondLineSoldEnv] at hp
        subst hp
        decide)
      (fun _ _ => rfl) (fun _ _ => rfl) (fun _ _ _ => rfl),
    by
      simp [CheckoutCart, checkoutLoop, PurchaseProduct, secondLineSoldEnv, stubEnv, staleCart,
        sampleProduct, sampleProduct2],
    by
      simp [CheckoutCart, checkoutLoop, PurchaseProduct, secondLineSoldEnv, stubEnv, staleCart,
        sampleProduct, sampleProduct2, writesOf, callsSince, Call.isWrite]⟩

/-! ## CheckoutCart: clearing the cart -/

/-- The calls of `PurchaseProduct` extend the history and none of them removes lines from a
cart. -/
theorem PurchaseProduct_calls (env : Env) (h : List Event) (productID consumerID : String)
    (totalPrice : ℚ) :
    ∃ ext, (PurchaseProduct env h productID consumerID totalPrice).2 = h ++ ext ∧
      ∀ ev ∈ ext, ev.call.isCartCleanup = false := by
  simp only [PurchaseProduct]
  repeat' split
  all_goals simp only [List.append_assoc]
  all_goals exact ⟨_, rfl, by simp [Call.isCartCleanup]⟩

/-- The calls of one pass of the checkout loop extend the history and none of them removes
lines from a cart. -/
theorem checkoutLoop_single_calls (env : Env) (u : String) (item : CartItem)
    (h : List Event) (t : ℚ) (a : List CheckoutItemResponse) :
    ∃ ext, (checkoutLoop env u [item] h t a).2 = h ++ ext ∧
      ∀ ev ∈ ext, ev.call.isCartCleanup = false := by
  simp only [checkoutLoop]
  cases env.ProductGetProductByID h item.ListingID with
  | error e => exact ⟨_, rfl, by simp [Call.isCartCleanup]⟩
  | ok op =>
    cases op with
    | none => exact ⟨_, rfl, by simp [Call.isCartCleanup]⟩
    | some prod =>
      simp only []
      by_cases hst : (prod.Status != "available") = true
      · simp only [hst, if_true]; exact ⟨_, rfl, by simp [Call.isCartCleanup]⟩
      · simp only [hst, Bool.false_eq_true, if_false]
        obtain ⟨ext, hext, hno⟩ := PurchaseProduct_calls env
          (h ++ [⟨Call.ProductGetProductByID item.ListingID, none⟩]) prod.ID u prod.Price
        generalize PurchaseProduct env
          (h ++ [⟨Call.ProductGetProductByID item.ListingID, none⟩]) prod.ID u prod.Price = r
          at hext
        obtain ⟨out, hp⟩ := r
        simp only at hext
        subst hext
        cases out with
        | panicked =>
          refine ⟨_, List.append_assoc _ _ _, ?_⟩
          intro ev hev
          simp only [List.mem_append, List.mem_singleton] at hev
          rcases hev with rfl | hev
          · simp [Call.isCartCleanup]
          · exact hno ev hev
        | returned res =>
          obtain ⟨oo, opay, oerr⟩ := res
          have hno2 : ∀ ev ∈
              [(⟨Call.ProductGetProductByID item.ListingID, none⟩ : Event)] ++ ext,
              ev.call.isCartCleanup = false := by
            intro ev hev
            simp only [List.mem_append, List.mem_singleton] at hev
            rcases hev with rfl | hev
            · simp [Call.isCartCleanup]
            · exact hno ev hev
          cases oerr with
          | some e => exact ⟨_, by simp only [List.append_assoc], hno2⟩
          | none =>
            cases opay with
            | none => exact ⟨_, by simp only [List.append_assoc], hno2⟩
            | some pay =>
              simp only []
              repeat' split
              all_goals simp only [List.append_assoc, List.nil_append]
              all_goals refine ⟨_, rfl, ?_⟩
              all_goals
                intro ev hev
                simp only [List.mem_append, List.mem_cons, List.mem_singleton,
                  List.not_mem_nil, or_false] at hev
                rcases hev with rfl | hev | hev
                · simp [Call.isCartCleanup]
                · exact hno ev hev
                · rcases hev with rfl | rfl <;> simp [Call.isCartCleanup]

/-- The calls of the checkout loop extend the history and none of them removes lines from a
cart. -/
theorem checkoutLoop_calls (env : Env) (u : String) :
    ∀ (items : List CartItem) (h : List Event) (t : ℚ) (a : List CheckoutItemResponse),
      ∃ ext, (checkoutLoop env u items h t a).2 = h ++ ext ∧
        ∀ ev ∈ ext, ev.call.isCartCleanup = false := by
  intro items
  induction items with
  | nil => intro h t a; exact ⟨[], by simp [checkoutLoop_nil], by simp⟩
  | cons item rest ih =>
    intro h t a
    obtain ⟨ext1, h1, hno1⟩ := checkoutLoop_single_calls env u item h t a
    rw [checkoutLoop_cons]
    generalize checkoutLoop env u [item] h t a = r at h1
    obtain ⟨out, hm⟩ := r
    simp only at h1
    subst h1
    cases out with
    | panicked => exact ⟨ext1, rfl, hno1⟩
    | returned res =>
      cases res with
      | error e => exact ⟨ext1, rfl, hno1⟩
      | ok ta =>
        obtain ⟨tm, am⟩ := ta
        obtain ⟨ext2, h2, hno2⟩ := ih (h ++ ext1) tm am
        refine ⟨ext1 ++ ext2, ?_, ?_⟩
        · simp only [h2, List.append_assoc]
        · intro ev hev
          rcases List.mem_append.mp hev with hev | hev
          · exact hno1 ev hev
          · exact hno2 ev hev

/-- C14. For a non-empty cart, `CheckoutCart` calls `ClearCart` exactly when the loop over
the lines went through every line.  When it did, the writes of the run are the four writes
of each line in cart order, each without error (the order, the payment, the payment again
and one update of the line's product to "sold"), followed by the single `ClearCart` call for
the user.  When a lookup, an availability check or a write of some line ended the loop, no
call of the run clears a cart. -/
theorem CheckoutCart_clears_cart_after_all_lines (env : Env) (h : List Event)
    (userID : String) (items : List CartItem)
    (hcart : env.CartGetCartItems h userID = .ok items) (hne : items ≠ []) :
    ((∃ r, (checkoutLoop env userID items
          (h ++ [⟨Call.CartGetCartItems userID, none⟩]) 0 []).1 = .returned (.ok r)) ↔
      ∃ ev ∈ callsSince h (CheckoutCart env h userID).2,
        ∃ v, ev.call = Call.CartClearCart v) ∧
    ((∃ r, (checkoutLoop env userID items
          (h ++ [⟨Call.CartGetCartItems userID, none⟩]) 0 []).1 = .returned (.ok r)) →
      ∃ (lines : List CartLine) (e : Option String),
        List.Forall₂ (fun item l => CartLine.settles env userID item l) items lines ∧
        writesOf (callsSince h (CheckoutCart env h userID).2) =
          lines.flatMap CartLine.writes ++ [⟨Call.CartClearCart userID, e⟩]) := by
  have hlen : ¬ items.length = 0 := by
    intro h0; exact hne (List.length_eq_zero.mp h0)
  obtain ⟨ext, hext, hno⟩ := checkoutLoop_calls env userID items
    (h ++ [⟨Call.CartGetCartItems userID, none⟩]) 0 []
  have hok : ∀ r, (checkoutLoop env userID items
      (h ++ [⟨Call.CartGetCartItems userID, none⟩]) 0 []).1 = .returned (.ok r) →
      ∃ (lines : List CartLine) (e : Option String),
        List.Forall₂ (fun item l => CartLine.settles env userID item l) items lines ∧
        writesOf (callsSince h (CheckoutCart env h userID).2) =
          lines.flatMap CartLine.writes ++ [⟨Call.CartClearCart userID, e⟩] := by
    intro r hr
    obtain ⟨t2, a2⟩ := r
    have hloop : checkoutLoop env userID items
        (h ++ [⟨Call.CartGetCartItems userID, none⟩]) 0 [] =
        (.returned (.ok (t2, a2)), h ++ [⟨Call.CartGetCartItems userID, none⟩] ++ ext) :=
      Prod.ext hr hext
    obtain ⟨lines, hl, _, _, ext2, hext2, hw⟩ :=
      checkoutLoop_ok env userID items _ _ _ _ _ _ hloop
    have hee : ext2 = ext := List.append_cancel_left hext2.symm
    subst hee
    refine ⟨lines, env.CartClearCart (h ++ [⟨Call.CartGetCartItems userID, none⟩] ++ ext2)
      userID, hl, ?_⟩
    simp only [CheckoutCart, hcart, hlen, if_false, hloop]
    split
    all_goals simp only [List.append_assoc, callsSince_append]
    all_goals rw [writesOf_append, writesOf_append, hw]
    all_goals simp_all [writesOf, Call.isWrite]
  refine ⟨⟨?_, ?_⟩, fun ⟨r, hr⟩ => hok r hr⟩
  · rintro ⟨r, hr⟩
    obtain ⟨lines, e, _, hw⟩ := hok r hr
    refine ⟨⟨Call.CartClearCart userID, e⟩, ?_, userID, rfl⟩
    have : (⟨Call.CartClearCart userID, e⟩ : Event) ∈
        writesOf (callsSince h (CheckoutCart env h userID).2) := by
      rw [hw]; simp
    exact (List.mem_filter.mp this).1
  · rintro ⟨ev, hev, v, hv⟩
    generalize hloop : checkoutLoop env userID items
        (h ++ [⟨Call.CartGetCartItems userID, none⟩]) 0 [] = r at hext hev ⊢
    revert hev
    simp only [CheckoutCart, hcart, hlen, if_false]
    rw [hloop]
    obtain ⟨out, hm⟩ := r
    simp only at hext
    subst hext
    cases out with
    | panicked =>
      simp only [List.append_assoc, callsSince_append]
      intro hev
      simp only [List.mem_append, List.mem_singleton] at hev
      rcases hev with rfl | hev
      · simp at hv
      · have := hno ev hev
        rw [hv] at this
        simp [Call.isCartCleanup] at this
    | returned res =>
      cases res with
      | ok r => intro _; exact ⟨r, rfl⟩
      | error e =>
        simp only [List.append_assoc, callsSince_append]
        intro hev
        simp only [List.mem_append, List.mem_singleton] at hev
        rcases hev with rfl | hev
        · simp at hv
        · have := hno ev hev
          rw [hv] at this
          simp [Call.isCartCleanup] at this

/-- C14, witness: the two-line cart with both products available: the cart is cleared, once,
after the eight writes of the two lines. -/
theorem CheckoutCart_clears_cart_after_all_lines_witness :
    twoLineEnv.CartGetCartItems [] "user1" = .ok staleCart ∧ staleCart ≠ [] ∧
    (∃ ev ∈ callsSince [] (CheckoutCart twoLineEnv [] "user1").2,
      ∃ v, ev.call = Call.CartClearCart v) ∧
    ∃ (lines : List CartLine) (e : Option String), lines.length = 2 ∧
      writesOf (callsSince [] (CheckoutCart twoLineEnv [] "user1").2) =
        lines.flatMap CartLine.writes ++ [⟨Call.CartClearCart "user1", e⟩] := by
  have hloop : ∃ r, (checkoutLoop twoLineEnv "user1" staleCart
      ([] ++ [⟨Call.CartGetCartItems "user1", none⟩]) 0 []).1 = .returned (.ok r) := by
    simp [checkoutLoop, PurchaseProduct, twoLineEnv, stubEnv, staleCart, twoProducts,
      sampleProduct, sampleProduct2]
  have key := CheckoutCart_clears_cart_after_all_lines twoLineEnv [] "user1" staleCart rfl
    (by decide)
  obtain ⟨lines, e, hl, hw⟩ := key.2 hloop
  exact ⟨rfl, by decide, key.1.mp hloop, lines, e, by simpa [staleCart] using hl.length_eq.symm,
    hw⟩

/-! ## Checkout: the payment of a line is recorded twice -/

/-- C15. With the product `prod1` stored and available and every repository call succeeding,
a successful `CheckoutCart` of the one-line cart makes the writes `CreateOrder`,
`RecordPayment`, `RecordPayment`, `UpdateProduct`, `ClearCart`: the payment that
`PurchaseProduct` recorded for the order is handed to `RecordPayment` a second time by the
checkout, with the same content (its `ToUserID` already was the reseller).
`CheckoutSingleItem` does the same before `DeleteCartItem`. -/
theorem checkout_records_payment_twice :
    (∃ (o : Order) (p : Payment) (resp : CheckoutResponse),
      (CheckoutCart stubEnv [] "user1").1 = .returned (.ok resp) ∧
      writesOf (callsSince [] (CheckoutCart stubEnv [] "user1").2) =
        [⟨Call.OrderCreateOrder o, none⟩, ⟨Call.PaymentRecordPayment p, none⟩,
         ⟨Call.PaymentRecordPayment p, none⟩,
         ⟨Call.ProductUpdateProduct "prod1" [("status", "sold")], none⟩,
         ⟨Call.CartClearCart "user1", none⟩] ∧
      o.ProductIDs = ["prod1"] ∧ p.ReferenceID = "prod1") ∧
    (∃ (o : Order) (p : Payment) (resp : CheckoutResponse),
      (CheckoutSingleItem stubEnv [] "user1" "prod1").1 = .returned (.ok resp) ∧
      writesOf (callsSince [] (CheckoutSingleItem stubEnv [] "user1" "prod1").2) =
        [⟨Call.OrderCreateOrder o, none⟩, ⟨Call.PaymentRecordPayment p, none⟩,
         ⟨Call.PaymentRecordPayment p, none⟩,
         ⟨Call.ProductUpdateProduct "prod1" [("status", "sold")], none⟩,
         ⟨Call.CartDeleteCartItem "user1" "prod1", none⟩] ∧
      o.ProductIDs = ["prod1"] ∧ p.ReferenceID = "prod1") := by
  constructor
  · simp only [CheckoutCart, checkoutLoop, PurchaseProduct, stubEnv, sampleCartItem,
      sampleProduct, writesOf, callsSince, Call.isWrite, List.nil_append,
      List.length_nil, List.drop_zero, List.append_assoc, List.singleton_append,
      List.cons_append, List.filter_cons, List.filter_nil, Bool.false_eq_true, if_false,
      if_true, List.length_singleton, one_ne_zero, bne_self_eq_false]
    exact ⟨_, _, _, rfl, rfl, rfl, rfl⟩
  · simp only [CheckoutSingleItem, PurchaseProduct, stubEnv, sampleCartItem,
      sampleProduct, writesOf, callsSince, Call.isWrite, List.nil_append,
      List.length_nil, List.drop_zero, List.append_assoc, List.singleton_append,
      List.cons_append, List.filter_cons, List.filter_nil, Bool.false_eq_true, if_false,
      if_true, List.length_singleton, one_ne_zero, bne_self_eq_false, List.find?_cons,
      beq_self_eq_true]
    exact ⟨_, _, _, rfl, rfl, rfl, rfl⟩

/-! ## CheckoutSingleItem against CheckoutCart on a one-line cart -/

/-- C16, counterexample. With the one-line cart holding `prod1` and every repository call
succeeding except that clearing the cart fails (deleting a cart item works), `CheckoutCart`
makes its four writes and fails with the error of `ClearCart`, where `CheckoutSingleItem`
succeeds: the two do not succeed or fail together. -/
theorem single_item_checkout_differs_from_cart_checkout :
    clearCartDownEnv.CartGetCartItems [] "user1" = .ok [sampleCartItem] ∧
    sampleCartItem.ListingID = "prod1" ∧
    (∀ hh, clearCartDownEnv.CartClearCart hh "user1" = some "connection refused") ∧
    (∀ hh, clearCartDownEnv.CartDeleteCartItem hh "user1" "prod1" = none) ∧
    (CheckoutCart clearCartDownEnv [] "user1").1 = .returned (.error "connection refused") ∧
    (∃ rs : CheckoutResponse,
      (CheckoutSingleItem clearCartDownEnv [] "user1" "prod1").1 = .returned (.ok rs)) := by
  refine ⟨rfl, rfl, fun _ => rfl, fun _ => rfl, ?_, ?_⟩
  · simp [CheckoutCart, checkoutLoop, PurchaseProduct, clearCartDownEnv, stubEnv,
      sampleCartItem, sampleProduct]
  · simp [CheckoutSingleItem, PurchaseProduct, clearCartDownEnv, stubEnv,
      sampleCartItem, sampleProduct]

/-- On a one-line cart `CheckoutSingleItem` for the listing of that line is one pass of the
loop of `CheckoutCart`, followed by `DeleteCartItem` where `CheckoutCart` calls `ClearCart`,
and with the status of the response line set to "sold". -/
theorem CheckoutSingleItem_eq_loop (env : Env) (h : List Event) (userID : String)
    (item : CartItem) (hcart : env.CartGetCartItems h userID = .ok [item])
    (hprice : ∀ p, env.ProductGetProductByID (h ++ [⟨Call.CartGetCartItems userID, none⟩])
      item.ListingID = .ok (some p) → F64.IsF64 p.Price) :
    CheckoutSingleItem env h userID item.ListingID =
      match checkoutLoop env userID [item] (h ++ [⟨Call.CartGetCartItems userID, none⟩]) 0 []
      with
      | (.panicked, h2) => (.panicked, h2)
      | (.returned (.error err), h2) => (.returned (.error err), h2)
      | (.returned (.ok (total, checkoutItems)), h2) =>
        match env.CartDeleteCartItem h2 userID item.ListingID with
        | some err =>
          (.returned (.error err),
            h2 ++ [⟨Call.CartDeleteCartItem userID item.ListingID, some err⟩])
        | none =>
          (.returned (.ok
            { TotalAmount := total
              Items := checkoutItems.map (fun i => { i with Status := "sold" })
              PlatformFee := F64.mul total (F64.lit (2 / 100))
              NetPayable := F64.sub total (F64.mul total (F64.lit (2 / 100))) }),
            h2 ++ [⟨Call.CartDeleteCartItem userID item.ListingID, none⟩] ++
              [⟨Call.GoDeliverySimulation, none⟩]) := by
  simp only [CheckoutSingleItem, checkoutLoop, hcart, List.find?_cons, beq_self_eq_true]
  cases hlk : env.ProductGetProductByID (h ++ [⟨Call.CartGetCartItems userID, none⟩])
      item.ListingID with
  | error e => rfl
  | ok op =>
    cases op with
    | none => rfl
    | some prod =>
      have hp := F64.round_of_isF64 _ (hprice prod hlk)
      have hadd : F64.add 0 prod.Price = prod.Price := by
        unfold F64.add; rw [zero_add]; exact hp
      simp only [hadd]
      by_cases hst : (prod.Status != "available") = true
      · simp only [hst, if_true]
      · simp only [hst, Bool.false_eq_true, if_false]
        generalize PurchaseProduct env
          (h ++ [⟨Call.CartGetCartItems userID, none⟩] ++
            [⟨Call.ProductGetProductByID item.ListingID, none⟩]) prod.ID userID prod.Price = r
        obtain ⟨out, hp⟩ := r
        cases out with
        | panicked => rfl
        | returned res =>
          obtain ⟨oo, opay, oerr⟩ := res
          cases oerr with
          | some e => simp only []
          | none =>
            cases opay with
            | none => simp only []
            | some pay =>
              simp only []
              repeat' split
              all_goals simp_all
              all_goals
                have hq := ‹(_ ∧ _) ∧ _›
                obtain ⟨⟨h1, h2⟩, _⟩ := hq
                subst h2 h1
                simp

/-- C16, amended. On a cart of exactly one line whose product has a `float64` price,
`CheckoutSingleItem` for the listing of that line and `CheckoutCart` make the same calls with
the same answers up to the removal from the cart (the same lookup, `PurchaseProduct`,
`RecordPayment` and `UpdateProduct` calls); both reach the removal or neither does, and when
neither does they return the same result; the removal is `ClearCart` in `CheckoutCart` and
`DeleteCartItem` in `CheckoutSingleItem`; and when both succeed the summaries have the same
`TotalAmount`, `PlatformFee` and `NetPayable` and one line each with the same `ListingID`,
`Title`, `Price` and `SellerID`. -/
theorem single_item_checkout_agrees_up_to_cart_removal (env : Env) (h : List Event)
    (userID : String) (item : CartItem)
    (hcart : env.CartGetCartItems h userID = .ok [item])
    (hprice : ∀ p, env.ProductGetProductByID (h ++ [⟨Call.CartGetCartItems userID, none⟩])
      item.ListingID = .ok (some p) → F64.IsF64 p.Price) :
    (callsSince h (CheckoutCart env h userID).2).filter (fun ev => !ev.call.isCartCleanup) =
      (callsSince h (CheckoutSingleItem env h userID item.ListingID).2).filter
        (fun ev => !ev.call.isCartCleanup) ∧
    ((∃ e, ⟨Call.CartClearCart userID, e⟩ ∈ callsSince h (CheckoutCart env h userID).2) ↔
      ∃ e, ⟨Call.CartDeleteCartItem userID item.ListingID, e⟩ ∈
        callsSince h (CheckoutSingleItem env h userID item.ListingID).2) ∧
    ((¬ ∃ e, ⟨Call.CartClearCart userID, e⟩ ∈
        callsSince h (CheckoutCart env h userID).2) →
      (CheckoutCart env h userID).1 = (CheckoutSingleItem env h userID item.ListingID).1) ∧
    (∀ rc rs : CheckoutResponse,
      (CheckoutCart env h userID).1 = .returned (.ok rc) →
      (CheckoutSingleItem env h userID item.ListingID).1 = .returned (.ok rs) →
      rc.TotalAmount = rs.TotalAmount ∧ rc.PlatformFee = rs.PlatformFee ∧
      rc.NetPayable = rs.NetPayable ∧
      ∃ ic js : CheckoutItemResponse, rc.Items = [ic] ∧ rs.Items = [js] ∧
        ic.ListingID = js.ListingID ∧ ic.Title = js.Title ∧ ic.Price = js.Price ∧
        ic.SellerID = js.SellerID) := by
  rw [CheckoutSingleItem_eq_loop env h userID item hcart hprice]
  simp only [CheckoutCart, hcart, List.length_singleton, one_ne_zero, if_false]
  obtain ⟨ext, hext, hno⟩ := checkoutLoop_calls env userID [item]
    (h ++ [⟨Call.CartGetCartItems userID, none⟩]) 0 []
  have hclear : ∀ e, (⟨Call.CartClearCart userID, e⟩ : Event) ∉ ext := by
    intro e he
    have := hno _ he
    simp [Call.isCartCleanup] at this
  have hdel : ∀ e, (⟨Call.CartDeleteCartItem userID item.ListingID, e⟩ : Event) ∉ ext := by
    intro e he
    have := hno _ he
    simp [Call.isCartCleanup] at this
  cases hr : checkoutLoop env userID [item]
      (h ++ [⟨Call.CartGetCartItems userID, none⟩]) 0 [] with
  | mk out h2 =>
    rw [hr] at hext
    simp only at hext
    subst hext
    cases out with
    | panicked =>
      simp only [List.append_assoc, callsSince_append]
      simp [hclear, hdel]
    | returned res =>
      cases res with
      | error e =>
        simp only [List.append_assoc, callsSince_append]
        simp [hclear, hdel]
      | ok ta =>
        obtain ⟨t2, a2⟩ := ta
        obtain ⟨l, hl, _, ha, _⟩ := checkoutLoop_single_ok env userID item _ _ _ _ _ _ hr
        simp only [List.nil_append] at ha
        subst ha
        simp only []
        cases env.CartClearCart (h ++ [⟨Call.CartGetCartItems userID, none⟩] ++ ext) userID
          <;> cases env.CartDeleteCartItem
            (h ++ [⟨Call.CartGetCartItems userID, none⟩] ++ ext) userID item.ListingID
        all_goals simp only [List.append_assoc, callsSince_append]
        all_goals simp [hclear, hdel, Call.isCartCleanup, checkoutItemOf, hl.2.1]

/-- C16, witness: the one-line cart holding `prod1`, priced 100.0. -/
theorem single_item_checkout_agrees_up_to_cart_removal_witness :
    stubEnv.CartGetCartItems [] "user1" = .ok [sampleCartItem] ∧
    (∀ p, stubEnv.ProductGetProductByID ([] ++ [⟨Call.CartGetCartItems "user1", none⟩])
      sampleCartItem.ListingID = .ok (some p) → F64.IsF64 p.Price) ∧
    (callsSince [] (CheckoutCart stubEnv [] "user1").2).filter
        (fun ev => !ev.call.isCartCleanup) =
      (callsSince [] (CheckoutSingleItem stubEnv [] "user1" sampleCartItem.ListingID).2).filter
        (fun ev => !ev.call.isCartCleanup) ∧
    (∀ rc rs : CheckoutResponse,
      (CheckoutCart stubEnv [] "user1").1 = .returned (.ok rc) →
      (CheckoutSingleItem stubEnv [] "user1" sampleCartItem.ListingID).1 =
        .returned (.ok rs) →
      rc.TotalAmount = rs.TotalAmount ∧ rc.PlatformFee = rs.PlatformFee ∧
      rc.NetPayable = rs.NetPayable ∧
      ∃ ic js : CheckoutItemResponse, rc.Items = [ic] ∧ rs.Items = [js] ∧
        ic.ListingID = js.ListingID ∧ ic.Title = js.Title ∧ ic.Price = js.Price ∧
        ic.SellerID = js.SellerID) :=
  have hp : ∀ p, stubEnv.ProductGetProductByID ([] ++ [⟨Call.CartGetCartItems "user1", none⟩])
      sampleCartItem.ListingID = .ok (some p) → F64.IsF64 p.Price := by
    intro p hp
    simp only [stubEnv, Except.ok.injEq, Option.some.injEq] at hp
    subst hp
    exact isF64_hundred
  have key := single_item_checkout_agrees_up_to_cart_removal stubEnv [] "user1"
    sampleCartItem rfl hp
  ⟨rfl, hp, key.1, key.2.2.2⟩

/-! ## Fulfillment state machine: terminal states -/

/-- A sequence of transitions acts on each item of the store separately, keeps its ID and
leaves an item that is not "pending" as it is. -/
theorem runTransitions_eq_map (ts : List WarehouseTransition) :
    ∃ g : WarehouseItem → WarehouseItem,
      (∀ store, runTransitions store ts = store.map g) ∧
      ∀ item, (g item).ID = item.ID ∧ (item.Status ≠ "pending" → g item = item) := by
  induction ts with
  | nil => exact ⟨id, by simp [runTransitions], by simp⟩
  | cons t ts ih =>
    obtain ⟨g, hg, hprop⟩ := ih
    have hstep : ∃ f : WarehouseItem → WarehouseItem,
        (∀ store, WarehouseTransition.apply store t = store.map f) ∧
        ∀ item, (f item).ID = item.ID ∧ (item.Status ≠ "pending" → f item = item) := by
      cases t with
      | timerFires itemID =>
        refine ⟨_, fun store => rfl, fun item => ?_⟩
        by_cases hc : item.ID = itemID ∧ item.Status = "pending"
        · simp [hc]
        · simp only [hc, if_false, true_and]; intro _; trivial
      | manualSkip itemID =>
        refine ⟨_, fun store => rfl, fun item => ?_⟩
        by_cases hc : item.ID = itemID ∧ item.Status = "pending"
        · simp [hc]
        · simp only [hc, if_false, true_and]; intro _; trivial
    obtain ⟨f, hf, hfprop⟩ := hstep
    refine ⟨g ∘ f, ?_, ?_⟩
    · intro store
      have : runTransitions store (t :: ts) =
          runTransitions (WarehouseTransition.apply store t) ts := rfl
      rw [this, hg, hf, List.map_map]
    · intro item
      obtain ⟨h1, h2⟩ := hfprop item
      obtain ⟨h3, h4⟩ := hprop (f item)
      refine ⟨by simp [h3, h1], fun hne => ?_⟩
      have e := h2 hne
      simp only [Function.comp, e]
      exact (hprop item).2 hne

/-- C17. In the store of warehouse items, whatever transitions happen in whatever order,
every item keeps its ID and an item whose status is "listed" or "skipped" is left exactly as
it is.  The automatic transition writes "listed" only to an item that is still "pending": an
item that is "pending" becomes "listed" when its timer fires first and "skipped" when the
manual skip comes first, and stays so through everything that follows, the timer
included. -/
theorem terminal_status_is_kept (store : List WarehouseItem) (ts : List WarehouseTransition)
    (itemID : String) :
    List.Forall₂
      (fun before after => after.ID = before.ID ∧
        ((before.Status = "listed" ∨ before.Status = "skipped") → after = before))
      store (runTransitions store ts) ∧
    List.Forall₂
      (fun before after => (before.ID = itemID ∧ before.Status = "pending") →
        after.Status = "skipped")
      store (runTransitions store (.manualSkip itemID :: ts ++ [.timerFires itemID])) ∧
    List.Forall₂
      (fun before after => (before.ID = itemID ∧ before.Status = "pending") →
        after.Status = "listed")
      store (runTransitions store (.timerFires itemID :: ts)) := by
  refine ⟨?_, ?_, ?_⟩
  · obtain ⟨g, hg, hprop⟩ := runTransitions_eq_map ts
    rw [hg, List.forall₂_map_right_iff, List.forall₂_same]
    intro item _
    refine ⟨(hprop item).1, fun hterm => (hprop item).2 ?_⟩
    rcases hterm with h | h <;> rw [h] <;> decide
  · obtain ⟨g, hg, hprop⟩ := runTransitions_eq_map (ts ++ [.timerFires itemID])
    have : runTransitions store (.manualSkip itemID :: ts ++ [.timerFires itemID]) =
        runTransitions (MarkItemAsSkipped store itemID) (ts ++ [.timerFires itemID]) := rfl
    rw [this, hg, MarkItemAsSkipped, List.map_map, List.forall₂_map_right_iff,
      List.forall₂_same]
    intro item _ hc
    simp only [Function.comp, hc, and_self, if_true]
    rw [(hprop _).2 (by simp)]
  · obtain ⟨g, hg, hprop⟩ := runTransitions_eq_map ts
    have : runTransitions store (.timerFires itemID :: ts) =
        runTransitions (MarkItemAsListed store itemID) ts := rfl
    rw [this, hg, MarkItemAsListed, List.map_map, List.forall₂_map_right_iff,
      List.forall₂_same]
    intro item _ hc
    simp only [Function.comp, hc, and_self, if_true]
    rw [(hprop _).2 (by simp)]

/-- C17, witness: the pending item `item1` is skipped by hand and then its timer fires: it
stays "skipped". -/
theorem terminal_status_is_kept_witness :
    List.Forall₂
      (fun before after => (before.ID = "item1" ∧ before.Status = "pending") →
        after.Status = "skipped")
      [sampleWarehouseItem]
      (runTransitions [sampleWarehouseItem]
        (.manualSkip "item1" :: [] ++ [.timerFires "item1"])) ∧
    (runTransitions [sampleWarehouseItem] [.manualSkip "item1", .timerFires "item1"]).map
      (fun item => item.Status) = ["skipped"] ∧
    (runTransitions [sampleWarehouseItem] [.timerFires "item1", .manualSkip "item1"]).map
      (fun item => item.Status) = ["listed"] :=
  ⟨(terminal_status_is_kept [sampleWarehouseItem] [] "item1").2.1,
    by simp [runTransitions, WarehouseTransition.apply, MarkItemAsListed, MarkItemAsSkipped,
      sampleWarehouseItem],
    by simp [runTransitions, WarehouseTransition.apply, MarkItemAsListed, MarkItemAsSkipped,
      sampleWarehouseItem]⟩

/-! ## Order histories: joined names -/

/-- What `collectNames` leaves under a key: the name found for it when it is among the keys
and a name is found, and what was there before otherwise. -/
theorem collectNames_apply (found : String → Option String) (keys : List String) :
    ∀ (m : GoMap) (k : String), collectNames found keys m k =
      if k ∈ keys then (match found k with
        | some v => some v
        | none => m k) else m k := by
  induction keys with
  | nil => intro m k; simp [collectNames]
  | cons a keys ih =>
    intro m k
    have hstep : collectNames found (a :: keys) m =
        collectNames found keys (match found a with
          | some v => m.set a v
          | none => m) := rfl
    rw [hstep, ih]
    by_cases hk : k ∈ keys
    · simp only [hk, if_true, List.mem_cons, or_true]
      cases hfk : found k with
      | some v => rfl
      | none =>
        simp only []
        cases hfa : found a with
        | none => rfl
        | some w =>
          have hka : k ≠ a := by
            intro hka; rw [hka, hfa] at hfk; cases hfk
          simp [GoMap.set, hka]
    · by_cases hka : k = a
      · subst hka
        simp only [hk, if_false, List.mem_cons, true_or, if_true]
        cases found k <;> simp [GoMap.set]
      · simp only [hk, if_false, List.mem_cons, hka, or_self]
        cases found a <;> simp [GoMap.set, hka]

/-- With `collectNames` starting from the empty map, a key holds a name exactly when it is
among the keys and a name is found for it. -/
theorem collectNames_empty (found : String → Option String) (keys : List String)
    (k v : String) :
    collectNames found keys GoMap.empty k = some v ↔ k ∈ keys ∧ found k = some v := by
  rw [collectNames_apply]
  by_cases hk : k ∈ keys
  · simp only [hk, if_true, true_and]
    cases found k <;> simp [GoMap.empty]
  · simp [hk, GoMap.empty]

theorem soldBundleHistoryLoop_names (env : Env)
    (users : String → Except String (Option User))
    (husers : ∀ hh uid, env.UserGetByID hh uid = users uid)
    (hnonnil : ∀ uid, users uid ≠ .ok none) :
    ∀ (orders : List Order) (h : List Event) (m : GoMap),
      (soldBundleHistoryLoop env orders h m).1 = .returned
        (collectNames (fun k => match users k with
            | .ok (some u) => some u.Username
            | _ => none)
          (orders.filterMap (fun o => if o.ResellerID != "" then some o.ResellerID else none))
          m) := by
  intro orders
  induction orders with
  | nil => intro h m; rfl
  | cons o rest ih =>
    intro h m
    simp only [soldBundleHistoryLoop, husers, List.filterMap_cons]
    by_cases hr : (o.ResellerID != "") = true
    · simp only [hr, if_true]
      cases hu : users o.ResellerID with
      | error e => simp only [ih]; simp [collectNames, hu]
      | ok ou =>
        cases ou with
        | none => exact absurd hu (hnonnil _)
        | some u => simp only [ih]; simp [collectNames, hu]
    · simp only [hr, Bool.false_eq_true, if_false, ih]

theorem ordersByResellerLoop_names (env : Env)
    (users : String → Except String (Option User))
    (husers : ∀ hh uid, env.UserGetByID hh uid = users uid) :
    ∀ (orders : List Order) (h : List Event) (m : GoMap),
      (ordersByResellerLoop env orders h m).1 =
        collectNames (fun k => match users k with
            | .ok (some u) => some u.Username
            | _ => none)
          (orders.filterMap (fun o =>
            if o.ProductIDs.length > 0 then
              (if o.ConsumerID != "" then some o.ConsumerID else none)
            else if o.BundleID != "" then
              (if o.SupplierID != "" then some o.SupplierID else none)
            else none))
          m := by
  intro orders
  induction orders with
  | nil => intro h m; rfl
  | cons o rest ih =>
    intro h m
    simp only [ordersByResellerLoop, husers, List.filterMap_cons]
    by_cases hp : o.ProductIDs.length > 0
    · simp only [hp, if_true]
      by_cases hc : (o.ConsumerID != "") = true
      · simp only [hc, if_true]
        cases hu : users o.ConsumerID with
        | error e => simp only [ih]; simp [collectNames, hu]
        | ok ou => cases ou <;> (simp only [ih]; simp [collectNames, hu])
      · simp only [hc, Bool.false_eq_true, if_false, ih]
    · simp only [hp, if_false]
      by_cases hb : (o.BundleID != "") = true
      · simp only [hb, if_true]
        by_cases hs : (o.SupplierID != "") = true
        · simp only [hs, if_true]
          cases hu : users o.SupplierID with
          | error e => simp only [ih]; simp [collectNames, hu]
          | ok ou => cases ou <;> (simp only [ih]; simp [collectNames, hu])
        · simp only [hs, Bool.false_eq_true, if_false, ih]
      · simp only [hb, Bool.false_eq_true, if_false, ih]

theorem mem_foldl_insertKey (ps : List String) : ∀ (ids : List String) (p : String),
    p ∈ ps.foldl insertKey ids ↔ p ∈ ids ∨ p ∈ ps := by
  induction ps with
  | nil => intro ids p; simp
  | cons a ps ih =>
    intro ids p
    simp only [List.foldl_cons, ih, insertKey, List.mem_cons]
    by_cases ha : a ∈ ids
    · simp only [ha, if_true]
      constructor
      · rintro (h | h)
        · exact Or.inl h
        · exact Or.inr (Or.inr h)
      · rintro (h | h | h)
        · exact Or.inl h
        · subst h; exact Or.inl ha
        · exact Or.inr h
    · simp only [ha, if_false, List.mem_append, List.mem_singleton]
      tauto

theorem ordersByConsumerLoop_names (env : Env)
    (users : String → Except String (Option User))
    (husers : ∀ hh uid, env.UserGetByID hh uid = users uid) :
    ∀ (orders : List Order) (h : List Event) (m : GoMap) (ids : List String),
      (ordersByConsumerLoop env orders h m ids).1 =
        collectNames (fun k => match users k with
            | .ok (some u) => some u.Username
            | _ => none)
          (orders.filterMap (fun o => if o.ResellerID != "" then some o.ResellerID else none))
          m ∧
      ∀ p, p ∈ (ordersByConsumerLoop env orders h m ids).2.1 ↔
        p ∈ ids ∨ ∃ o ∈ orders, p ∈ o.ProductIDs := by
  intro orders
  induction orders with
  | nil => intro h m ids; exact ⟨rfl, by simp [ordersByConsumerLoop]⟩
  | cons o rest ih =>
    intro h m ids
    have hmem : ∀ (hh : List Event) (mm : GoMap) (p : String),
        p ∈ (ordersByConsumerLoop env rest hh mm (o.ProductIDs.foldl insertKey ids)).2.1 ↔
          p ∈ ids ∨ ∃ o2 ∈ o :: rest, p ∈ o2.ProductIDs := by
      intro hh mm p
      rw [(ih hh mm _).2, mem_foldl_insertKey]
      simp only [List.mem_cons, exists_eq_or_imp]
      tauto
    simp only [ordersByConsumerLoop, husers, List.filterMap_cons]
    by_cases hr : (o.ResellerID != "") = true
    · simp only [hr, if_true]
      cases hu : users o.ResellerID with
      | error e =>
        refine ⟨?_, hmem _ _⟩
        simp only [(ih _ _ _).1]; simp [collectNames, hu]
      | ok ou =>
        cases ou with
        | none =>
          refine ⟨?_, hmem _ _⟩
          simp only [(ih _ _ _).1]; simp [collectNames, hu]
        | some u =>
          refine ⟨?_, hmem _ _⟩
          simp only [(ih _ _ _).1]; simp [collectNames, hu]
    · simp only [hr, Bool.false_eq_true, if_false]
      exact ⟨(ih _ _ _).1, hmem _ _⟩

theorem productNamesLoop_names (env : Env)
    (products : String → Except String (Option Product))
    (hproducts : ∀ hh pid, env.ProductGetProductByID hh pid = products pid) :
    ∀ (keys : List String) (h : List Event) (m : GoMap),
      (productNamesLoop env keys h m).1 =
        collectNames (fun p => match products p with
            | .ok (some prod) => some prod.Title
            | _ => none) keys m := by
  intro keys
  induction keys with
  | nil => intro h m; rfl
  | cons a keys ih =>
    intro h m
    simp only [productNamesLoop, hproducts]
    cases hp : products a with
    | error e => simp only [ih]; simp [collectNames, hp]
    | ok op =>
      cases op with
      | none => simp only [ih]; simp [collectNames, hp]
      | some prod => simp only [ih]; simp [collectNames, hp]

/-- When the lookups of an account or a product answer the same for an ID throughout the
call and a `range` over a map visits each key once, `GetOrdersByReseller` and
`GetOrdersByConsumer` succeed whenever the order repository returns a list, whatever the
joined lookups answer, and so does `GetSoldBundleHistory` as long as no account lookup
answers nil without an error: they return that list unchanged, and a name map holds a name
under an ID exactly when the ID is a joined ID of one of the orders (not empty) and its
lookup answered a record, the name being the looked-up `Username` or product `Title`. -/
theorem joined_lookups_omit_missing_records (env : Env) (h : List Event) (id : String)
    (users : String → Except String (Option User))
    (products : String → Except String (Option Product))
    (husers : ∀ hh uid, env.UserGetByID hh uid = users uid)
    (hproducts : ∀ hh pid, env.ProductGetProductByID hh pid = products pid)
    (hrange : ∀ hh keys, (env.MapRange hh keys).Perm keys) :
    (∀ orders, env.OrderGetOrdersBySupplier h id = .ok orders →
      (∀ uid, users uid ≠ .ok none) →
      ∃ userNames : GoMap,
        (GetSoldBundleHistory env h id).1 = .returned (.ok (orders, userNames)) ∧
        ∀ k v, userNames k = some v ↔
          (k ≠ "" ∧ ∃ o ∈ orders, o.ResellerID = k) ∧
          ∃ u, users k = .ok (some u) ∧ u.Username = v) ∧
    (∀ orders, env.OrderGetOrdersByReseller h id = .ok orders →
      ∃ userNames : GoMap, (GetOrdersByReseller env h id).1 = .ok (orders, userNames) ∧
        ∀ k v, userNames k = some v ↔
          (k ≠ "" ∧ ∃ o ∈ orders, (o.ProductIDs ≠ [] ∧ o.ConsumerID = k) ∨
            (o.ProductIDs = [] ∧ o.BundleID ≠ "" ∧ o.SupplierID = k)) ∧
          ∃ u, users k = .ok (some u) ∧ u.Username = v) ∧
    (∀ orders, env.OrderGetOrdersByConsumer h id = .ok orders →
      ∃ userNames productNames : GoMap,
        (GetOrdersByConsumer env h id).1 = .ok (orders, userNames, productNames) ∧
        (∀ k v, userNames k = some v ↔
          (k ≠ "" ∧ ∃ o ∈ orders, o.ResellerID = k) ∧
          ∃ u, users k = .ok (some u) ∧ u.Username = v) ∧
        ∀ p t, productNames p = some t ↔
          (∃ o ∈ orders, p ∈ o.ProductIDs) ∧
          ∃ prod, products p = .ok (some prod) ∧ prod.Title = t) := by
  have hfound : ∀ k v, (match users k with
      | .ok (some u) => some u.Username
      | _ => none) = some v ↔ ∃ u, users k = .ok (some u) ∧ u.Username = v := by
    intro k v
    cases users k with
    | error e => simp
    | ok ou => cases ou <;> simp
  have hreseller : ∀ (orders : List Order) (k : String),
      k ∈ orders.filterMap (fun o => if o.ResellerID != "" then some o.ResellerID else none) ↔
        (k ≠ "" ∧ ∃ o ∈ orders, o.ResellerID = k) := by
    intro orders k
    simp only [List.mem_filterMap]
    constructor
    · rintro ⟨o, ho, hk⟩
      by_cases hr : o.ResellerID = ""
      · simp [hr] at hk
      · simp only [bne_iff_ne, ne_eq, hr, not_false_eq_true, if_true, Option.some.injEq] at hk
        exact ⟨hk ▸ hr, o, ho, hk⟩
    · rintro ⟨hk, o, ho, rfl⟩
      exact ⟨o, ho, by simp [hk]⟩
  refine ⟨?_, ?_, ?_⟩
  · intro orders hord hnonnil
    have hloop := soldBundleHistoryLoop_names env users husers hnonnil orders
      (h ++ [⟨Call.OrderGetOrdersBySupplier id, none⟩]) GoMap.empty
    refine ⟨collectNames (fun k => match users k with
        | .ok (some u) => some u.Username
        | _ => none)
      (orders.filterMap (fun o => if o.ResellerID != "" then some o.ResellerID else none))
      GoMap.empty, ?_, ?_⟩
    · simp only [GetSoldBundleHistory, hord]
      generalize soldBundleHistoryLoop env orders
        (h ++ [⟨Call.OrderGetOrdersBySupplier id, none⟩]) GoMap.empty = r at hloop
      obtain ⟨out, h2⟩ := r
      simp only at hloop
      subst hloop
      rfl
    · intro k v
      rw [collectNames_empty, hreseller, hfound]
  · intro orders hord
    refine ⟨(ordersByResellerLoop env orders
      (h ++ [⟨Call.OrderGetOrdersByReseller id, none⟩]) GoMap.empty).1, ?_, ?_⟩
    · simp only [GetOrdersByReseller, hord]
    · intro k v
      rw [ordersByResellerLoop_names env users husers, collectNames_empty, hfound]
      apply and_congr_left
      intro _
      simp only [List.mem_filterMap]
      constructor
      · rintro ⟨o, ho, hk⟩
        by_cases hp : o.ProductIDs = []
        · by_cases hb : o.BundleID = ""
          · simp [hp, hb] at hk
          · by_cases hs : o.SupplierID = ""
            · simp [hp, hb, hs] at hk
            · simp [hp, hb, hs] at hk
              exact ⟨hk ▸ hs, o, ho, Or.inr ⟨hp, hb, hk⟩⟩
        · have hlen : o.ProductIDs.length > 0 := List.length_pos.mpr hp
          by_cases hc : o.ConsumerID = ""
          · simp [hlen, hc] at hk
          · simp [hlen, hc] at hk
            exact ⟨hk ▸ hc, o, ho, Or.inl ⟨hp, hk⟩⟩
      · rintro ⟨hk, o, ho, hcase⟩
        refine ⟨o, ho, ?_⟩
        rcases hcase with ⟨hp, rfl⟩ | ⟨hp, hb, rfl⟩
        · have hlen : o.ProductIDs.length > 0 := List.length_pos.mpr hp
          simp [hlen, hk]
        · simp [hp, hb, hk]
  · intro orders hord
    refine ⟨(ordersByConsumerLoop env orders
        (h ++ [⟨Call.OrderGetOrdersByConsumer id, none⟩]) GoMap.empty []).1,
      (productNamesLoop env
        (env.MapRange (ordersByConsumerLoop env orders
            (h ++ [⟨Call.OrderGetOrdersByConsumer id, none⟩]) GoMap.empty []).2.2
          (ordersByConsumerLoop env orders
            (h ++ [⟨Call.OrderGetOrdersByConsumer id, none⟩]) GoMap.empty []).2.1)
        (ordersByConsumerLoop env orders
          (h ++ [⟨Call.OrderGetOrdersByConsumer id, none⟩]) GoMap.empty []).2.2
        GoMap.empty).1, ?_, ?_, ?_⟩
    · simp only [GetOrdersByConsumer, hord]
    · intro k v
      rw [(ordersByConsumerLoop_names env users husers _ _ _ _).1, collectNames_empty,
        hreseller, hfound]
    · intro p t
      rw [productNamesLoop_names env products hproducts, collectNames_empty,
        (hrange _ _).mem_iff, (ordersByConsumerLoop_names env users husers _ _ _ _).2]
      simp only [List.not_mem_nil, false_or]
      apply and_congr_right
      intro _
      cases hp : products p with
      | error e => simp
      | ok op => cases op <;> simp

/-- The accounts of `sampleUsers`, except that the lookup of `ghost` answers nil without an
error. -/
theorem nilGhost_lookup (hh : List Event) :
    nilAccountEnv.UserGetByID hh "ghost" = .ok none ∧
    nilAccountEnv.UserGetByID hh "reseller1" =
      .ok (some { sampleUser with ID := "reseller1", Username := "name of reseller1" }) := by
  constructor <;> simp [nilAccountEnv, historyEnv, nilGhostUsers, sampleUsers]

/-- C18. Three orders, the second of which names the account `ghost`, whose lookup answers
nil without an error: `GetSoldBundleHistory` panics at `user.Username`, after the lookups of
`reseller1` and `ghost`, while `GetOrdersByReseller` and `GetOrdersByConsumer`, which check
`user != nil`, return the three orders with no name for `ghost`. -/
theorem sold_bundle_history_panics_on_nil_account :
    nilAccountEnv.OrderGetOrdersBySupplier [] "supplier1" = .ok sampleOrders ∧
    (∀ hh, nilAccountEnv.UserGetByID hh "ghost" = .ok none) ∧
    GetSoldBundleHistory nilAccountEnv [] "supplier1" =
      (.panicked, [⟨Call.OrderGetOrdersBySupplier "supplier1", none⟩,
        ⟨Call.UserGetByID "reseller1", none⟩, ⟨Call.UserGetByID "ghost", none⟩]) ∧
    (∃ userNames : GoMap,
      (GetOrdersByReseller nilAccountEnv [] "supplier1").1 = .ok (sampleOrders, userNames) ∧
      userNames "ghost" = none ∧ userNames "supplier1" = some "name of supplier1") ∧
    (∃ userNames productNames : GoMap,
      (GetOrdersByConsumer nilAccountEnv [] "supplier1").1 =
        .ok (sampleOrders, userNames, productNames) ∧
      userNames "ghost" = none ∧ userNames "reseller1" = some "name of reseller1") := by
  have key := joined_lookups_omit_missing_records nilAccountEnv [] "supplier1" nilGhostUsers
    sampleProducts (fun _ _ => rfl) (fun _ _ => rfl) (fun _ keys => List.reverse_perm keys)
  refine ⟨rfl, fun hh => (nilGhost_lookup hh).1, ?_, ?_, ?_⟩
  · simp [GetSoldBundleHistory, soldBundleHistoryLoop, nilAccountEnv, historyEnv,
      nilGhostUsers, sampleUsers, sampleOrders, sampleOrder]
  · obtain ⟨userNames, hrun, hnames⟩ := key.2.1 sampleOrders rfl
    refine ⟨userNames, hrun, ?_, ?_⟩
    · cases hg : userNames "ghost" with
      | none => rfl
      | some v =>
        have := (hnames "ghost" v).mp hg
        simp [nilGhostUsers] at this
    · rw [hnames]
      simp [sampleOrders, sampleOrder, nilGhostUsers, sampleUsers, sampleUser]
  · obtain ⟨userNames, productNames, hrun, hnames, _⟩ := key.2.2 sampleOrders rfl
    refine ⟨userNames, productNames, hrun, ?_, ?_⟩
    · cases hg : userNames "ghost" with
      | none => rfl
      | some v =>
        have := (hnames "ghost" v).mp hg
        simp [nilGhostUsers] at this
    · rw [hnames]
      simp [sampleOrders, sampleOrder, nilGhostUsers, sampleUsers, sampleUser]

/-! ## Dashboards: the account of the supplier or reseller -/

/-- C19, counterexample. With the bundle and product listings loading and the account not
loading, `GetDashboardMetrics` and `GetResellerMetrics` both return the error of the account
lookup and no metrics. -/
theorem metrics_fail_when_account_missing :
    userDownEnv.BundleListBundles [] "supplier1" = .ok [sampleBundle] ∧
    (GetDashboardMetrics userDownEnv [] "supplier1").1 =
      .returned (.error "user not found") ∧
    userDownEnv.BundleListPurchasedByReseller [] "reseller1" = .ok [sampleBundle] ∧
    (∀ hh, userDownEnv.ProductGetSoldProductsByReseller hh "reseller1" =
      .ok [sampleProduct]) ∧
    (GetResellerMetrics userDownEnv [] "reseller1").1 =
      .returned (.error "user not found") := by
  refine ⟨rfl, ?_, rfl, fun _ => rfl, ?_⟩
  · simp [GetDashboardMetrics, userDownEnv, stubEnv]
  · simp [GetResellerMetrics, userDownEnv, stubEnv]

/-- C19, amended. When the bundle listing loads and the account of the supplier or reseller
does not, `GetDashboardMetrics` and `GetResellerMetrics` return the error of the account
lookup and no metrics; the account lookup is the last call they make. -/
theorem metrics_return_account_lookup_error (env : Env) (h : List Event) (id err : String)
    (bundles bought : List Bundle)
    (hlist : env.BundleListBundles h id = .ok bundles)
    (hbought : env.BundleListPurchasedByReseller h id = .ok bought)
    (hsupplier : env.UserGetByID (h ++ [⟨Call.BundleListBundles id, none⟩]) id = .error err)
    (hreseller : env.UserGetByID (h ++ [⟨Call.BundleListPurchasedByReseller id, none⟩]) id =
      .error err) :
    GetDashboardMetrics env h id =
      (.returned (.error err), h ++ [⟨Call.BundleListBundles id, none⟩] ++
        [⟨Call.UserGetByID id, some err⟩]) ∧
    GetResellerMetrics env h id =
      (.returned (.error err), h ++ [⟨Call.BundleListPurchasedByReseller id, none⟩] ++
        [⟨Call.UserGetByID id, some err⟩]) := by
  constructor
  · simp only [GetDashboardMetrics, hlist, hsupplier]
  · simp only [GetResellerMetrics, hbought, hreseller]

/-- C19, witness: no account loads while the listings do. -/
theorem metrics_return_account_lookup_error_witness :
    userDownEnv.BundleListBundles [] "supplier1" = .ok [sampleBundle] ∧
    userDownEnv.BundleListPurchasedByReseller [] "supplier1" = .ok [sampleBundle] ∧
    GetDashboardMetrics userDownEnv [] "supplier1" =
      (.returned (.error "user not found"),
        [] ++ [⟨Call.BundleListBundles "supplier1", none⟩] ++
        [⟨Call.UserGetByID "supplier1", some "user not found"⟩]) ∧
    GetResellerMetrics userDownEnv [] "supplier1" =
      (.returned (.error "user not found"),
        [] ++ [⟨Call.BundleListPurchasedByReseller "supplier1", none⟩] ++
        [⟨Call.UserGetByID "supplier1", some "user not found"⟩]) :=
  ⟨rfl, rfl,
    metrics_return_account_lookup_error userDownEnv [] "supplier1" "user not found"
      [sampleBundle] [sampleBundle] rfl rfl rfl rfl⟩

/-! ## GetDashboardMetrics: the values -/

/-- C22. A checkout that fails validation makes no write.  `CheckoutCart` on an empty cart
returns "cart is empty" after the one call that loaded the cart.  `CheckoutSingleItem`
returns "item not found in cart" after that same call when no line of the cart has the
listing ID, and "item ", the title as `strconv.Quote` renders it (the verb `%q`) and
" is no longer available" after the cart and the product lookups when the product has a
status other than "available".  In each case no
summary is returned and the calls named are the only ones of the run: nothing is purchased,
recorded, updated or removed. -/
theorem checkout_validation_failures_write_nothing (env : Env) (h : List Event)
    (userID listingID : String) :
    (env.CartGetCartItems h userID = .ok [] →
      CheckoutCart env h userID =
        (.returned (.error "cart is empty"), h ++ [⟨Call.CartGetCartItems userID, none⟩])) ∧
    (∀ items, env.CartGetCartItems h userID = .ok items →
      (∀ item ∈ items, item.ListingID ≠ listingID) →
      CheckoutSingleItem env h userID listingID =
        (.returned (.error "item not found in cart"),
          h ++ [⟨Call.CartGetCartItems userID, none⟩])) ∧
    (∀ items prod, env.CartGetCartItems h userID = .ok items →
      (∃ item ∈ items, item.ListingID = listingID) →
      env.ProductGetProductByID (h ++ [⟨Call.CartGetCartItems userID, none⟩]) listingID =
        .ok (some prod) →
      prod.Status ≠ "available" →
      CheckoutSingleItem env h userID listingID =
        (.returned (.error ("item " ++ env.Quote prod.Title ++ " is no longer available")),
          h ++ [⟨Call.CartGetCartItems userID, none⟩] ++
            [⟨Call.ProductGetProductByID listingID, none⟩])) := by
  refine ⟨?_, ?_, ?_⟩
  · intro hcart
    simp [CheckoutCart, hcart]
  · intro items hcart hnone
    have hfind : items.find? (fun i => i.ListingID == listingID) = none := by
      rw [List.find?_eq_none]
      intro item hitem
      simpa using hnone item hitem
    simp only [CheckoutSingleItem, hcart, hfind]
  · intro items prod hcart hsome hprod hstatus
    obtain ⟨item, hitem, hid⟩ := hsome
    have hfind : ∃ found, items.find? (fun i => i.ListingID == listingID) = some found := by
      cases hf : items.find? (fun i => i.ListingID == listingID) with
      | some found => exact ⟨found, rfl⟩
      | none =>
        rw [List.find?_eq_none] at hf
        exact absurd (by simpa using hid) (hf item hitem)
    obtain ⟨found, hfound⟩ := hfind
    have hst : (prod.Status != "available") = true := by simpa using hstatus
    simp only [CheckoutSingleItem, hcart, hfound, hprod, hst, if_true]

/-- C22, witness: the empty cart, a cart without the listing `prod9`, and the cart line of
`prod1` after `prod1` has been sold. -/
theorem checkout_validation_failures_write_nothing_witness :
    CheckoutCart emptyCartEnv [] "user1" =
      (.returned (.error "cart is empty"), [] ++ [⟨Call.CartGetCartItems "user1", none⟩]) ∧
    CheckoutSingleItem stubEnv [] "user1" "prod9" =
      (.returned (.error "item not found in cart"),
        [] ++ [⟨Call.CartGetCartItems "user1", none⟩]) ∧
    CheckoutSingleItem productSoldEnv [] "user1" "prod1" =
      (.returned (.error "item \"Test Product 1\" is no longer available"),
        [] ++ [⟨Call.CartGetCartItems "user1", none⟩] ++
          [⟨Call.ProductGetProductByID "prod1", none⟩]) :=
  ⟨(checkout_validation_failures_write_nothing emptyCartEnv [] "user1" "prod1").1 rfl,
    (checkout_validation_failures_write_nothing stubEnv [] "user1" "prod9").2.1
      [sampleCartItem] rfl (by simp [sampleCartItem]),
    (checkout_validation_failures_write_nothing productSoldEnv [] "user1" "prod1").2.2
      [sampleCartItem] { sampleProduct with Status := "sold" } rfl
      ⟨sampleCartItem, by simp, rfl⟩ rfl (by decide)⟩

/-! ## AddCartItem -/

/-- C23. `AddCartItem` calls `CreateCartItem` exactly when the product lookup answers a
product whose status is "available".  A lookup that answers no product gives "product not
found", a product with another status gives "product <listing ID> is not available", and a
failing lookup gives its error wrapped; in these cases the lookup is the only call.
Otherwise the one item handed to `CreateCartItem` carries the user ID and the product's ID,
title, price, image and grade, and the error of `CreateCartItem` is returned. -/
theorem AddCartItem_creates_iff_available (env : Env) (h : List Event)
    (userID listingID : String) :
    ((∃ item e, ⟨Call.CartCreateCartItem item, e⟩ ∈
        callsSince h (AddCartItem env h userID listingID).2) ↔
      ∃ prod, env.ProductGetProductByID h listingID = .ok (some prod) ∧
        prod.Status = "available") ∧
    (env.ProductGetProductByID h listingID = .ok none →
      AddCartItem env h userID listingID =
        (some "product not found", h ++ [⟨Call.ProductGetProductByID listingID, none⟩])) ∧
    (∀ prod, env.ProductGetProductByID h listingID = .ok (some prod) →
      prod.Status ≠ "available" →
      AddCartItem env h userID listingID =
        (some ("product " ++ listingID ++ " is not available"),
          h ++ [⟨Call.ProductGetProductByID listingID, none⟩])) ∧
    (∀ err, env.ProductGetProductByID h listingID = .error err →
      AddCartItem env h userID listingID =
        (some ("failed to fetch product: " ++ err),
          h ++ [⟨Call.ProductGetProductByID listingID, some err⟩])) ∧
    (∀ prod, env.ProductGetProductByID h listingID = .ok (some prod) →
      prod.Status = "available" →
      ∃ item : CartItem,
        writesOf (callsSince h (AddCartItem env h userID listingID).2) =
          [⟨Call.CartCreateCartItem item, (AddCartItem env h userID listingID).1⟩] ∧
        item.UserID = userID ∧ item.ListingID = prod.ID ∧ item.Title = prod.Title ∧
        item.Price = prod.Price ∧ item.ImageURL = prod.ImageURL ∧
        item.Grade = prod.Grade) := by
  refine ⟨?_, ?_, ?_, ?_, ?_⟩
  · simp only [AddCartItem]
    cases hlk : env.ProductGetProductByID h listingID with
    | error e => simp [callsSince_append]
    | ok op =>
      cases op with
      | none => simp [callsSince_append]
      | some prod =>
        by_cases hst : prod.Status = "available"
        · simp [hst, List.append_assoc, callsSince_append]
        · have hb : (prod.Status != "available") = true := by simpa using hst
          simp [hb, hst, callsSince_append]
  · intro hlk
    simp only [AddCartItem, hlk]
  · intro prod hlk hst
    have hb : (prod.Status != "available") = true := by simpa using hst
    simp only [AddCartItem, hlk, hb, if_true]
  · intro err hlk
    simp only [AddCartItem, hlk]
  · intro prod hlk hst
    have hb : (prod.Status != "available") = false := by simpa using hst
    simp only [AddCartItem, hlk, hb, Bool.false_eq_true, if_false, List.append_assoc,
      callsSince_append]
    refine ⟨{ ID := env.NewUUID (h ++ [⟨Call.ProductGetProductByID listingID, none⟩])
              UserID := userID
              ListingID := prod.ID
              Title := prod.Title
              Price := prod.Price
              ImageURL := prod.ImageURL
              Grade := prod.Grade
              CreatedAt := env.TimeNow (h ++ [⟨Call.ProductGetProductByID listingID, none⟩] ++
                [⟨Call.NewUUID, none⟩]) }, ?_, rfl, rfl, rfl, rfl, rfl, rfl⟩
    simp [writesOf, Call.isWrite]

/-- C23, witness: `user1` adds the available `prod1`; a missing and a sold product. -/
theorem AddCartItem_creates_iff_available_witness :
    (∃ item : CartItem,
      writesOf (callsSince [] (AddCartItem stubEnv [] "user1" "prod1").2) =
        [⟨Call.CartCreateCartItem item, (AddCartItem stubEnv [] "user1" "prod1").1⟩] ∧
      item.UserID = "user1" ∧ item.ListingID = sampleProduct.ID ∧
      item.Title = sampleProduct.Title ∧ item.Price = sampleProduct.Price ∧
      item.ImageURL = sampleProduct.ImageURL ∧ item.Grade = sampleProduct.Grade) ∧
    AddCartItem productMissingEnv [] "user1" "prod1" =
      (some "product not found", [] ++ [⟨Call.ProductGetProductByID "prod1", none⟩]) ∧
    AddCartItem productSoldEnv [] "user1" "prod1" =
      (some ("product " ++ "prod1" ++ " is not available"),
        [] ++ [⟨Call.ProductGetProductByID "prod1", none⟩]) :=
  ⟨(AddCartItem_creates_iff_available stubEnv [] "user1" "prod1").2.2.2.2
      sampleProduct rfl rfl,
    (AddCartItem_creates_iff_available productMissingEnv [] "user1" "prod1").2.1 rfl,
    (AddCartItem_creates_iff_available productSoldEnv [] "user1" "prod1").2.2.1
      { sampleProduct with Status := "sold" } rfl (by decide)⟩

/-- C24. `AddCartItem` never reads the cart: no call of any run is `GetCartItems`.  With the
cart of `user1` already holding a line for `prod1` and the product available, adding `prod1`
again hands a second cart item for `prod1` to `CreateCartItem` and returns no error. -/
theorem AddCartItem_creates_duplicate_line :
    (∀ (env : Env) (h : List Event) (userID listingID : String),
      ∀ ev ∈ callsSince h (AddCartItem env h userID listingID).2,
        ∀ u, ev.call ≠ Call.CartGetCartItems u) ∧
    (∀ hh, stubEnv.CartGetCartItems hh "user1" = .ok [sampleCartItem]) ∧
    sampleCartItem.UserID = "user1" ∧ sampleCartItem.ListingID = "prod1" ∧
    (AddCartItem stubEnv [] "user1" "prod1").1 = none ∧
    ∃ item : CartItem,
      writesOf (callsSince [] (AddCartItem stubEnv [] "user1" "prod1").2) =
        [⟨Call.CartCreateCartItem item, none⟩] ∧
      item.UserID = "user1" ∧ item.ListingID = "prod1" ∧ item.ID ≠ sampleCartItem.ID := by
  refine ⟨?_, fun _ => rfl, rfl, rfl, ?_, ?_⟩
  · intro env h userID listingID
    simp only [AddCartItem]
    repeat' split
    all_goals simp only [List.append_assoc, callsSince_append]
    all_goals simp
  · simp [AddCartItem, stubEnv, sampleProduct]
  · simp only [AddCartItem, stubEnv, sampleProduct, bne_self_eq_false, Bool.false_eq_true,
      if_false, List.nil_append, List.append_assoc, callsSince, List.length_nil,
      List.drop_zero]
    refine ⟨{ ID := "uuid" ++ toString 1, UserID := "user1", ListingID := "prod1",
              Title := "Test Product 1", Price := 100, ImageURL := "img1.jpg", Grade := "A",
              CreatedAt := "2025-01-01T00:00:00Z" }, ?_, rfl, rfl, ?_⟩
    · simp [writesOf, Call.isWrite]
    · simp only [sampleCartItem]
      decide

/-! ## PurchaseProduct: a failing product lookup -/

/-- C25. When the product lookup fails, `PurchaseProduct` returns no order and no payment
and the error "failed to get product details: " followed by the message of the repository's
error; the lookup is the only call it makes, so nothing is written. -/
theorem PurchaseProduct_lookup_failure (env : Env) (h : List Event)
    (productID consumerID : String) (totalPrice : ℚ) (err : String)
    (hlookup : env.ProductGetProductByID h productID = .error err) :
    PurchaseProduct env h productID consumerID totalPrice =
      (.returned { order := none, payment := none,
                   err := some ("failed to get product details: " ++ err) },
        h ++ [⟨Call.ProductGetProductByID productID, some err⟩]) ∧
    writesOf (callsSince h (PurchaseProduct env h productID consumerID totalPrice).2) = [] := by
  constructor
  · simp only [PurchaseProduct, hlookup]
  · simp [PurchaseProduct, hlookup, callsSince_append, writesOf, Call.isWrite]

/-- C25, witness: the product store answers "product not found". -/
theorem PurchaseProduct_lookup_failure_witness :
    productDownEnv.ProductGetProductByID [] "prod1" = .error "product not found" ∧
    PurchaseProduct productDownEnv [] "prod1" "user1" 100 =
      (.returned { order := none, payment := none,
                   err := some ("failed to get product details: " ++ "product not found") },
        [] ++ [⟨Call.ProductGetProductByID "prod1", some "product not found"⟩]) ∧
    writesOf (callsSince [] (PurchaseProduct productDownEnv [] "prod1" "user1" 100).2) = [] :=
  ⟨rfl, PurchaseProduct_lookup_failure productDownEnv [] "prod1" "user1" 100
    "product not found" rfl⟩

/-! ## Rounding to binary64 is symmetric and monotone -/

namespace F64

theorem roundHalfEven_mem (q : ℚ) : roundHalfEven q = ⌊q⌋ ∨ roundHalfEven q = ⌊q⌋ + 1 := by
  unfold roundHalfEven
  split_ifs <;> simp

theorem roundHalfEven_mono (x y : ℚ) (h : x ≤ y) : roundHalfEven x ≤ roundHalfEven y := by
  have hf : ⌊x⌋ ≤ ⌊y⌋ := Int.floor_le_floor h
  rcases lt_or_eq_of_le hf with hlt | heq
  · have h1 : roundHalfEven x ≤ ⌊x⌋ + 1 := by
      rcases roundHalfEven_mem x with e | e
      · rw [e]; omega
      · rw [e]
    have h2 : ⌊y⌋ ≤ roundHalfEven y := by
      rcases roundHalfEven_mem y with e | e
      · rw [e]
      · rw [e]; omega
    omega
  · have hxy : x - ⌊x⌋ ≤ y - ⌊y⌋ := by rw [heq]; linarith
    unfold roundHalfEven
    rw [← heq]
    rw [← heq] at hxy
    split_ifs with a b c d e f g i j k l <;> first | omega | (exfalso; linarith)

theorem roundHalfEven_neg (q : ℚ) : roundHalfEven (-q) = -roundHalfEven q := by
  by_cases hint : (⌊q⌋ : ℚ) = q
  · rw [← hint, ← Int.cast_neg, roundHalfEven_intCast, roundHalfEven_intCast]
  · have h1 := Int.floor_le q
    have h2 := Int.lt_floor_add_one q
    have hlt : (⌊q⌋ : ℚ) < q := lt_of_le_of_ne h1 hint
    have hfl : ⌊-q⌋ = -⌊q⌋ - 1 := by
      rw [Int.floor_eq_iff]
      push_cast
      constructor <;> linarith
    unfold roundHalfEven
    rw [hfl]
    push_cast
    split_ifs with a b c d e f g i j k l <;>
      first | omega | (exfalso; linarith)

theorem ulpExp_neg (q : ℚ) : ulpExp (-q) = ulpExp q := by
  unfold ulpExp
  rw [abs_neg]

/-- Rounding is symmetric: the rounding of `-q` is the negative of the rounding of `q`. -/
theorem round_neg (q : ℚ) : round (-q) = -round q := by
  unfold round
  rw [ulpExp_neg, neg_div, roundHalfEven_neg]
  push_cast
  ring

theorem round_nonneg (q : ℚ) (h : 0 ≤ q) : 0 ≤ round q := by
  unfold round
  apply mul_nonneg _ (two_zpow_pos _).le
  have h0 : (0 : ℚ) ≤ q / 2 ^ ulpExp q := div_nonneg h (two_zpow_pos _).le
  have := roundHalfEven_mono 0 _ h0
  have e0 : roundHalfEven (0 : ℚ) = 0 := by
    have := roundHalfEven_intCast 0
    simpa using this
  rw [e0] at this
  exact_mod_cast this

theorem round_mono_pos (x y : ℚ) (hx : 0 < x) (h : x ≤ y) : round x ≤ round y := by
  have hy : 0 < y := lt_of_lt_of_le hx h
  have hlog : Int.log 2 |x| ≤ Int.log 2 |y| := by
    rw [abs_of_pos hx, abs_of_pos hy]
    exact Int.log_mono_right hx h
  have hexy : ulpExp x ≤ ulpExp y := by
    unfold ulpExp
    exact max_le_max (by omega) le_rfl
  rcases lt_or_eq_of_le hexy with hlt | heq
  · -- a power of two lies between `x` and `y`
    have hey : ulpExp y = Int.log 2 |y| - 52 := by
      have h1 := ulpExp_ge x
      unfold ulpExp at hlt ⊢
      rcases max_cases (Int.log 2 |y| - 52) (-1074) with ⟨e, _⟩ | ⟨e, _⟩
      · exact e
      · rw [e] at hlt
        unfold ulpExp at h1
        omega
    have hxlt : x < (2 : ℚ) ^ Int.log 2 |y| := by
      by_contra hcon
      push_neg at hcon
      have := le_log_of_zpow_le x hx.ne' (Int.log 2 |y|) (by rwa [abs_of_pos hx])
      have h2 := log_le_ulpExp x
      omega
    have hyge : (2 : ℚ) ^ Int.log 2 |y| ≤ y := by
      exact le_trans (zpow_log_le y hy.ne') (le_of_eq (abs_of_pos hy))
    -- `round x ≤ 2 ^ L`
    have hd : 0 ≤ Int.log 2 |y| - ulpExp x := by
      have := log_le_ulpExp x
      omega
    obtain ⟨n, hn⟩ := Int.eq_ofNat_of_zero_le hd
    have hpow : (2 : ℚ) ^ Int.log 2 |y| = ((2 ^ n : ℤ) : ℚ) * 2 ^ ulpExp x := by
      have e : Int.log 2 |y| = (n : ℤ) + ulpExp x := by omega
      rw [e, zpow_add₀ (by norm_num), zpow_natCast]
      push_cast
      ring
    have hx1 : round x ≤ (2 : ℚ) ^ Int.log 2 |y| := by
      unfold round
      rw [hpow]
      apply mul_le_mul_of_nonneg_right _ (two_zpow_pos _).le
      have hdiv : x / 2 ^ ulpExp x ≤ ((2 ^ n : ℤ) : ℚ) := by
        rw [div_le_iff₀ (two_zpow_pos _), ← hpow]
        exact hxlt.le
      have := roundHalfEven_mono _ _ hdiv
      rw [roundHalfEven_intCast] at this
      exact_mod_cast this
    -- `2 ^ L ≤ round y`
    have hpow2 : (2 : ℚ) ^ Int.log 2 |y| = ((2 ^ 52 : ℤ) : ℚ) * 2 ^ ulpExp y := by
      have e : Int.log 2 |y| = (52 : ℤ) + ulpExp y := by omega
      nth_rewrite 1 [e]
      rw [zpow_add₀ (by norm_num)]
      norm_num
    have hy1 : (2 : ℚ) ^ Int.log 2 |y| ≤ round y := by
      unfold round
      rw [hpow2]
      apply mul_le_mul_of_nonneg_right _ (two_zpow_pos _).le
      have hdiv : ((2 ^ 52 : ℤ) : ℚ) ≤ y / 2 ^ ulpExp y := by
        rw [le_div_iff₀ (two_zpow_pos _), ← hpow2]
        exact hyge
      have := roundHalfEven_mono _ _ hdiv
      rw [roundHalfEven_intCast] at this
      exact_mod_cast this
    exact le_trans hx1 hy1
  · unfold round
    rw [heq]
    apply mul_le_mul_of_nonneg_right _ (two_zpow_pos _).le
    have hdiv : x / 2 ^ ulpExp y ≤ y / 2 ^ ulpExp y :=
      div_le_div_of_nonneg_right h (two_zpow_pos _).le
    exact_mod_cast roundHalfEven_mono _ _ hdiv

/-- Rounding is monotone. -/
theorem round_mono (x y : ℚ) (h : x ≤ y) : round x ≤ round y := by
  by_cases hx : 0 < x
  · exact round_mono_pos x y hx h
  · push_neg at hx
    by_cases hy : 0 ≤ y
    · have h1 : round x ≤ 0 := by
        have := round_nonneg (-x) (by linarith)
        rw [round_neg] at this
        linarith
      exact le_trans h1 (round_nonneg y hy)
    · push_neg at hy
      have := round_mono_pos (-y) (-x) (by linarith) (by linarith)
      rw [round_neg, round_neg] at this
      linarith

theorem round_le_of_le (x m : ℚ) (hm : IsF64 m) (h : x ≤ m) : round x ≤ m := by
  have := round_mono x m h
  rwa [round_of_isF64 m hm] at this

theorem le_round_of_le (x m : ℚ) (hm : IsF64 m) (h : m ≤ x) : m ≤ round x := by
  have := round_mono m x h
  rwa [round_of_isF64 m hm] at this

theorem round_abs (q : ℚ) : round |q| = |round q| := by
  by_cases h : 0 ≤ q
  · rw [abs_of_nonneg h, abs_of_nonneg (round_nonneg q h)]
  · push_neg at h
    have h1 : round q ≤ 0 := by
      have := round_nonneg (-q) (by linarith)
      rw [round_neg] at this
      linarith
    rw [abs_of_neg h, abs_of_nonpos h1, round_neg]

end F64


/-! ## Trust engine: profiles that were rated before -/

theorem wrapInt64_of_range (z : ℤ) (h1 : -2 ^ 63 ≤ z) (h2 : z < 2 ^ 63) : wrapInt64 z = z := by
  unfold wrapInt64
  rw [Int.emod_eq_of_lt (by linarith) (by linarith)]
  ring

theorem toInt_intCast (z : ℤ) : F64.toInt (z : ℚ) = z := by
  unfold F64.toInt
  split_ifs <;> simp

/-- For counts that `float64` holds exactly, the divisor of the windowed error,
`newRatedCount - int(math.Max(0, float64(newRatedCount - windowSize)))`, is
`min(newRatedCount, 5)`. -/
theorem window_divisor (k : ℤ) (h1 : 1 ≤ k) (h2 : k ≤ 2 ^ 53) :
    wrapInt64 (k - F64.toInt (max 0 (F64.ofInt (wrapInt64 (k - 5))))) = min k 5 := by
  have hw : wrapInt64 (k - 5) = k - 5 := wrapInt64_of_range _ (by linarith) (by linarith)
  have ho : F64.ofInt (k - 5) = ((k - 5 : ℤ) : ℚ) :=
    ofInt_eq_cast _ (by rw [abs_le]; constructor <;> linarith)
  have hm : max (0 : ℚ) ((k - 5 : ℤ) : ℚ) = ((max 0 (k - 5) : ℤ) : ℚ) := by
    rw [Int.cast_max, Int.cast_zero]
  rw [hw, ho, hm, toInt_intCast]
  have h5 : k - max 0 (k - 5) = min k 5 := by omega
  rw [h5]
  have h6 : min k 5 ≤ 5 := min_le_right _ _
  have h7 : 1 ≤ min k 5 := le_min h1 (by norm_num)
  exact wrapInt64_of_range _ (by linarith) (by linarith)

/-- What a rating persists on a profile that was rated before, for counts that `float64`
holds exactly. -/
theorem recompute_rated (u : User) (d p : ℚ) (h1 : 1 ≤ u.TrustRatedCount)
    (h2 : u.TrustRatedCount + 1 ≤ 2 ^ 53) :
    (recompute u d p).TrustTotalError = F64.add u.TrustTotalError |F64.sub p d| ∧
    (recompute u d p).TrustRatedCount = u.TrustRatedCount + 1 ∧
    (recompute u d p).TrustScore =
      F64.toInt (clampScore
        (F64.add
          (F64.mul
            (F64.sub 100
              (F64.mul
                (F64.div (F64.add u.TrustTotalError |F64.sub p d|)
                  (F64.ofInt (u.TrustRatedCount + 1))) 10))
            (F64.lit (3 / 10)))
          (F64.mul
            (F64.sub 100
              (F64.mul
                (F64.div (F64.sub (F64.add u.TrustTotalError |F64.sub p d|) u.TrustTotalError)
                  (F64.ofInt (min (u.TrustRatedCount + 1) 5))) 10))
            (F64.lit (7 / 10))))) := by
  have hne : u.TrustRatedCount ≠ 0 := by omega
  have hw : wrapInt64 (u.TrustRatedCount + 1) = u.TrustRatedCount + 1 :=
    wrapInt64_of_range _ (by linarith) (by linarith)
  have hgt : u.TrustRatedCount + 1 > 1 := by omega
  have hdiv := window_divisor (u.TrustRatedCount + 1) (by omega) h2
  simp only [recompute, hne, if_false, hw, hgt, if_true, hdiv, clampScore]
  exact ⟨trivial, trivial, trivial⟩

theorem recompute_congr (u : User) (d p d' p' : ℚ) (h : |F64.sub p d| = |F64.sub p' d'|) :
    recompute u d p = recompute u d' p' := by
  simp only [recompute, h]

theorem abs_sub_swap (d p : ℚ) : |F64.sub d p| = |F64.sub p d| := by
  unfold F64.sub
  rw [show d - p = -(p - d) by ring, F64.round_neg, abs_neg]

theorem abs_sub_mono (d p d' p' : ℚ) (h : |p - d| ≤ |p' - d'|) :
    |F64.sub p d| ≤ |F64.sub p' d'| := by
  unfold F64.sub
  rw [← F64.round_abs, ← F64.round_abs]
  exact F64.round_mono _ _ h

theorem clampScore_mono (x y : ℚ) (h : x ≤ y) : clampScore x ≤ clampScore y := by
  unfold clampScore
  split_ifs <;> linarith

theorem clampScore_nonneg (x : ℚ) : 0 ≤ clampScore x := (clamp_range x).1

theorem toInt_mono (x y : ℚ) (hx : 0 ≤ x) (h : x ≤ y) : F64.toInt x ≤ F64.toInt y := by
  unfold F64.toInt
  rw [if_pos hx, if_pos (le_trans hx h)]
  exact Int.floor_le_floor h

/-- The persisted score does not grow when the two per-item errors that enter the blend
grow. -/
theorem trustBlend_antitone (a a' b b' : ℚ) (ha : a ≤ a') (hb : b ≤ b') :
    F64.toInt (clampScore
      (F64.add (F64.mul (F64.sub 100 (F64.mul a' 10)) (F64.lit (3 / 10)))
        (F64.mul (F64.sub 100 (F64.mul b' 10)) (F64.lit (7 / 10))))) ≤
    F64.toInt (clampScore
      (F64.add (F64.mul (F64.sub 100 (F64.mul a 10)) (F64.lit (3 / 10)))
        (F64.mul (F64.sub 100 (F64.mul b 10)) (F64.lit (7 / 10))))) := by
  have w3 : 0 ≤ F64.lit (3 / 10) := F64.round_nonneg _ (by norm_num)
  have w7 : 0 ≤ F64.lit (7 / 10) := F64.round_nonneg _ (by norm_num)
  have hA : F64.mul a 10 ≤ F64.mul a' 10 := F64.round_mono _ _ (by linarith)
  have hB : F64.mul b 10 ≤ F64.mul b' 10 := F64.round_mono _ _ (by linarith)
  have hSa : F64.sub 100 (F64.mul a' 10) ≤ F64.sub 100 (F64.mul a 10) :=
    F64.round_mono _ _ (by linarith)
  have hSb : F64.sub 100 (F64.mul b' 10) ≤ F64.sub 100 (F64.mul b 10) :=
    F64.round_mono _ _ (by linarith)
  have hMa : F64.mul (F64.sub 100 (F64.mul a' 10)) (F64.lit (3 / 10)) ≤
      F64.mul (F64.sub 100 (F64.mul a 10)) (F64.lit (3 / 10)) :=
    F64.round_mono _ _ (mul_le_mul_of_nonneg_right hSa w3)
  have hMb : F64.mul (F64.sub 100 (F64.mul b' 10)) (F64.lit (7 / 10)) ≤
      F64.mul (F64.sub 100 (F64.mul b 10)) (F64.lit (7 / 10)) :=
    F64.round_mono _ _ (mul_le_mul_of_nonneg_right hSb w7)
  exact toInt_mono _ _ (clampScore_nonneg _)
    (clampScore_mono _ _ (F64.round_mono _ _ (add_le_add hMa hMb)))

/-! ## Trust engine: the update of a rated profile -/

theorem isF64_five : F64.IsF64 5 := by
  simpa using F64.isF64_intCast 5 (by norm_num)

theorem isF64_six : F64.IsF64 6 := by
  simpa using F64.isF64_intCast 6 (by norm_num)

theorem abs_sub_le_five (d p : ℚ) (hd0 : 0 ≤ d) (hd5 : d ≤ 5) (hp0 : 0 ≤ p) (hp5 : p ≤ 5) :
    |F64.sub p d| ≤ 5 := by
  unfold F64.sub
  rw [← F64.round_abs]
  exact F64.round_le_of_le _ 5 isF64_five (abs_le.mpr ⟨by linarith, by linarith⟩)

/-- Two per-item errors of at most 5 blend to a persisted score of at least 50. -/
theorem trustBlend_ge_fifty (a b : ℚ) (ha : a ≤ 5) (hb : b ≤ 5) :
    50 ≤ F64.toInt (clampScore
      (F64.add (F64.mul (F64.sub 100 (F64.mul a 10)) (F64.lit (3 / 10)))
        (F64.mul (F64.sub 100 (F64.mul b 10)) (F64.lit (7 / 10))))) := by
  have h := trustBlend_antitone a 5 b 5 ha hb
  have e1 : F64.mul 5 10 =
      50 := by
    unfold F64.mul
    rw [F64.round_eq_of_pos _ (5) 7036874417766400 (by norm_num) (by norm_num) (by norm_num)
      (by norm_num) (by norm_num)]
    norm_num
  have e2 : F64.sub 100 50 =
      50 := by
    unfold F64.sub
    rw [F64.round_eq_of_pos _ (5) 7036874417766400 (by norm_num) (by norm_num) (by norm_num)
      (by norm_num) (by norm_num)]
    norm_num
  have e3 : F64.lit (3 / 10) =
      5404319552844595 / 18014398509481984 := by
    unfold F64.lit
    rw [F64.round_eq_of_pos _ (-2) 5404319552844595 (by norm_num) (by norm_num) (by norm_num)
      (by norm_num) (by norm_num)]
    norm_num
  have e4 : F64.lit (7 / 10) =
      3152519739159347 / 4503599627370496 := by
    unfold F64.lit
    rw [F64.round_eq_of_pos _ (-1) 6305039478318694 (by norm_num) (by norm_num) (by norm_num)
      (by norm_num) (by norm_num)]
    norm_num
  have e5 : F64.mul 50 (5404319552844595 / 18014398509481984) =
      15 := by
    unfold F64.mul
    rw [F64.round_eq_of_pos _ (3) 8444249301319680 (by norm_num) (by norm_num) (by norm_num)
      (by norm_num) (by norm_num)]
    norm_num
  have e6 : F64.mul 50 (3152519739159347 / 4503599627370496) =
      35 := by
    unfold F64.mul
    rw [F64.round_eq_of_pos _ (5) 4925812092436480 (by norm_num) (by norm_num) (by norm_num)
      (by norm_num) (by norm_num)]
    norm_num
  have e7 : F64.add 15 35 =
      50 := by
    unfold F64.add
    rw [F64.round_eq_of_pos _ (5) 7036874417766400 (by norm_num) (by norm_num) (by norm_num)
      (by norm_num) (by norm_num)]
    norm_num
  have h50 : F64.toInt (clampScore
      (F64.add (F64.mul (F64.sub 100 (F64.mul 5 10)) (F64.lit (3 / 10)))
        (F64.mul (F64.sub 100 (F64.mul 5 10)) (F64.lit (7 / 10))))) = 50 := by
    norm_num [clampScore, F64.toInt, e1, e2, e3, e4, e5, e6, e7]
  rw [h50] at h
  exact h

/-- One update with both ratings on the 0-5 scale keeps the invariant of the profile. -/
theorem recompute_on_scale (u : User) (d p : ℚ) (hd0 : 0 ≤ d) (hd5 : d ≤ 5) (hp0 : 0 ≤ p)
    (hp5 : p ≤ 5) (hn0 : 0 ≤ u.TrustRatedCount) (hn : u.TrustRatedCount + 1 ≤ 2 ^ 50)
    (hE : u.TrustRatedCount ≠ 0 →
      0 ≤ u.TrustTotalError ∧ u.TrustTotalError ≤ 5 * (u.TrustRatedCount : ℚ)) :
    (recompute u d p).TrustRatedCount = u.TrustRatedCount + 1 ∧
    0 ≤ (recompute u d p).TrustTotalError ∧
    (recompute u d p).TrustTotalError ≤ 5 * ((recompute u d p).TrustRatedCount : ℚ) ∧
    50 ≤ (recompute u d p).TrustScore ∧
    (recompute u d p).IsBlacklisted = false := by
  have hdiff := abs_sub_le_five d p hd0 hd5 hp0 hp5
  have hdiff0 := abs_nonneg (F64.sub p d)
  have hbl : 50 ≤ (recompute u d p).TrustScore → (recompute u d p).IsBlacklisted = false := by
    intro hs
    cases hb : (recompute u d p).IsBlacklisted
    · rfl
    · have := (recompute_score u d p).2.2.1 hb
      omega
  by_cases h0 : u.TrustRatedCount = 0
  · obtain ⟨a, b, c⟩ := recompute_first_rating u d p h0
    have hs : 50 ≤ (recompute u d p).TrustScore := by
      rw [c]
      exact trustBlend_ge_fifty _ _ hdiff hdiff
    refine ⟨by rw [b, h0]; norm_num, by rw [a]; exact hdiff0, ?_, hs, hbl hs⟩
    rw [a, b]
    push_cast
    linarith
  · have h1 : 1 ≤ u.TrustRatedCount := by omega
    obtain ⟨hE0, hE5⟩ := hE h0
    obtain ⟨a, b, c⟩ := recompute_rated u d p h1 (by linarith)
    have hnq : (1 : ℚ) ≤ (u.TrustRatedCount : ℚ) := by exact_mod_cast h1
    have hnq2 : (u.TrustRatedCount : ℚ) + 1 ≤ 2 ^ 50 := by exact_mod_cast hn
    have hnew0 : 0 ≤ F64.add u.TrustTotalError |F64.sub p d| :=
      F64.round_nonneg _ (by linarith)
    have hnew5 : F64.add u.TrustTotalError |F64.sub p d| ≤ 5 * ((u.TrustRatedCount : ℚ) + 1) := by
      have hI : F64.IsF64 ((5 * (u.TrustRatedCount + 1) : ℤ) : ℚ) :=
        F64.isF64_intCast _ (by rw [abs_le]; constructor <;> linarith)
      have := F64.round_le_of_le (u.TrustTotalError + |F64.sub p d|) _ hI
        (by push_cast; linarith)
      push_cast at this
      exact this
    have hk : F64.ofInt (u.TrustRatedCount + 1) = ((u.TrustRatedCount + 1 : ℤ) : ℚ) :=
      ofInt_eq_cast _ (by rw [abs_le]; constructor <;> linarith)
    have hA : F64.div (F64.add u.TrustTotalError |F64.sub p d|)
        (F64.ofInt (u.TrustRatedCount + 1)) ≤ 5 := by
      rw [hk]
      unfold F64.div
      apply F64.round_le_of_le _ 5 isF64_five
      rw [div_le_iff₀ (by push_cast; linarith)]
      push_cast
      linarith
    have hc0 : 0 ≤ ⌈u.TrustTotalError⌉ := Int.ceil_nonneg (a := u.TrustTotalError) hE0
    have hc5 : ⌈u.TrustTotalError⌉ ≤ 5 * u.TrustRatedCount := by
      rw [Int.ceil_le]
      push_cast
      exact hE5
    have hceil : F64.add u.TrustTotalError |F64.sub p d| ≤ (⌈u.TrustTotalError⌉ : ℚ) + 5 := by
      have hI : F64.IsF64 ((⌈u.TrustTotalError⌉ + 5 : ℤ) : ℚ) :=
        F64.isF64_intCast _ (by rw [abs_le]; constructor <;> linarith)
      have := F64.round_le_of_le (u.TrustTotalError + |F64.sub p d|) _ hI
        (by push_cast; linarith [Int.le_ceil u.TrustTotalError])
      push_cast at this
      exact this
    have hsub : F64.sub (F64.add u.TrustTotalError |F64.sub p d|) u.TrustTotalError ≤ 6 := by
      show F64.round (F64.add u.TrustTotalError |F64.sub p d| - u.TrustTotalError) ≤ 6
      apply F64.round_le_of_le _ 6 isF64_six
      have := Int.ceil_lt_add_one u.TrustTotalError
      linarith
    have hm1 : 2 ≤ min (u.TrustRatedCount + 1) 5 := le_min (by linarith) (by norm_num)
    have hm5 : min (u.TrustRatedCount + 1) 5 ≤ 5 := min_le_right _ _
    have hD : F64.ofInt (min (u.TrustRatedCount + 1) 5) =
        ((min (u.TrustRatedCount + 1) 5 : ℤ) : ℚ) :=
      ofInt_eq_cast _ (by rw [abs_le]; constructor <;> linarith)
    have hD2 : (2 : ℚ) ≤ ((min (u.TrustRatedCount + 1) 5 : ℤ) : ℚ) := by exact_mod_cast hm1
    have hB : F64.div (F64.sub (F64.add u.TrustTotalError |F64.sub p d|) u.TrustTotalError)
        (F64.ofInt (min (u.TrustRatedCount + 1) 5)) ≤ 5 := by
      rw [hD]
      unfold F64.div
      apply F64.round_le_of_le _ 5 isF64_five
      rw [div_le_iff₀ (by linarith)]
      linarith
    have hs : 50 ≤ (recompute u d p).TrustScore := by
      rw [c]
      exact trustBlend_ge_fifty _ _ hA hB
    refine ⟨b, by rw [a]; exact hnew0, ?_, hs, hbl hs⟩
    rw [a, b]
    push_cast
    exact hnew5

theorem applyRatings_cons (u : User) (r : ℚ × ℚ) (rs : List (ℚ × ℚ)) :
    applyRatings u (r :: rs) = applyRatings (recompute u r.1 r.2) rs := rfl

theorem applyRatings_on_scale : ∀ (ratings : List (ℚ × ℚ)) (u : User),
    0 ≤ u.TrustRatedCount →
    u.TrustRatedCount + (ratings.length : ℤ) ≤ 2 ^ 50 →
    (u.TrustRatedCount ≠ 0 →
      0 ≤ u.TrustTotalError ∧ u.TrustTotalError ≤ 5 * (u.TrustRatedCount : ℚ)) →
    (∀ r ∈ ratings, 0 ≤ r.1 ∧ r.1 ≤ 5 ∧ 0 ≤ r.2 ∧ r.2 ≤ 5) →
    ∀ k : ℕ, 1 ≤ k → k ≤ ratings.length →
      (applyRatings u (ratings.take k)).TrustRatedCount = u.TrustRatedCount + (k : ℤ) ∧
      (applyRatings u (ratings.take k)).TrustTotalError ≤
        5 * ((applyRatings u (ratings.take k)).TrustRatedCount : ℚ) ∧
      50 ≤ (applyRatings u (ratings.take k)).TrustScore ∧
      (applyRatings u (ratings.take k)).IsBlacklisted = false := by
  intro ratings
  induction ratings with
  | nil =>
    intro u _ _ _ _ k hk1 hk
    simp at hk
    omega
  | cons r rest ih =>
    intro u hn0 hlen hE hr k hk1 hk
    obtain ⟨k, rfl⟩ : ∃ j, k = j + 1 := ⟨k - 1, by omega⟩
    have hlen2 : u.TrustRatedCount + ((rest.length : ℤ) + 1) ≤ 2 ^ 50 := by
      simpa using hlen
    obtain ⟨r1, r2, r3, r4⟩ := hr r (List.mem_cons_self _ _)
    obtain ⟨s1, s2, s3, s4, s5⟩ := recompute_on_scale u r.1 r.2 r1 r2 r3 r4 hn0
      (by linarith [Int.natCast_nonneg rest.length]) hE
    rw [List.take_succ_cons, applyRatings_cons]
    by_cases hk0 : k = 0
    · subst hk0
      simp only [List.take_zero, applyRatings, List.foldl_nil]
      exact ⟨by rw [s1]; norm_num, s3, s4, s5⟩
    · have hk2 : k ≤ rest.length := by simpa using hk
      obtain ⟨t1, t2, t3, t4⟩ := ih (recompute u r.1 r.2) (by rw [s1]; linarith)
        (by rw [s1]; linarith) (fun _ => ⟨s2, s3⟩)
        (fun x hx => hr x (List.mem_cons_of_mem _ hx)) k (by omega) hk2
      refine ⟨?_, t2, t3, t4⟩
      rw [t1, s1]
      push_cast
      ring

/-! ## Trust engine: the two updates are one computation -/

/-- C28. For every answer of the user repository, every history and every declared and
observed rating, `UpdateSupplierTrustScoreOnNewRating` and
`UpdateResellerTrustScoreOnNewRating` for the same account give the same result: they return
the same error and make the same calls, so the record they hand to `UpdateTrustData` has
the same `TrustScore`, `TrustTotalError`, `TrustRatedCount` and `IsBlacklisted`; and the
two bodies compute the same record from every stored record. -/
theorem supplier_and_reseller_update_agree (env : Env) (h : List Event) (id : String)
    (declaredRating productRating : ℚ) (user : User) :
    UpdateSupplierTrustScoreOnNewRating env h id declaredRating productRating =
      UpdateResellerTrustScoreOnNewRating env h id declaredRating productRating ∧
    (recomputeReseller user declaredRating productRating).TrustScore =
      (recompute user declaredRating productRating).TrustScore ∧
    (recomputeReseller user declaredRating productRating).TrustTotalError =
      (recompute user declaredRating productRating).TrustTotalError ∧
    (recomputeReseller user declaredRating productRating).TrustRatedCount =
      (recompute user declaredRating productRating).TrustRatedCount ∧
    (recomputeReseller user declaredRating productRating).IsBlacklisted =
      (recompute user declaredRating productRating).IsBlacklisted := by
  refine ⟨?_, ?_, ?_, ?_, ?_⟩
  · simp only [UpdateSupplierTrustScoreOnNewRating, UpdateResellerTrustScoreOnNewRating,
      recomputeReseller_eq_recompute]
  all_goals rw [recomputeReseller_eq_recompute]

/-! ## Order history of a consumer: pagination -/

/-- With `page ≥ 1` and `limit ≥ 0`, both small enough for the product not to overflow, the
bounds of `GetOrderHistory` are in range. -/
theorem paginationBounds_in_range (n page limit : ℤ) (hn : 0 ≤ n) (hp1 : 1 ≤ page)
    (hp2 : page ≤ 2 ^ 31) (hl1 : 0 ≤ limit) (hl2 : limit ≤ 2 ^ 31) :
    0 ≤ (paginationBounds n page limit).1 ∧
    (paginationBounds n page limit).1 ≤ (paginationBounds n page limit).2 ∧
    (paginationBounds n page limit).2 ≤ n := by
  have h1 : wrapInt64 (page - 1) = page - 1 :=
    wrapInt64_of_range _ (by linarith) (by linarith)
  have hprod : 0 ≤ (page - 1) * limit := mul_nonneg (by linarith) hl1
  have hprod2 : (page - 1) * limit ≤ 2 ^ 31 * 2 ^ 31 :=
    mul_le_mul (by linarith) hl2 hl1 (by norm_num)
  have h2 : wrapInt64 ((page - 1) * limit) = (page - 1) * limit :=
    wrapInt64_of_range _ (by linarith) (by linarith)
  have h3 : wrapInt64 ((page - 1) * limit + limit) = (page - 1) * limit + limit :=
    wrapInt64_of_range _ (by linarith) (by linarith)
  simp only [paginationBounds, h1, h2, h3]
  split_ifs <;> refine ⟨?_, ?_, ?_⟩ <;> linarith

/-- C30. For three orders, the query `page=0&limit=10` gives `start = -10` and `end = 0`,
and the query `page=1&limit=-5` gives `start = 0` and `end = -5`: the bounds are capped from
above only, and the slice expression `orders[start:end]` panics in both cases, while
`page=2&limit=2` gives the bounds 2 and 3 and returns the third order. -/
theorem pagination_bounds_out_of_range :
    sampleOrders.length = 3 ∧
    paginationBounds 3 0 10 = (-10, 0) ∧
    paginatedOrders sampleOrders 0 10 = .panicked ∧
    paginationBounds 3 1 (-5) = (0, -5) ∧
    paginatedOrders sampleOrders 1 (-5) = .panicked ∧
    paginationBounds 3 2 2 = (2, 3) ∧
    paginatedOrders sampleOrders 2 2 = .returned (sampleOrders.drop 2) := by
  refine ⟨rfl, ?_, ?_, ?_, ?_, ?_, ?_⟩
  · simp [paginationBounds, wrapInt64]
  · simp [paginatedOrders, paginationBounds, wrapInt64, sampleOrders]
  · simp [paginationBounds, wrapInt64]
  · simp [paginatedOrders, paginationBounds, wrapInt64, sampleOrders]
  · simp [paginationBounds, wrapInt64]
  · simp [paginatedOrders, paginationBounds, wrapInt64, sampleOrders]

/-! ## The special values of `float64` -/

namespace F64.Val

theorem ofRat_of_round (q r : ℚ) (h : F64.round q = r) (hr : |r| < 2 ^ 1024) :
    ofRat q = .fin r := by
  unfold ofRat
  rw [h, if_neg (not_le.mpr hr)]

theorem ofRat_zero : ofRat 0 = .fin 0 :=
  ofRat_of_round 0 0 F64.round_zero (by norm_num)

theorem add_fin (a b : ℚ) : add (.fin a) (.fin b) = ofRat (a + b) := rfl

theorem sub_fin (a b : ℚ) : sub (.fin a) (.fin b) = ofRat (a - b) := rfl

theorem mul_fin (a b : ℚ) : mul (.fin a) (.fin b) = ofRat (a * b) := rfl

theorem div_fin (a b : ℚ) (hb : b ≠ 0) : div (.fin a) (.fin b) = ofRat (a / b) := by
  simp [div, hb]

theorem div_zero_zero : div (.fin 0) (.fin 0) = .nan := by
  simp [div]

theorem abs_fin (a : ℚ) : abs (.fin a) = .fin |a| := rfl

theorem max_fin (a b : ℚ) : max (.fin a) (.fin b) = .fin (Max.max a b) := rfl

theorem lt_fin (a b : ℚ) : lt (.fin a) (.fin b) = decide (a < b) := rfl

theorem lt_nan_left (x : Val) : lt .nan x = false := by
  cases x <;> rfl

theorem lt_nan_right (x : Val) : lt x .nan = false := by
  cases x <;> rfl

theorem toInt_nan : toInt .nan = -2 ^ 63 := rfl

theorem toInt_fin_intCast (z : ℤ) (h1 : -2 ^ 63 ≤ z) (h2 : z < 2 ^ 63) :
    toInt (.fin (z : ℚ)) = z := by
  have h : F64.toInt (z : ℚ) = z := toInt_intCast z
  simp only [toInt, h]
  rw [if_pos ⟨h1, h2⟩]

theorem add_nan_right (x : Val) : add x .nan = .nan := by
  cases x <;> rfl

theorem sub_nan_right (x : Val) : sub x .nan = .nan := by
  cases x <;> rfl

theorem mul_nan_left (x : Val) : mul .nan x = .nan := by
  cases x <;> rfl

end F64.Val

/-! ## Trust engine: a window divisor of zero -/

/-- With the stored count `2 ^ 56 + 15` the new count is `2 ^ 56 + 16`,
`float64(newRatedCount - 5)` rounds up to `2 ^ 56 + 16` and the window divisor is 0.  For a
stored error of 0 and a perfect rating the windowed error is `0 / 0`, NaN: both comparisons
of the clamp are false, `newTrust < 40` is false, and `int(newTrust)` is the integer that an
out-of-range conversion gives. -/
theorem recomputeVal_zero_divisor (u : TrustData)
    (hc : u.TrustRatedCount = 72057594037927951) (hE : u.TrustTotalError = .fin 0) :
    recomputeVal u (.fin 0) (.fin 0) =
      { u with
        IsBlacklisted := false
        TrustScore := -9223372036854775808
        TrustRatedCount := 72057594037927952
        TrustTotalError := .fin 0 } := by
  have e1 : F64.Val.ofInt 72057594037927947 = .fin 72057594037927952 := by
    unfold F64.Val.ofInt
    apply F64.Val.ofRat_of_round _ _ _ (by norm_num)
    rw [F64.round_eq_of_pos _ 56 4503599627370497 (by norm_num) (by norm_num) (by norm_num)
      (by norm_num) (by norm_num)]
    norm_num
  have e2 : F64.Val.ofInt 0 = .fin 0 := by
    unfold F64.Val.ofInt
    simpa using F64.Val.ofRat_zero
  have hne : ¬ ((72057594037927951 : ℤ) = 0) := by norm_num
  have hw1 : wrapInt64 (72057594037927951 + 1) = 72057594037927952 := by
    norm_num [wrapInt64]
  have hw2 : wrapInt64 (72057594037927952 - 5) = 72057594037927947 := by
    norm_num [wrapInt64]
  have hgt : (72057594037927952 : ℤ) > 1 := by norm_num
  have hmax : Max.max (0 : ℚ) 72057594037927952 = 72057594037927952 := by norm_num
  have hti : F64.Val.toInt (.fin 72057594037927952) = 72057594037927952 := by
    have := F64.Val.toInt_fin_intCast 72057594037927952 (by norm_num) (by norm_num)
    simpa using this
  have hw3 : wrapInt64 0 = 0 := by
    norm_num [wrapInt64]
  simp only [recomputeVal, hc, hE, hne, if_false, F64.Val.sub_fin, F64.Val.abs_fin,
    F64.Val.add_fin, sub_zero, abs_zero, add_zero, sub_self, F64.Val.ofRat_zero, hw1, hw2,
    hgt, if_true, e1, F64.Val.max_fin, hmax, hti, hw3, e2, F64.Val.div_zero_zero,
    F64.Val.mul_nan_left, F64.Val.sub_nan_right, F64.Val.add_nan_right,
    F64.Val.lt_nan_left, F64.Val.lt_nan_right, F64.Val.toInt_nan, Bool.false_eq_true]
  norm_num

/-! ## Trust engine: a long run of perfect ratings -/

theorem applyRatingsVal_cons (u : TrustData) (r : F64.Val × F64.Val)
    (rs : List (F64.Val × F64.Val)) :
    applyRatingsVal u (r :: rs) = applyRatingsVal (recomputeVal u r.1 r.2) rs := rfl

theorem applyRatingsVal_append (u : TrustData) (rs ts : List (F64.Val × F64.Val)) :
    applyRatingsVal u (rs ++ ts) = applyRatingsVal (applyRatingsVal u rs) ts := by
  simp only [applyRatingsVal, List.foldl_append]

/-- A perfect rating on a profile with total error 0 leaves the total error 0 and adds one
to the count. -/
theorem recomputeVal_perfect (u : TrustData) (hE : u.TrustTotalError = .fin 0) :
    (recomputeVal u (.fin 0) (.fin 0)).TrustTotalError = .fin 0 ∧
    (recomputeVal u (.fin 0) (.fin 0)).TrustRatedCount = wrapInt64 (u.TrustRatedCount + 1) := by
  by_cases h0 : u.TrustRatedCount = 0
  · simp only [recomputeVal, h0, if_true, F64.Val.sub_fin, F64.Val.abs_fin, F64.Val.add_fin,
      sub_zero, abs_zero, add_zero, F64.Val.ofRat_zero, and_self]
  · simp only [recomputeVal, h0, if_false, hE, F64.Val.sub_fin, F64.Val.abs_fin,
      F64.Val.add_fin, sub_zero, abs_zero, add_zero, F64.Val.ofRat_zero, and_self]

theorem applyRatingsVal_perfect : ∀ (n : ℕ) (u : TrustData),
    u.TrustTotalError = .fin 0 → 0 ≤ u.TrustRatedCount →
    u.TrustRatedCount + (n : ℤ) < 2 ^ 63 →
    (applyRatingsVal u (List.replicate n (.fin 0, .fin 0))).TrustTotalError = .fin 0 ∧
    (applyRatingsVal u (List.replicate n (.fin 0, .fin 0))).TrustRatedCount =
      u.TrustRatedCount + (n : ℤ) := by
  intro n
  induction n with
  | zero =>
    intro u hE _ _
    exact ⟨hE, by simp [applyRatingsVal]⟩
  | succ n ih =>
    intro u hE h0 hn
    obtain ⟨a, b⟩ := recomputeVal_perfect u hE
    have hn2 : u.TrustRatedCount + ((n : ℤ) + 1) < 2 ^ 63 := by
      simpa using hn
    have hw : wrapInt64 (u.TrustRatedCount + 1) = u.TrustRatedCount + 1 :=
      wrapInt64_of_range _ (by linarith) (by linarith [Int.natCast_nonneg n])
    rw [List.replicate_succ, applyRatingsVal_cons]
    obtain ⟨c, e⟩ := ih (recomputeVal u (.fin 0) (.fin 0)) a (by rw [b, hw]; linarith)
      (by rw [b, hw]; linarith)
    refine ⟨c, ?_⟩
    rw [e, b, hw]
    push_cast
    ring

/-- C27, counterexample. An unrated account receives `2 ^ 56 + 16` ratings, each with
declared 0.0 and observed 0.0 (on the 0-5 scale).  The total error stays 0 and the count
grows by one per event; at the last event the count becomes `2 ^ 56 + 16`, the window
divisor is 0, the windowed error `0 / 0` is NaN, and the persisted `TrustScore` is
`-9223372036854775808`, not at least 50. -/
theorem perfect_ratings_reach_zero_divisor :
    newUser.TrustRatedCount = 0 ∧
    (∀ r ∈ List.replicate 72057594037927951 ((0 : ℚ), (0 : ℚ)) ++ [(0, 0)],
      0 ≤ r.1 ∧ r.1 ≤ 5 ∧ 0 ≤ r.2 ∧ r.2 ≤ 5) ∧
    (applyRatingsVal newUser.trustData
      ((List.replicate 72057594037927951 ((0 : ℚ), (0 : ℚ))).map
        (fun r : ℚ × ℚ => (F64.Val.fin r.1, F64.Val.fin r.2)))).TrustRatedCount =
      72057594037927951 ∧
    (applyRatingsVal newUser.trustData
      ((List.replicate 72057594037927951 ((0 : ℚ), (0 : ℚ))).map
        (fun r : ℚ × ℚ => (F64.Val.fin r.1, F64.Val.fin r.2)))).TrustTotalError = .fin 0 ∧
    (applyRatingsVal newUser.trustData
      ((List.replicate 72057594037927951 ((0 : ℚ), (0 : ℚ)) ++ [(0, 0)]).map
        (fun r : ℚ × ℚ => (F64.Val.fin r.1, F64.Val.fin r.2)))).TrustScore = -9223372036854775808 ∧
    ¬ 50 ≤ (applyRatingsVal newUser.trustData
      ((List.replicate 72057594037927951 ((0 : ℚ), (0 : ℚ)) ++ [(0, 0)]).map
        (fun r : ℚ × ℚ => (F64.Val.fin r.1, F64.Val.fin r.2)))).TrustScore := by
  obtain ⟨hE, hc⟩ := applyRatingsVal_perfect 72057594037927951 newUser.trustData rfl
    (by decide) (by norm_num [newUser, User.trustData])
  have hc2 : (applyRatingsVal newUser.trustData
      (List.replicate 72057594037927951 (.fin 0, .fin 0))).TrustRatedCount =
        72057594037927951 := by
    rw [hc]
    norm_num [newUser, User.trustData]
  have hs : (applyRatingsVal newUser.trustData
      (List.replicate 72057594037927951 (.fin 0, .fin 0) ++ [(.fin 0, .fin 0)])).TrustScore =
        -9223372036854775808 := by
    rw [applyRatingsVal_append, applyRatingsVal_cons]
    show (recomputeVal _ (.fin 0) (.fin 0)).TrustScore = _
    rw [recomputeVal_zero_divisor _ hc2 hE]
  have hscale : ∀ r ∈ List.replicate 72057594037927951 ((0 : ℚ), (0 : ℚ)) ++ [(0, 0)],
      0 ≤ r.1 ∧ r.1 ≤ 5 ∧ 0 ≤ r.2 ∧ r.2 ≤ 5 := by
    intro r hmem
    have hr : r = (0, 0) := by
      rcases List.mem_append.mp hmem with hm | hm
      · exact (List.mem_replicate.mp hm).2
      · exact List.mem_singleton.mp hm
    subst hr
    norm_num
  rw [List.map_append, List.map_replicate, List.map_singleton]
  refine ⟨rfl, hscale, hc2, hE, hs, ?_⟩
  rw [hs]
  norm_num

/-- C1, counterexample. The stored profile with `TrustRatedCount = 2 ^ 56 + 15` and
`TrustTotalError = 0` receives a rating with declared 0.0 and observed 0.0: the window
divisor `newRatedCount - int(math.Max(0, float64(newRatedCount - 5)))` is 0, the windowed
error is NaN, and the record handed to `UpdateTrustData` has
`TrustScore = -9223372036854775808` and `IsBlacklisted = false`. -/
theorem zero_window_divisor_breaks_score_range :
    0 ≤ zeroDivisorUser.TrustRatedCount ∧ 0 ≤ zeroDivisorUser.TrustTotalError ∧
    wrapInt64 (zeroDivisorUser.TrustRatedCount + 1) = 72057594037927952 ∧
    wrapInt64 (72057594037927952 -
      (F64.Val.max (.fin 0) (F64.Val.ofInt (wrapInt64 (72057594037927952 - 5)))).toInt) = 0 ∧
    (recomputeVal zeroDivisorUser.trustData (.fin 0) (.fin 0)).TrustScore =
      -9223372036854775808 ∧
    (recomputeVal zeroDivisorUser.trustData (.fin 0) (.fin 0)).IsBlacklisted = false ∧
    ¬ 0 ≤ (recomputeVal zeroDivisorUser.trustData (.fin 0) (.fin 0)).TrustScore ∧
    ¬ ((recomputeVal zeroDivisorUser.trustData (.fin 0) (.fin 0)).IsBlacklisted = true ↔
      (recomputeVal zeroDivisorUser.trustData (.fin 0) (.fin 0)).TrustScore < 40) := by
  have hrun := recomputeVal_zero_divisor zeroDivisorUser.trustData rfl rfl
  have e1 : F64.Val.ofInt 72057594037927947 = .fin 72057594037927952 := by
    unfold F64.Val.ofInt
    apply F64.Val.ofRat_of_round _ _ _ (by norm_num)
    rw [F64.round_eq_of_pos _ 56 4503599627370497 (by norm_num) (by norm_num) (by norm_num)
      (by norm_num) (by norm_num)]
    norm_num
  have hw2 : wrapInt64 (72057594037927952 - 5) = 72057594037927947 := by
    norm_num [wrapInt64]
  have hmax : Max.max (0 : ℚ) 72057594037927952 = 72057594037927952 := by norm_num
  have hti : F64.Val.toInt (.fin 72057594037927952) = 72057594037927952 := by
    have := F64.Val.toInt_fin_intCast 72057594037927952 (by norm_num) (by norm_num)
    simpa using this
  refine ⟨by decide, le_refl _, by norm_num [zeroDivisorUser, wrapInt64], ?_, ?_, ?_, ?_, ?_⟩
  · rw [hw2, e1, F64.Val.max_fin, hmax, hti]
    norm_num [wrapInt64]
  · rw [hrun]
  · rw [hrun]
  · rw [hrun]
    norm_num
  · rw [hrun]
    norm_num

/-! ## The finite arithmetic agrees with `float64` where nothing overflows -/

namespace F64

theorem isF64_two_pow (n : ℕ) : IsF64 ((2 : ℚ) ^ n) :=
  ⟨1, n, by simp, by norm_num, by linarith [Int.natCast_nonneg n]⟩

theorem abs_round_le (q : ℚ) (n : ℕ) (h : |q| ≤ 2 ^ n) : |round q| ≤ 2 ^ n := by
  rw [abs_le] at h ⊢
  exact ⟨le_round_of_le _ _ (isF64_neg _ (isF64_two_pow n)) h.1,
    round_le_of_le _ _ (isF64_two_pow n) h.2⟩

theorem Val.ofRat_fin (q : ℚ) (n : ℕ) (hn : n ≤ 1023) (h : |q| ≤ 2 ^ n) :
    Val.ofRat q = .fin (round q) := by
  apply Val.ofRat_of_round _ _ rfl
  have h1 := abs_round_le q n h
  have h2 : (2 : ℚ) ^ n ≤ 2 ^ 1023 := pow_le_pow_right₀ (by norm_num) hn
  have h3 : (2 : ℚ) ^ 1023 < 2 ^ 1024 := by norm_num
  linarith

end F64

/-- The blended score of the trust update, computed with the special values of `float64`
from two finite per-item errors of magnitude at most `2 ^ 1003`: nothing overflows and the
result is the one of the finite arithmetic. -/
theorem blendVal_eq (a b : ℚ) (ha : |a| ≤ 2 ^ 1003) (hb : |b| ≤ 2 ^ 1003) :
    ∃ x : ℚ,
      x = F64.add (F64.mul (F64.sub 100 (F64.mul a 10)) (F64.lit (3 / 10)))
        (F64.mul (F64.sub 100 (F64.mul b 10)) (F64.lit (7 / 10))) ∧
      F64.Val.add
        (F64.Val.mul (F64.Val.sub (.fin 100) (F64.Val.mul (.fin a) (.fin 10)))
          (F64.Val.ofRat (3 / 10)))
        (F64.Val.mul (F64.Val.sub (.fin 100) (F64.Val.mul (.fin b) (.fin 10)))
          (F64.Val.ofRat (7 / 10))) = .fin x := by
  have hw3 : F64.Val.ofRat (3 / 10) = .fin (F64.lit (3 / 10)) :=
    F64.Val.ofRat_fin _ 0 (by norm_num) (by rw [abs_of_pos] <;> norm_num)
  have hw7 : F64.Val.ofRat (7 / 10) = .fin (F64.lit (7 / 10)) :=
    F64.Val.ofRat_fin _ 0 (by norm_num) (by rw [abs_of_pos] <;> norm_num)
  have w3b : |F64.lit (3 / 10)| ≤ 1 := by
    have := F64.abs_round_le (3 / 10) 0 (by rw [abs_of_pos] <;> norm_num)
    simpa [F64.lit] using this
  have w7b : |F64.lit (7 / 10)| ≤ 1 := by
    have := F64.abs_round_le (7 / 10) 0 (by rw [abs_of_pos] <;> norm_num)
    simpa [F64.lit] using this
  have side : ∀ c : ℚ, |c| ≤ 2 ^ 1003 →
      ∃ y : ℚ, y = F64.sub 100 (F64.mul c 10) ∧ |y| ≤ 2 ^ 1008 ∧
        F64.Val.sub (.fin 100) (F64.Val.mul (.fin c) (.fin 10)) = .fin y := by
    intro c hc
    have b1 : |c * 10| ≤ 2 ^ 1007 := by
      rw [abs_mul]
      have : |(10 : ℚ)| ≤ 2 ^ 4 := by rw [abs_of_pos] <;> norm_num
      calc |c| * |(10 : ℚ)| ≤ 2 ^ 1003 * 2 ^ 4 :=
            mul_le_mul hc this (abs_nonneg _) (by positivity)
        _ = 2 ^ 1007 := by rw [← pow_add]
    have e1 : F64.Val.mul (.fin c) (.fin 10) = .fin (F64.mul c 10) :=
      F64.Val.ofRat_fin _ 1007 (by norm_num) b1
    have b2 : |F64.mul c 10| ≤ 2 ^ 1007 := F64.abs_round_le _ 1007 b1
    have b3 : |100 - F64.mul c 10| ≤ 2 ^ 1008 := by
      have h100 : |(100 : ℚ)| ≤ 2 ^ 1007 := by
        rw [abs_of_pos (by norm_num)]
        calc (100 : ℚ) ≤ 2 ^ 7 := by norm_num
          _ ≤ 2 ^ 1007 := pow_le_pow_right₀ (by norm_num) (by norm_num)
      calc |100 - F64.mul c 10| ≤ |(100 : ℚ)| + |F64.mul c 10| := abs_sub _ _
        _ ≤ 2 ^ 1007 + 2 ^ 1007 := add_le_add h100 b2
        _ = 2 ^ 1008 := by rw [← two_mul, ← pow_succ']
    have e2 : F64.Val.sub (.fin 100) (.fin (F64.mul c 10)) = .fin (F64.sub 100 (F64.mul c 10)) :=
      F64.Val.ofRat_fin _ 1008 (by norm_num) b3
    exact ⟨_, rfl, F64.abs_round_le _ 1008 b3, by rw [e1, e2]⟩
  obtain ⟨y1, hy1, by1, ey1⟩ := side a ha
  obtain ⟨y2, hy2, by2, ey2⟩ := side b hb
  have m1 : |y1 * F64.lit (3 / 10)| ≤ 2 ^ 1008 := by
    rw [abs_mul]
    calc |y1| * |F64.lit (3 / 10)| ≤ 2 ^ 1008 * 1 :=
          mul_le_mul by1 w3b (abs_nonneg _) (by positivity)
      _ = 2 ^ 1008 := mul_one _
  have m2 : |y2 * F64.lit (7 / 10)| ≤ 2 ^ 1008 := by
    rw [abs_mul]
    calc |y2| * |F64.lit (7 / 10)| ≤ 2 ^ 1008 * 1 :=
          mul_le_mul by2 w7b (abs_nonneg _) (by positivity)
      _ = 2 ^ 1008 := mul_one _
  have e3 : F64.Val.mul (.fin y1) (.fin (F64.lit (3 / 10))) =
      .fin (F64.mul y1 (F64.lit (3 / 10))) := F64.Val.ofRat_fin _ 1008 (by norm_num) m1
  have e4 : F64.Val.mul (.fin y2) (.fin (F64.lit (7 / 10))) =
      .fin (F64.mul y2 (F64.lit (7 / 10))) := F64.Val.ofRat_fin _ 1008 (by norm_num) m2
  have s1 : |F64.mul y1 (F64.lit (3 / 10)) + F64.mul y2 (F64.lit (7 / 10))| ≤ 2 ^ 1009 := by
    calc |F64.mul y1 (F64.lit (3 / 10)) + F64.mul y2 (F64.lit (7 / 10))|
        ≤ |F64.mul y1 (F64.lit (3 / 10))| + |F64.mul y2 (F64.lit (7 / 10))| := abs_add _ _
      _ ≤ 2 ^ 1008 + 2 ^ 1008 :=
          add_le_add (F64.abs_round_le _ 1008 m1) (F64.abs_round_le _ 1008 m2)
      _ = 2 ^ 1009 := by rw [← two_mul, ← pow_succ']
  have e5 : F64.Val.add (.fin (F64.mul y1 (F64.lit (3 / 10))))
      (.fin (F64.mul y2 (F64.lit (7 / 10)))) =
      .fin (F64.add (F64.mul y1 (F64.lit (3 / 10))) (F64.mul y2 (F64.lit (7 / 10)))) :=
    F64.Val.ofRat_fin _ 1009 (by norm_num) s1
  refine ⟨_, rfl, ?_⟩
  rw [ey1, ey2, hw3, hw7, e3, e4, e5, hy1, hy2]

/-- The clamp, the blacklist flag and the conversion to `int` on a finite blended score. -/
theorem clampVal_fin (x : ℚ) :
    (if (F64.Val.fin x).lt (.fin 0) then F64.Val.fin 0
      else if (F64.Val.fin 100).lt (.fin x) then .fin 100 else .fin x) =
      .fin (if x < 0 then 0 else if x > 100 then 100 else x) ∧
    F64.Val.lt (.fin (if x < 0 then 0 else if x > 100 then 100 else x)) (.fin 40) =
      decide ((if x < 0 then 0 else if x > 100 then 100 else x) < 40) ∧
    F64.Val.toInt (.fin (if x < 0 then 0 else if x > 100 then 100 else x)) =
      F64.toInt (if x < 0 then 0 else if x > 100 then 100 else x) := by
  refine ⟨?_, rfl, ?_⟩
  · simp only [F64.Val.lt_fin, decide_eq_true_eq, gt_iff_lt]
    split_ifs <;> rfl
  · obtain ⟨h1, h2, _⟩ := clamp_toInt x
    simp only [F64.Val.toInt]
    rw [if_pos ⟨by linarith, by linarith⟩]

theorem divVal_fin (a b : ℚ) (n : ℕ) (hn : n ≤ 1023) (hb : 1 ≤ b) (ha : |a| ≤ 2 ^ n) :
    F64.Val.div (.fin a) (.fin b) = .fin (F64.div a b) ∧ |F64.div a b| ≤ 2 ^ n := by
  have hb0 : b ≠ 0 := by linarith
  have hq : |a / b| ≤ 2 ^ n := by
    rw [abs_div, abs_of_pos (by linarith : (0 : ℚ) < b)]
    exact le_trans (div_le_self (abs_nonneg a) hb) ha
  rw [F64.Val.div_fin a b hb0]
  exact ⟨F64.Val.ofRat_fin _ n hn hq, F64.abs_round_le _ n hq⟩

theorem ofIntVal_fin (z : ℤ) (h : |z| ≤ 2 ^ 53) :
    F64.Val.ofInt z = .fin (F64.ofInt z) ∧ F64.ofInt z = (z : ℚ) := by
  refine ⟨?_, ofInt_eq_cast z h⟩
  unfold F64.Val.ofInt
  apply F64.Val.ofRat_fin _ 53 (by norm_num)
  have : ((|z| : ℤ) : ℚ) ≤ ((2 ^ 53 : ℤ) : ℚ) := by exact_mod_cast h
  simpa using this

/-- On a stored profile with a count that `float64` holds exactly, and with a stored error
(read only when the count is not 0) and a rating difference of magnitude at most `2 ^ 1000`,
no operation of the trust update overflows and no divisor is zero: the update with the
special values of `float64` gives the record of the finite arithmetic. -/
theorem recomputeVal_eq_recompute (u : User) (d p : ℚ)
    (hc0 : 0 ≤ u.TrustRatedCount) (hc : u.TrustRatedCount + 1 ≤ 2 ^ 53)
    (hE : u.TrustRatedCount ≠ 0 → |u.TrustTotalError| ≤ 2 ^ 1000)
    (hdp : |p - d| ≤ 2 ^ 1000) :
    recomputeVal u.trustData (.fin d) (.fin p) = (recompute u d p).trustData := by
  have hs : F64.Val.sub (.fin p) (.fin d) = .fin (F64.sub p d) :=
    F64.Val.ofRat_fin _ 1000 (by norm_num) hdp
  have bdiff : |(|F64.sub p d|)| ≤ 2 ^ 1000 := by
    rw [abs_abs]
    exact F64.abs_round_le _ 1000 hdp
  by_cases h0 : u.TrustRatedCount = 0
  · have hw : wrapInt64 (0 + 1) = 1 := by norm_num [wrapInt64]
    have hgt : ¬ ((1 : ℤ) > 1) := by norm_num
    have b1 : |0 + (|F64.sub p d|)| ≤ 2 ^ 1000 := by
      rw [zero_add]
      exact bdiff
    have hadd : F64.Val.add (.fin 0) (.fin |F64.sub p d|) =
        .fin (F64.add 0 |F64.sub p d|) := F64.Val.ofRat_fin _ 1000 (by norm_num) b1
    have bnew : |F64.add 0 (|F64.sub p d|)| ≤ 2 ^ 1000 := F64.abs_round_le _ 1000 b1
    obtain ⟨ho1, ho2⟩ := ofIntVal_fin 1 (by norm_num)
    have hone : (1 : ℚ) ≤ F64.ofInt 1 := by rw [ho2]; norm_num
    obtain ⟨hd1, hd2⟩ := divVal_fin (F64.add 0 |F64.sub p d|) (F64.ofInt 1) 1000
      (by norm_num) hone bnew
    have hle : (2 : ℚ) ^ 1000 ≤ 2 ^ 1003 := pow_le_pow_right₀ (by norm_num) (by norm_num)
    obtain ⟨x, hx, hblend⟩ := blendVal_eq (F64.div (F64.add 0 |F64.sub p d|) (F64.ofInt 1))
      |F64.sub p d| (le_trans hd2 hle) (le_trans bdiff hle)
    obtain ⟨c1, c2, c3⟩ := clampVal_fin x
    subst hx
    simp only [recomputeVal, recompute, User.trustData, h0, if_true, hw, hgt, if_false, hs,
      F64.Val.abs_fin, hadd, ho1, hd1, hblend, c1, c2, c3]
  · have h1 : 1 ≤ u.TrustRatedCount := by omega
    have hE := hE h0
    have hw : wrapInt64 (u.TrustRatedCount + 1) = u.TrustRatedCount + 1 :=
      wrapInt64_of_range _ (by linarith) (by linarith)
    have hgt : u.TrustRatedCount + 1 > 1 := by omega
    have hw5 : wrapInt64 (u.TrustRatedCount + 1 - 5) = u.TrustRatedCount + 1 - 5 :=
      wrapInt64_of_range _ (by linarith) (by linarith)
    obtain ⟨ho5a, ho5b⟩ := ofIntVal_fin (u.TrustRatedCount + 1 - 5)
      (by rw [abs_le]; constructor <;> linarith)
    have hm : max (0 : ℚ) ((u.TrustRatedCount + 1 - 5 : ℤ) : ℚ) =
        ((max 0 (u.TrustRatedCount + 1 - 5) : ℤ) : ℚ) := by
      rw [Int.cast_max, Int.cast_zero]
    have hti : F64.Val.toInt (.fin (max 0 (F64.ofInt (u.TrustRatedCount + 1 - 5)))) =
        F64.toInt (max 0 (F64.ofInt (u.TrustRatedCount + 1 - 5))) := by
      simp only [F64.Val.toInt]
      rw [ho5b, hm, toInt_intCast]
      have : 0 ≤ max 0 (u.TrustRatedCount + 1 - 5) := le_max_left _ _
      have : max 0 (u.TrustRatedCount + 1 - 5) ≤ 2 ^ 53 := max_le (by norm_num) (by linarith)
      rw [if_pos ⟨by linarith, by linarith⟩]
    have hdivisor := window_divisor (u.TrustRatedCount + 1) (by omega) hc
    rw [hw5] at hdivisor
    have hm1 : 1 ≤ min (u.TrustRatedCount + 1) 5 := le_min (by linarith) (by norm_num)
    have hm5 : min (u.TrustRatedCount + 1) 5 ≤ 5 := min_le_right _ _
    obtain ⟨hoDa, hoDb⟩ := ofIntVal_fin (min (u.TrustRatedCount + 1) 5)
      (by rw [abs_le]; constructor <;> linarith)
    obtain ⟨hoka, hokb⟩ := ofIntVal_fin (u.TrustRatedCount + 1)
      (by rw [abs_le]; constructor <;> linarith)
    have hD1 : (1 : ℚ) ≤ F64.ofInt (min (u.TrustRatedCount + 1) 5) := by
      rw [hoDb]; exact_mod_cast hm1
    have hk1 : (1 : ℚ) ≤ F64.ofInt (u.TrustRatedCount + 1) := by
      rw [hokb]; exact_mod_cast (by linarith : (1 : ℤ) ≤ u.TrustRatedCount + 1)
    have b1 : |u.TrustTotalError + (|F64.sub p d|)| ≤ 2 ^ 1001 := by
      calc |u.TrustTotalError + (|F64.sub p d|)|
          ≤ |u.TrustTotalError| + |(|F64.sub p d|)| := abs_add _ _
        _ ≤ 2 ^ 1000 + 2 ^ 1000 := add_le_add hE bdiff
        _ = 2 ^ 1001 := by rw [← two_mul, ← pow_succ']
    have hadd : F64.Val.add (.fin u.TrustTotalError) (.fin |F64.sub p d|) =
        .fin (F64.add u.TrustTotalError |F64.sub p d|) :=
      F64.Val.ofRat_fin _ 1001 (by norm_num) b1
    have bnew : |F64.add u.TrustTotalError (|F64.sub p d|)| ≤ 2 ^ 1001 :=
      F64.abs_round_le _ 1001 b1
    have b2 : |F64.add u.TrustTotalError |F64.sub p d| - u.TrustTotalError| ≤ 2 ^ 1002 := by
      have hE2 : |u.TrustTotalError| ≤ 2 ^ 1001 :=
        le_trans hE (pow_le_pow_right₀ (by norm_num) (by norm_num))
      calc |F64.add u.TrustTotalError |F64.sub p d| - u.TrustTotalError|
          ≤ |F64.add u.TrustTotalError (|F64.sub p d|)| + |u.TrustTotalError| := abs_sub _ _
        _ ≤ 2 ^ 1001 + 2 ^ 1001 := add_le_add bnew hE2
        _ = 2 ^ 1002 := by rw [← two_mul, ← pow_succ']
    have hnum : F64.Val.sub (.fin (F64.add u.TrustTotalError |F64.sub p d|))
        (.fin u.TrustTotalError) =
        .fin (F64.sub (F64.add u.TrustTotalError |F64.sub p d|) u.TrustTotalError) :=
      F64.Val.ofRat_fin _ 1002 (by norm_num) b2
    have bnum : |F64.sub (F64.add u.TrustTotalError |F64.sub p d|) u.TrustTotalError| ≤
        2 ^ 1002 := F64.abs_round_le _ 1002 b2
    obtain ⟨hw1, hw2⟩ := divVal_fin
      (F64.sub (F64.add u.TrustTotalError |F64.sub p d|) u.TrustTotalError)
      (F64.ofInt (min (u.TrustRatedCount + 1) 5)) 1002 (by norm_num) hD1 bnum
    obtain ⟨hh1, hh2⟩ := divVal_fin (F64.add u.TrustTotalError |F64.sub p d|)
      (F64.ofInt (u.TrustRatedCount + 1)) 1001 (by norm_num) hk1 bnew
    obtain ⟨x, hx, hblend⟩ := blendVal_eq
      (F64.div (F64.add u.TrustTotalError |F64.sub p d|) (F64.ofInt (u.TrustRatedCount + 1)))
      (F64.div (F64.sub (F64.add u.TrustTotalError |F64.sub p d|) u.TrustTotalError)
        (F64.ofInt (min (u.TrustRatedCount + 1) 5)))
      (le_trans hh2 (pow_le_pow_right₀ (by norm_num) (by norm_num)))
      (le_trans hw2 (pow_le_pow_right₀ (by norm_num) (by norm_num)))
    obtain ⟨c1, c2, c3⟩ := clampVal_fin x
    subst hx
    simp only [recomputeVal, recompute, User.trustData, h0, if_false, hw, hgt, if_true, hs,
      F64.Val.abs_fin, hadd, hw5, ho5a, F64.Val.max_fin, hti, hdivisor, hoDa, hoka, hnum, hw1,
      hh1, hblend, c1, c2, c3]

/-! ## Trust engine: what the record depends on -/

theorem absVal_ofRat_neg (q : ℚ) :
    F64.Val.abs (F64.Val.ofRat (-q)) = F64.Val.abs (F64.Val.ofRat q) := by
  unfold F64.Val.ofRat
  rw [F64.round_neg, abs_neg]
  by_cases h : (2 : ℚ) ^ 1024 ≤ |F64.round q|
  · simp only [h, if_true, F64.Val.abs]
  · simp only [h, if_false, F64.Val.abs_fin, abs_neg]

theorem absSubVal_swap (d p : ℚ) :
    F64.Val.abs (F64.Val.sub (.fin d) (.fin p)) =
      F64.Val.abs (F64.Val.sub (.fin p) (.fin d)) := by
  rw [F64.Val.sub_fin, F64.Val.sub_fin, show d - p = -(p - d) by ring, absVal_ofRat_neg]

theorem absSubVal_congr (d p d2 p2 : ℚ) (h : |p - d| = |p2 - d2|) :
    F64.Val.abs (F64.Val.sub (.fin p) (.fin d)) =
      F64.Val.abs (F64.Val.sub (.fin p2) (.fin d2)) := by
  rw [F64.Val.sub_fin, F64.Val.sub_fin]
  rcases abs_eq_abs.mp h with e | e
  · rw [e]
  · rw [e, absVal_ofRat_neg]

theorem recomputeVal_congr (u : TrustData) (d p d2 p2 : F64.Val)
    (h : (p.sub d).abs = (p2.sub d2).abs) : recomputeVal u d p = recomputeVal u d2 p2 := by
  simp only [recomputeVal, h]

/-! ## Trust engine: sequences of ratings on the 0-5 scale -/

theorem applyRatingsVal_eq_applyRatings : ∀ (ratings : List (ℚ × ℚ)) (u : User),
    0 ≤ u.TrustRatedCount →
    u.TrustRatedCount + (ratings.length : ℤ) ≤ 2 ^ 50 →
    (u.TrustRatedCount ≠ 0 →
      0 ≤ u.TrustTotalError ∧ u.TrustTotalError ≤ 5 * (u.TrustRatedCount : ℚ)) →
    (∀ r ∈ ratings, 0 ≤ r.1 ∧ r.1 ≤ 5 ∧ 0 ≤ r.2 ∧ r.2 ≤ 5) →
    applyRatingsVal u.trustData (ratings.map (fun r => (.fin r.1, .fin r.2))) =
      (applyRatings u ratings).trustData := by
  intro ratings
  induction ratings with
  | nil => intro u _ _ _ _; rfl
  | cons r rest ih =>
    intro u hn0 hlen hE hr
    have hlen2 : u.TrustRatedCount + ((rest.length : ℤ) + 1) ≤ 2 ^ 50 := by
      simpa using hlen
    have hrest := Int.natCast_nonneg rest.length
    obtain ⟨r1, r2, r3, r4⟩ := hr r (List.mem_cons_self _ _)
    obtain ⟨s1, s2, s3, _, _⟩ := recompute_on_scale u r.1 r.2 r1 r2 r3 r4 hn0
      (by linarith) hE
    have hbridge := recomputeVal_eq_recompute u r.1 r.2 hn0 (by linarith)
      (by
        intro hne
        obtain ⟨e0, e5⟩ := hE hne
        rw [abs_of_nonneg e0]
        have hq : (u.TrustRatedCount : ℚ) ≤ 2 ^ 50 := by
          exact_mod_cast (by linarith : u.TrustRatedCount ≤ 2 ^ 50)
        calc u.TrustTotalError ≤ 5 * (u.TrustRatedCount : ℚ) := e5
          _ ≤ 2 ^ 3 * 2 ^ 50 := by nlinarith
          _ ≤ 2 ^ 1000 := by
              rw [← pow_add]
              exact pow_le_pow_right₀ (by norm_num) (by norm_num))
      (by
        have : |r.2 - r.1| ≤ 5 := abs_le.mpr ⟨by linarith, by linarith⟩
        calc |r.2 - r.1| ≤ 5 := this
          _ ≤ 2 ^ 3 := by norm_num
          _ ≤ 2 ^ 1000 := pow_le_pow_right₀ (by norm_num) (by norm_num))
    rw [List.map_cons, applyRatingsVal_cons, applyRatings_cons]
    show applyRatingsVal (recomputeVal u.trustData (.fin r.1) (.fin r.2)) _ = _
    rw [hbridge]
    exact ih (recompute u r.1 r.2) (by rw [s1]; linarith) (by rw [s1]; linarith)
      (fun _ => ⟨s2, s3⟩) (fun x hx => hr x (List.mem_cons_of_mem _ hx))

/-! ## Trust engine: the record that both updates persist -/

/-- C1, amended. For every stored profile with `0 ≤ TrustRatedCount`,
`TrustRatedCount + 1 ≤ 2 ^ 53` (a count that `float64` holds exactly) and
`0 ≤ TrustTotalError ≤ 2 ^ 1000`, and every declared and observed rating with
`|observed - declared| ≤ 2 ^ 1000`, the profile that `UpdateSupplierTrustScoreOnNewRating`
and `UpdateResellerTrustScoreOnNewRating` hand to `UpdateTrustData` is the one that the
update computes in `float64`; it has `0 ≤ TrustScore ≤ 100`, and its `IsBlacklisted` is true
exactly when its integer `TrustScore` is below 40. -/
theorem trust_update_score_range_and_blacklist (env : Env) (h : List Event) (id : String)
    (declaredRating productRating : ℚ) (u : User)
    (hget : env.UserGetByID h id = .ok (some u))
    (hcount : 0 ≤ u.TrustRatedCount) (hbound : u.TrustRatedCount + 1 ≤ 2 ^ 53)
    (herror : 0 ≤ u.TrustTotalError) (hsize : u.TrustTotalError ≤ 2 ^ 1000)
    (hdiff : |productRating - declaredRating| ≤ 2 ^ 1000) :
    ∃ persisted : User,
      TrustUpdatePersists env h id declaredRating productRating persisted ∧
      persisted.trustData =
        recomputeVal u.trustData (.fin declaredRating) (.fin productRating) ∧
      0 ≤ persisted.TrustScore ∧ persisted.TrustScore ≤ 100 ∧
      (persisted.IsBlacklisted = true ↔ persisted.TrustScore < 40) :=
  ⟨recompute u declaredRating productRating,
    trust_update_persists env h id _ _ u hget,
    (recomputeVal_eq_recompute u _ _ hcount hbound
      (fun _ => by rw [abs_of_nonneg herror]; exact hsize) hdiff).symm,
    recompute_score u _ _⟩

/-- C1, witness: the account of the test "multiple ratings", rated 4.0 against 4.5. -/
theorem trust_update_score_range_and_blacklist_witness :
    stubEnv.UserGetByID [] "supplier1" = .ok (some sampleUser) ∧
    0 ≤ sampleUser.TrustRatedCount ∧ sampleUser.TrustRatedCount + 1 ≤ 2 ^ 53 ∧
    0 ≤ sampleUser.TrustTotalError ∧ sampleUser.TrustTotalError ≤ 2 ^ 1000 ∧
    |(9 / 2 : ℚ) - 4| ≤ 2 ^ 1000 ∧
    ∃ persisted : User,
      TrustUpdatePersists stubEnv [] "supplier1" 4 (9 / 2) persisted ∧
      persisted.trustData = recomputeVal sampleUser.trustData (.fin 4) (.fin (9 / 2)) ∧
      0 ≤ persisted.TrustScore ∧ persisted.TrustScore ≤ 100 ∧
      (persisted.IsBlacklisted = true ↔ persisted.TrustScore < 40) :=
  have h1 : sampleUser.TrustTotalError ≤ 2 ^ 1000 := by
    norm_num [sampleUser]
  have h2 : |(9 / 2 : ℚ) - 4| ≤ 2 ^ 1000 := by
    have : (1 : ℚ) ≤ 2 ^ 1000 := one_le_pow₀ (by norm_num)
    rw [abs_of_pos (by norm_num)]
    linarith
  ⟨rfl, by decide, by decide, by norm_num [sampleUser], h1, h2,
    trust_update_score_range_and_blacklist stubEnv [] "supplier1" 4 (9 / 2) sampleUser rfl
      (by decide) (by decide) (by norm_num [sampleUser]) h1 h2⟩

/-- C8, amended. For a stored profile with `0 ≤ TrustRatedCount`,
`TrustRatedCount + 1 ≤ 2 ^ 53` and `0 ≤ TrustTotalError ≤ 2 ^ 1000`, and ratings with
`|observed - declared| ≤ 2 ^ 1000`, the `TrustScore` that both trust updates persist is the
clamped blended score with its fraction discarded, `floor(newScore)`; it is not rounded to
the nearest integer. -/
theorem persisted_score_truncated (env : Env) (h : List Event) (id : String) (d p : ℚ)
    (u : User) (hget : env.UserGetByID h id = .ok (some u))
    (hcount : 0 ≤ u.TrustRatedCount) (hbound : u.TrustRatedCount + 1 ≤ 2 ^ 53)
    (herror : 0 ≤ u.TrustTotalError) (hsize : u.TrustTotalError ≤ 2 ^ 1000)
    (hdiff : |p - d| ≤ 2 ^ 1000) :
    TrustUpdatePersists env h id d p (recompute u d p) ∧
    (recompute u d p).trustData = recomputeVal u.trustData (.fin d) (.fin p) ∧
    (recomputeVal u.trustData (.fin d) (.fin p)).TrustScore = ⌊newTrustScore u d p⌋ := by
  have hb := recomputeVal_eq_recompute u d p hcount hbound
    (fun _ => by rw [abs_of_nonneg herror]; exact hsize) hdiff
  refine ⟨trust_update_persists env h id d p u hget, hb.symm, ?_⟩
  rw [hb]
  show (recompute u d p).TrustScore = _
  rw [recompute_trustScore]
  unfold F64.toInt
  rw [if_pos (newTrustScore_range u d p).1]

/-- C8, witness: the account of the test "multiple ratings". -/
theorem persisted_score_truncated_witness :
    stubEnv.UserGetByID [] "supplier1" = .ok (some sampleUser) ∧
    0 ≤ sampleUser.TrustRatedCount ∧ sampleUser.TrustRatedCount + 1 ≤ 2 ^ 53 ∧
    0 ≤ sampleUser.TrustTotalError ∧ sampleUser.TrustTotalError ≤ 2 ^ 1000 ∧
    |(9 / 2 : ℚ) - 4| ≤ 2 ^ 1000 ∧
    TrustUpdatePersists stubEnv [] "supplier1" 4 (9 / 2) (recompute sampleUser 4 (9 / 2)) ∧
    (recompute sampleUser 4 (9 / 2)).trustData =
      recomputeVal sampleUser.trustData (.fin 4) (.fin (9 / 2)) ∧
    (recomputeVal sampleUser.trustData (.fin 4) (.fin (9 / 2))).TrustScore =
      ⌊newTrustScore sampleUser 4 (9 / 2)⌋ :=
  have h1 : sampleUser.TrustTotalError ≤ 2 ^ 1000 := by
    norm_num [sampleUser]
  have h2 : |(9 / 2 : ℚ) - 4| ≤ 2 ^ 1000 := by
    have : (1 : ℚ) ≤ 2 ^ 1000 := one_le_pow₀ (by norm_num)
    rw [abs_of_pos (by norm_num)]
    linarith
  ⟨rfl, by decide, by decide, by norm_num [sampleUser], h1, h2,
    persisted_score_truncated stubEnv [] "supplier1" 4 (9 / 2) sampleUser rfl
      (by decide) (by decide) (by norm_num [sampleUser]) h1 h2⟩

/-! ## Trust engine: ratings on the 0-5 scale, in `float64` -/

/-- C27, amended. On an account that starts unrated, after each of up to `2 ^ 50` successive
updates whose declared and observed ratings all lie in `[0, 5]`, the stored profile is the
one computed in `float64`; it has `TrustRatedCount` equal to the number of updates made, a
finite `TrustTotalError ≤ 5 × TrustRatedCount`, a `TrustScore` of at least 50 and
`IsBlacklisted = false`. -/
theorem ratings_on_scale_never_blacklist (u : User) (ratings : List (ℚ × ℚ))
    (h0 : u.TrustRatedCount = 0)
    (hr : ∀ r ∈ ratings, 0 ≤ r.1 ∧ r.1 ≤ 5 ∧ 0 ≤ r.2 ∧ r.2 ≤ 5)
    (hlen : ratings.length ≤ 2 ^ 50) (k : ℕ) (hk1 : 1 ≤ k) (hk : k ≤ ratings.length) :
    ∃ e : ℚ,
      (applyRatings u (ratings.take k)).trustData =
        applyRatingsVal u.trustData ((ratings.take k).map (fun r => (.fin r.1, .fin r.2))) ∧
      (applyRatingsVal u.trustData
        ((ratings.take k).map (fun r => (.fin r.1, .fin r.2)))).TrustRatedCount = k ∧
      (applyRatingsVal u.trustData
        ((ratings.take k).map (fun r => (.fin r.1, .fin r.2)))).TrustTotalError = .fin e ∧
      e ≤ 5 * (k : ℚ) ∧
      50 ≤ (applyRatingsVal u.trustData
        ((ratings.take k).map (fun r => (.fin r.1, .fin r.2)))).TrustScore ∧
      (applyRatingsVal u.trustData
        ((ratings.take k).map (fun r => (.fin r.1, .fin r.2)))).IsBlacklisted = false := by
  have hlen2 : u.TrustRatedCount + (ratings.length : ℤ) ≤ 2 ^ 50 := by
    rw [h0, zero_add]
    exact_mod_cast hlen
  have hlen3 : u.TrustRatedCount + ((ratings.take k).length : ℤ) ≤ 2 ^ 50 := by
    have : ((ratings.take k).length : ℤ) ≤ (ratings.length : ℤ) := by
      exact_mod_cast le_trans (List.length_take_le k ratings) hk
    linarith
  obtain ⟨t1, t2, t3, t4⟩ := applyRatings_on_scale ratings u (by rw [h0]) hlen2
    (fun hne => absurd h0 hne) hr k hk1 hk
  have hb := applyRatingsVal_eq_applyRatings (ratings.take k) u (by rw [h0]) hlen3
    (fun hne => absurd h0 hne) (fun r hmem => hr r (List.mem_of_mem_take hmem))
  have t1k : (applyRatings u (ratings.take k)).TrustRatedCount = k := by
    rw [t1, h0, zero_add]
  refine ⟨(applyRatings u (ratings.take k)).TrustTotalError, hb.symm, ?_, ?_, ?_, ?_, ?_⟩
  · rw [hb]
    exact t1k
  · rw [hb]
    rfl
  · rw [t1k] at t2
    exact_mod_cast t2
  · rw [hb]
    exact t3
  · rw [hb]
    exact t4

/-- C27, witness: an unrated account rated with declared 4.0 and observed 4.5, then with
declared 0.0 and observed 5.0. -/
theorem ratings_on_scale_never_blacklist_witness :
    newUser.TrustRatedCount = 0 ∧
    (∀ r ∈ [((4 : ℚ), (9 / 2 : ℚ)), (0, 5)], 0 ≤ r.1 ∧ r.1 ≤ 5 ∧ 0 ≤ r.2 ∧ r.2 ≤ 5) ∧
    ∃ e : ℚ,
      (applyRatings newUser ([((4 : ℚ), (9 / 2 : ℚ)), (0, 5)].take 2)).trustData =
        applyRatingsVal newUser.trustData (([((4 : ℚ), (9 / 2 : ℚ)), (0, 5)].take 2).map
          (fun r => (.fin r.1, .fin r.2))) ∧
      (applyRatingsVal newUser.trustData (([((4 : ℚ), (9 / 2 : ℚ)), (0, 5)].take 2).map
        (fun r => (.fin r.1, .fin r.2)))).TrustRatedCount = (2 : ℕ) ∧
      (applyRatingsVal newUser.trustData (([((4 : ℚ), (9 / 2 : ℚ)), (0, 5)].take 2).map
        (fun r => (.fin r.1, .fin r.2)))).TrustTotalError = .fin e ∧
      e ≤ 5 * ((2 : ℕ) : ℚ) ∧
      50 ≤ (applyRatingsVal newUser.trustData (([((4 : ℚ), (9 / 2 : ℚ)), (0, 5)].take 2).map
        (fun r => (.fin r.1, .fin r.2)))).TrustScore ∧
      (applyRatingsVal newUser.trustData (([((4 : ℚ), (9 / 2 : ℚ)), (0, 5)].take 2).map
        (fun r => (.fin r.1, .fin r.2)))).IsBlacklisted = false :=
  have hr : ∀ r ∈ [((4 : ℚ), (9 / 2 : ℚ)), (0, 5)],
      0 ≤ r.1 ∧ r.1 ≤ 5 ∧ 0 ≤ r.2 ∧ r.2 ≤ 5 := by
    intro r hmem
    simp only [List.mem_cons, List.mem_singleton, List.not_mem_nil, or_false] at hmem
    rcases hmem with rfl | rfl <;> norm_num
  ⟨rfl, hr, ratings_on_scale_never_blacklist newUser [(4, 9 / 2), (0, 5)] rfl hr
    (by norm_num) 2 (by norm_num) (by simp)⟩

/-! ## Trust engine: the score against the rating error -/

/-- C29, counterexample. A stored profile with `TrustRatedCount = 2 ^ 56 + 13` and
`TrustTotalError = 2 ^ 53`: `float64(newRatedCount - 5)` rounds up to `2 ^ 56 + 16`, the
divisor of the windowed error is -2, and the update persists the score 99 for declared 0,
observed 0 but the score 100 for declared 0, observed 5.  No operation of the two runs
overflows or divides by zero. -/
theorem huge_count_score_grows_with_error :
    0 ≤ hugeCountUser.TrustRatedCount ∧ 0 ≤ hugeCountUser.TrustTotalError ∧
    |(0 : ℚ) - 0| ≤ |(5 : ℚ) - 0| ∧
    wrapInt64 (72057594037927950 -
      (F64.Val.max (.fin 0)
        (F64.Val.ofInt (wrapInt64 (72057594037927950 - 5)))).toInt) = -2 ∧
    (recomputeVal hugeCountUser.trustData (.fin 0) (.fin 0)).TrustScore = 99 ∧
    (recomputeVal hugeCountUser.trustData (.fin 0) (.fin 5)).TrustScore = 100 ∧
    (recomputeVal hugeCountUser.trustData (.fin 0) (.fin 0)).TrustScore <
      (recomputeVal hugeCountUser.trustData (.fin 0) (.fin 5)).TrustScore := by
  have a1 : F64.sub 0 0 = 0 := by
    simp [F64.sub, F64.round_zero]
  have a2 : F64.add 9007199254740992 0 =
      9007199254740992 := by
    unfold F64.add
    rw [F64.round_eq_of_pos _ (53) 4503599627370496 (by norm_num) (by norm_num) (by norm_num)
      (by norm_num) (by norm_num)]
    norm_num
  have a3 : F64.ofInt 72057594037927945 =
      72057594037927952 := by
    unfold F64.ofInt
    rw [F64.round_eq_of_pos _ (56) 4503599627370497 (by norm_num) (by norm_num) (by norm_num)
      (by norm_num) (by norm_num)]
    norm_num
  have a4 : F64.ofInt (-2) = -2 := by
    simpa using ofInt_eq_cast (-2) (by norm_num)
  have a5 : F64.sub 9007199254740992 9007199254740992 = 0 := by
    simp [F64.sub, F64.round_zero]
  have a6 : F64.div 0 (-2) = 0 := by
    simp [F64.div, F64.round_zero]
  have a7 : F64.lit (3 / 10) =
      5404319552844595 / 18014398509481984 := by
    unfold F64.lit
    rw [F64.round_eq_of_pos _ (-2) 5404319552844595 (by norm_num) (by norm_num) (by norm_num)
      (by norm_num) (by norm_num)]
    norm_num
  have a8 : F64.lit (7 / 10) =
      3152519739159347 / 4503599627370496 := by
    unfold F64.lit
    rw [F64.round_eq_of_pos _ (-1) 6305039478318694 (by norm_num) (by norm_num) (by norm_num)
      (by norm_num) (by norm_num)]
    norm_num
  have a9 : F64.ofInt 72057594037927950 =
      72057594037927952 := by
    unfold F64.ofInt
    rw [F64.round_eq_of_pos _ (56) 4503599627370497 (by norm_num) (by norm_num) (by norm_num)
      (by norm_num) (by norm_num)]
    norm_num
  have a10 : F64.div 9007199254740992 72057594037927952 =
      4503599627370495 / 36028797018963968 := by
    unfold F64.div
    rw [F64.round_eq_of_pos _ (-4) 9007199254740990 (by norm_num) (by norm_num) (by norm_num)
      (by norm_num) (by norm_num)]
    norm_num
  have a11 : F64.mul (4503599627370495 / 36028797018963968) 10 =
      5629499534213119 / 4503599627370496 := by
    unfold F64.mul
    rw [F64.round_eq_of_pos _ (0) 5629499534213119 (by norm_num) (by norm_num) (by norm_num)
      (by norm_num) (by norm_num)]
    norm_num
  have a12 : F64.sub 100 (5629499534213119 / 4503599627370496) =
      395 / 4 := by
    unfold F64.sub
    rw [F64.round_eq_of_pos _ (6) 6948913487544320 (by norm_num) (by norm_num) (by norm_num)
      (by norm_num) (by norm_num)]
    norm_num
  have a13 : F64.mul 0 10 = 0 := by
    simp [F64.mul, F64.round_zero]
  have a14 : F64.sub 100 0 =
      100 := by
    unfold F64.sub
    rw [F64.round_eq_of_pos _ (6) 7036874417766400 (by norm_num) (by norm_num) (by norm_num)
      (by norm_num) (by norm_num)]
    norm_num
  have a15 : F64.mul (395 / 4) (5404319552844595 / 18014398509481984) =
      237 / 8 := by
    unfold F64.mul
    rw [F64.round_eq_of_pos _ (4) 8338696185053184 (by norm_num) (by norm_num) (by norm_num)
      (by norm_num) (by norm_num)]
    norm_num
  have a16 : F64.mul 100 (3152519739159347 / 4503599627370496) =
      70 := by
    unfold F64.mul
    rw [F64.round_eq_of_pos _ (6) 4925812092436480 (by norm_num) (by norm_num) (by norm_num)
      (by norm_num) (by norm_num)]
    norm_num
  have a17 : F64.add (237 / 8) 70 =
      797 / 8 := by
    unfold F64.add
    rw [F64.round_eq_of_pos _ (6) 7010486138699776 (by norm_num) (by norm_num) (by norm_num)
      (by norm_num) (by norm_num)]
    norm_num
  have b1 : F64.sub 5 0 =
      5 := by
    unfold F64.sub
    rw [F64.round_eq_of_pos _ (2) 5629499534213120 (by norm_num) (by norm_num) (by norm_num)
      (by norm_num) (by norm_num)]
    norm_num
  have b2 : |(5 : ℚ)| = 5 := abs_of_pos (by norm_num)
  have b3 : F64.add 9007199254740992 5 =
      9007199254740996 := by
    unfold F64.add
    rw [F64.round_eq_of_pos_tie _ (53) 4503599627370498 4503599627370498 (by norm_num) (by norm_num)
      (by norm_num) (by norm_num) (by decide)]
    norm_num
  have b4 : F64.ofInt 72057594037927945 =
      72057594037927952 := by
    unfold F64.ofInt
    rw [F64.round_eq_of_pos _ (56) 4503599627370497 (by norm_num) (by norm_num) (by norm_num)
      (by norm_num) (by norm_num)]
    norm_num
  have b5 : F64.ofInt (-2) = -2 := by
    simpa using ofInt_eq_cast (-2) (by norm_num)
  have b6 : F64.sub 9007199254740996 9007199254740992 =
      4 := by
    unfold F64.sub
    rw [F64.round_eq_of_pos _ (2) 4503599627370496 (by norm_num) (by norm_num) (by norm_num)
      (by norm_num) (by norm_num)]
    norm_num
  have b7 : F64.div 4 (-2) = -2 := by
    unfold F64.div
    have h := F64.round_of_isF64 _ (F64.isF64_intCast (-2) (by norm_num))
    norm_num at h ⊢
    exact h
  have b8 : F64.lit (3 / 10) =
      5404319552844595 / 18014398509481984 := by
    unfold F64.lit
    rw [F64.round_eq_of_pos _ (-2) 5404319552844595 (by norm_num) (by norm_num) (by norm_num)
      (by norm_num) (by norm_num)]
    norm_num
  have b9 : F64.lit (7 / 10) =
      3152519739159347 / 4503599627370496 := by
    unfold F64.lit
    rw [F64.round_eq_of_pos _ (-1) 6305039478318694 (by norm_num) (by norm_num) (by norm_num)
      (by norm_num) (by norm_num)]
    norm_num
  have b10 : F64.ofInt 72057594037927950 =
      72057594037927952 := by
    unfold F64.ofInt
    rw [F64.round_eq_of_pos _ (56) 4503599627370497 (by norm_num) (by norm_num) (by norm_num)
      (by norm_num) (by norm_num)]
    norm_num
  have b11 : F64.div 9007199254740996 72057594037927952 =
      4503599627370497 / 36028797018963968 := by
    unfold F64.div
    rw [F64.round_eq_of_pos _ (-3) 4503599627370497 (by norm_num) (by norm_num) (by norm_num)
      (by norm_num) (by norm_num)]
    norm_num
  have b12 : F64.mul (4503599627370497 / 36028797018963968) 10 =
      5629499534213121 / 4503599627370496 := by
    unfold F64.mul
    rw [F64.round_eq_of_pos _ (0) 5629499534213121 (by norm_num) (by norm_num) (by norm_num)
      (by norm_num) (by norm_num)]
    norm_num
  have b13 : F64.sub 100 (5629499534213121 / 4503599627370496) =
      395 / 4 := by
    unfold F64.sub
    rw [F64.round_eq_of_pos _ (6) 6948913487544320 (by norm_num) (by norm_num) (by norm_num)
      (by norm_num) (by norm_num)]
    norm_num
  have b14 : F64.mul (-2) 10 = -20 := by
    unfold F64.mul
    have h := F64.round_of_isF64 _ (F64.isF64_intCast (-20) (by norm_num))
    norm_num at h ⊢
    exact h
  have b15 : F64.sub 100 (-20) = 120 := by
    unfold F64.sub
    have h := F64.round_of_isF64 _ (F64.isF64_intCast 120 (by norm_num))
    norm_num at h ⊢
    exact h
  have b16 : F64.mul (395 / 4) (5404319552844595 / 18014398509481984) =
      237 / 8 := by
    unfold F64.mul
    rw [F64.round_eq_of_pos _ (4) 8338696185053184 (by norm_num) (by norm_num) (by norm_num)
      (by norm_num) (by norm_num)]
    norm_num
  have b17 : F64.mul 120 (3152519739159347 / 4503599627370496) =
      84 := by
    unfold F64.mul
    rw [F64.round_eq_of_pos _ (6) 5910974510923776 (by norm_num) (by norm_num) (by norm_num)
      (by norm_num) (by norm_num)]
    norm_num
  have b18 : F64.add (237 / 8) 84 =
      909 / 8 := by
    unfold F64.add
    rw [F64.round_eq_of_pos _ (6) 7995648557187072 (by norm_num) (by norm_num) (by norm_num)
      (by norm_num) (by norm_num)]
    norm_num
  have va1 : F64.Val.sub (.fin 0) (.fin 0) = .fin 0 :=
    F64.Val.ofRat_of_round _ _ a1 (abs_lt.mpr ⟨by norm_num, by norm_num⟩)
  have va2 : F64.Val.add (.fin 9007199254740992) (.fin 0) = .fin 9007199254740992 :=
    F64.Val.ofRat_of_round _ _ a2 (abs_lt.mpr ⟨by norm_num, by norm_num⟩)
  have va3 : F64.Val.ofInt 72057594037927945 = .fin 72057594037927952 :=
    F64.Val.ofRat_of_round _ _ a3 (abs_lt.mpr ⟨by norm_num, by norm_num⟩)
  have va4 : F64.Val.ofInt (-2) = .fin (-2) :=
    F64.Val.ofRat_of_round _ _ a4 (abs_lt.mpr ⟨by norm_num, by norm_num⟩)
  have va5 : F64.Val.sub (.fin 9007199254740992) (.fin 9007199254740992) = .fin 0 :=
    F64.Val.ofRat_of_round _ _ a5 (abs_lt.mpr ⟨by norm_num, by norm_num⟩)
  have va6 : F64.Val.div (.fin 0) (.fin (-2)) = .fin 0 :=
    (F64.Val.div_fin _ _ (by norm_num)).trans
      (F64.Val.ofRat_of_round _ _ a6 (abs_lt.mpr ⟨by norm_num, by norm_num⟩))
  have va7 : F64.Val.ofRat (3 / 10) = .fin (5404319552844595 / 18014398509481984) :=
    F64.Val.ofRat_of_round _ _ a7 (abs_lt.mpr ⟨by norm_num, by norm_num⟩)
  have va8 : F64.Val.ofRat (7 / 10) = .fin (3152519739159347 / 4503599627370496) :=
    F64.Val.ofRat_of_round _ _ a8 (abs_lt.mpr ⟨by norm_num, by norm_num⟩)
  have va9 : F64.Val.ofInt 72057594037927950 = .fin 72057594037927952 :=
    F64.Val.ofRat_of_round _ _ a9 (abs_lt.mpr ⟨by norm_num, by norm_num⟩)
  have va10 : F64.Val.div (.fin 9007199254740992) (.fin 72057594037927952) =
      .fin (4503599627370495 / 36028797018963968) :=
    (F64.Val.div_fin _ _ (by norm_num)).trans
      (F64.Val.ofRat_of_round _ _ a10 (abs_lt.mpr ⟨by norm_num, by norm_num⟩))
  have va11 : F64.Val.mul (.fin (4503599627370495 / 36028797018963968)) (.fin 10) =
      .fin (5629499534213119 / 4503599627370496) :=
    F64.Val.ofRat_of_round _ _ a11 (abs_lt.mpr ⟨by norm_num, by norm_num⟩)
  have va12 : F64.Val.sub (.fin 100) (.fin (5629499534213119 / 4503599627370496)) =
      .fin (395 / 4) :=
    F64.Val.ofRat_of_round _ _ a12 (abs_lt.mpr ⟨by norm_num, by norm_num⟩)
  have va13 : F64.Val.mul (.fin 0) (.fin 10) = .fin 0 :=
    F64.Val.ofRat_of_round _ _ a13 (abs_lt.mpr ⟨by norm_num, by norm_num⟩)
  have va14 : F64.Val.sub (.fin 100) (.fin 0) = .fin 100 :=
    F64.Val.ofRat_of_round _ _ a14 (abs_lt.mpr ⟨by norm_num, by norm_num⟩)
  have va15 : F64.Val.mul (.fin (395 / 4)) (.fin (5404319552844595 / 18014398509481984)) =
      .fin (237 / 8) :=
    F64.Val.ofRat_of_round _ _ a15 (abs_lt.mpr ⟨by norm_num, by norm_num⟩)
  have va16 : F64.Val.mul (.fin 100) (.fin (3152519739159347 / 4503599627370496)) = .fin 70 :=
    F64.Val.ofRat_of_round _ _ a16 (abs_lt.mpr ⟨by norm_num, by norm_num⟩)
  have va17 : F64.Val.add (.fin (237 / 8)) (.fin 70) = .fin (797 / 8) :=
    F64.Val.ofRat_of_round _ _ a17 (abs_lt.mpr ⟨by norm_num, by norm_num⟩)
  have vb1 : F64.Val.sub (.fin 5) (.fin 0) = .fin 5 :=
    F64.Val.ofRat_of_round _ _ b1 (abs_lt.mpr ⟨by norm_num, by norm_num⟩)
  have vb3 : F64.Val.add (.fin 9007199254740992) (.fin 5) = .fin 9007199254740996 :=
    F64.Val.ofRat_of_round _ _ b3 (abs_lt.mpr ⟨by norm_num, by norm_num⟩)
  have vb4 : F64.Val.ofInt 72057594037927945 = .fin 72057594037927952 :=
    F64.Val.ofRat_of_round _ _ b4 (abs_lt.mpr ⟨by norm_num, by norm_num⟩)
  have vb5 : F64.Val.ofInt (-2) = .fin (-2) :=
    F64.Val.ofRat_of_round _ _ b5 (abs_lt.mpr ⟨by norm_num, by norm_num⟩)
  have vb6 : F64.Val.sub (.fin 9007199254740996) (.fin 9007199254740992) = .fin 4 :=
    F64.Val.ofRat_of_round _ _ b6 (abs_lt.mpr ⟨by norm_num, by norm_num⟩)
  have vb7 : F64.Val.div (.fin 4) (.fin (-2)) = .fin (-2) :=
    (F64.Val.div_fin _ _ (by norm_num)).trans
      (F64.Val.ofRat_of_round _ _ b7 (abs_lt.mpr ⟨by norm_num, by norm_num⟩))
  have vb8 : F64.Val.ofRat (3 / 10) = .fin (5404319552844595 / 18014398509481984) :=
    F64.Val.ofRat_of_round _ _ b8 (abs_lt.mpr ⟨by norm_num, by norm_num⟩)
  have vb9 : F64.Val.ofRat (7 / 10) = .fin (3152519739159347 / 4503599627370496) :=
    F64.Val.ofRat_of_round _ _ b9 (abs_lt.mpr ⟨by norm_num, by norm_num⟩)
  have vb10 : F64.Val.ofInt 72057594037927950 = .fin 72057594037927952 :=
    F64.Val.ofRat_of_round _ _ b10 (abs_lt.mpr ⟨by norm_num, by norm_num⟩)
  have vb11 : F64.Val.div (.fin 9007199254740996) (.fin 72057594037927952) =
      .fin (4503599627370497 / 36028797018963968) :=
    (F64.Val.div_fin _ _ (by norm_num)).trans
      (F64.Val.ofRat_of_round _ _ b11 (abs_lt.mpr ⟨by norm_num, by norm_num⟩))
  have vb12 : F64.Val.mul (.fin (4503599627370497 / 36028797018963968)) (.fin 10) =
      .fin (5629499534213121 / 4503599627370496) :=
    F64.Val.ofRat_of_round _ _ b12 (abs_lt.mpr ⟨by norm_num, by norm_num⟩)
  have vb13 : F64.Val.sub (.fin 100) (.fin (5629499534213121 / 4503599627370496)) =
      .fin (395 / 4) :=
    F64.Val.ofRat_of_round _ _ b13 (abs_lt.mpr ⟨by norm_num, by norm_num⟩)
  have vb14 : F64.Val.mul (.fin (-2)) (.fin 10) = .fin (-20) :=
    F64.Val.ofRat_of_round _ _ b14 (abs_lt.mpr ⟨by norm_num, by norm_num⟩)
  have vb15 : F64.Val.sub (.fin 100) (.fin (-20)) = .fin 120 :=
    F64.Val.ofRat_of_round _ _ b15 (abs_lt.mpr ⟨by norm_num, by norm_num⟩)
  have vb16 : F64.Val.mul (.fin (395 / 4)) (.fin (5404319552844595 / 18014398509481984)) =
      .fin (237 / 8) :=
    F64.Val.ofRat_of_round _ _ b16 (abs_lt.mpr ⟨by norm_num, by norm_num⟩)
  have vb17 : F64.Val.mul (.fin 120) (.fin (3152519739159347 / 4503599627370496)) = .fin 84 :=
    F64.Val.ofRat_of_round _ _ b17 (abs_lt.mpr ⟨by norm_num, by norm_num⟩)
  have vb18 : F64.Val.add (.fin (237 / 8)) (.fin 84) = .fin (909 / 8) :=
    F64.Val.ofRat_of_round _ _ b18 (abs_lt.mpr ⟨by norm_num, by norm_num⟩)
  have hne : ¬ ((72057594037927949 : ℤ) = 0) := by norm_num
  have hw1 : wrapInt64 (72057594037927949 + 1) = 72057594037927950 := by
    norm_num [wrapInt64]
  have hw2 : wrapInt64 (72057594037927950 - 5) = 72057594037927945 := by
    norm_num [wrapInt64]
  have hgt : (72057594037927950 : ℤ) > 1 := by norm_num
  have hmax : Max.max (0 : ℚ) 72057594037927952 = 72057594037927952 := by norm_num
  have hti : F64.Val.toInt (.fin 72057594037927952) = 72057594037927952 := by
    have := F64.Val.toInt_fin_intCast 72057594037927952 (by norm_num) (by norm_num)
    simpa using this
  have hw3 : wrapInt64 (72057594037927950 - 72057594037927952) = -2 := by
    norm_num [wrapInt64]
  have hab : |(5 : ℚ)| = 5 := abs_of_pos (by norm_num)
  have s0 : (recomputeVal hugeCountUser.trustData (.fin 0) (.fin 0)).TrustScore = 99 := by
    simp only [recomputeVal, hugeCountUser, User.trustData, hne, if_false, hw1, hw2, hgt,
      if_true, F64.Val.abs_fin, abs_zero, F64.Val.max_fin, hmax, hti, hw3, F64.Val.lt_fin,
      va1, va2, va3, va4, va5, va6, va7, va8, va9, va10, va11, va12, va13, va14, va15, va16, va17]
    norm_num [F64.Val.toInt, F64.toInt]
  have s5 : (recomputeVal hugeCountUser.trustData (.fin 0) (.fin 5)).TrustScore = 100 := by
    simp only [recomputeVal, hugeCountUser, User.trustData, hne, if_false, hw1, hw2, hgt,
      if_true, F64.Val.abs_fin, hab, F64.Val.max_fin, hmax, hti, hw3, F64.Val.lt_fin,
      vb1, vb3, vb4, vb5, vb6, vb7, vb8, vb9, vb10, vb11, vb12, vb13, vb14, vb15, vb16, vb17, vb18]
    norm_num [F64.Val.toInt, F64.toInt]
  refine ⟨by decide, by norm_num [hugeCountUser], by norm_num, ?_, s0, s5, ?_⟩
  · rw [hw2, va3, F64.Val.max_fin, hmax, hti, hw3]
  · rw [s0, s5]
    norm_num

/-- In `float64`, `|y - x|` is `|x - y|`, also on infinities and NaN. -/
theorem absSubVal_swap_any (x y : F64.Val) : (y.sub x).abs = (x.sub y).abs := by
  cases x with
  | fin a =>
    cases y with
    | fin b => exact absSubVal_swap b a
    | inf t => rfl
    | nan => rfl
  | inf s =>
    cases y with
    | fin b => rfl
    | inf t =>
      by_cases hst : s = t
      · subst hst
        simp [F64.Val.sub, F64.Val.abs]
      · have hts : ¬ t = s := fun e => hst e.symm
        simp [F64.Val.sub, F64.Val.abs, hst, hts]
    | nan => rfl
  | nan =>
    cases y <;> rfl

/-- With a count that `float64` holds exactly, a larger rating error gives a score that is
not larger. -/
theorem recompute_score_antitone (u : User) (d1 p1 d2 p2 : ℚ) (h0 : 0 ≤ u.TrustRatedCount)
    (h2 : u.TrustRatedCount + 1 ≤ 2 ^ 53) (hle : |p1 - d1| ≤ |p2 - d2|) :
    (recompute u d2 p2).TrustScore ≤ (recompute u d1 p1).TrustScore := by
  have hdiff := abs_sub_mono d1 p1 d2 p2 hle
  by_cases hz : u.TrustRatedCount = 0
  · rw [(recompute_first_rating u d1 p1 hz).2.2, (recompute_first_rating u d2 p2 hz).2.2]
    exact trustBlend_antitone _ _ _ _ hdiff hdiff
  · have h1 : 1 ≤ u.TrustRatedCount := by omega
    rw [(recompute_rated u d1 p1 h1 h2).2.2, (recompute_rated u d2 p2 h1 h2).2.2]
    have hk : F64.ofInt (u.TrustRatedCount + 1) = ((u.TrustRatedCount + 1 : ℤ) : ℚ) :=
      ofInt_eq_cast _ (by rw [abs_le]; constructor <;> linarith)
    have hkpos : (0 : ℚ) ≤ ((u.TrustRatedCount + 1 : ℤ) : ℚ) := by
      exact_mod_cast (by linarith : (0 : ℤ) ≤ u.TrustRatedCount + 1)
    have hm1 : 1 ≤ min (u.TrustRatedCount + 1) 5 := le_min (by linarith) (by norm_num)
    have hm5 : min (u.TrustRatedCount + 1) 5 ≤ 5 := min_le_right _ _
    have hD : F64.ofInt (min (u.TrustRatedCount + 1) 5) =
        ((min (u.TrustRatedCount + 1) 5 : ℤ) : ℚ) :=
      ofInt_eq_cast _ (by rw [abs_le]; constructor <;> linarith)
    have hDpos : (0 : ℚ) ≤ ((min (u.TrustRatedCount + 1) 5 : ℤ) : ℚ) := by
      exact_mod_cast (by linarith : (0 : ℤ) ≤ min (u.TrustRatedCount + 1) 5)
    have hnew : F64.add u.TrustTotalError |F64.sub p1 d1| ≤
        F64.add u.TrustTotalError |F64.sub p2 d2| :=
      F64.round_mono _ _ (by linarith)
    have hsub : F64.sub (F64.add u.TrustTotalError |F64.sub p1 d1|) u.TrustTotalError ≤
        F64.sub (F64.add u.TrustTotalError |F64.sub p2 d2|) u.TrustTotalError :=
      F64.round_mono _ _ (by linarith)
    rw [hk, hD]
    exact trustBlend_antitone _ _ _ _
      (F64.round_mono _ _ (div_le_div_of_nonneg_right hnew hkpos))
      (F64.round_mono _ _ (div_le_div_of_nonneg_right hsub hDpos))

/-- C29, amended. For a stored profile with `0 ≤ TrustRatedCount`,
`TrustRatedCount + 1 ≤ 2 ^ 53` (counts that `float64` holds exactly) and
`0 ≤ TrustTotalError ≤ 2 ^ 1000`, and two pairs of ratings with
`|observed1 - declared1| ≤ |observed2 - declared2| ≤ 2 ^ 1000`, both updates persist the
record computed in `float64`, and the score for the first pair is at least the score for the
second.  For every profile and all `float64` ratings, infinities and NaN included, the
computed record depends on the two ratings only through `|observed - declared|`, and
swapping declared and observed changes nothing. -/
theorem trust_score_antitone_in_error (env : Env) (h : List Event) (id : String) (u : User)
    (d1 p1 d2 p2 : ℚ) (t : TrustData) (x1 y1 x2 y2 : F64.Val) :
    (env.UserGetByID h id = .ok (some u) → 0 ≤ u.TrustRatedCount →
      u.TrustRatedCount + 1 ≤ 2 ^ 53 → 0 ≤ u.TrustTotalError →
      u.TrustTotalError ≤ 2 ^ 1000 → |p2 - d2| ≤ 2 ^ 1000 → |p1 - d1| ≤ |p2 - d2| →
      TrustUpdatePersists env h id d1 p1 (recompute u d1 p1) ∧
      TrustUpdatePersists env h id d2 p2 (recompute u d2 p2) ∧
      (recompute u d1 p1).trustData = recomputeVal u.trustData (.fin d1) (.fin p1) ∧
      (recompute u d2 p2).trustData = recomputeVal u.trustData (.fin d2) (.fin p2) ∧
      (recomputeVal u.trustData (.fin d2) (.fin p2)).TrustScore ≤
        (recomputeVal u.trustData (.fin d1) (.fin p1)).TrustScore) ∧
    ((y1.sub x1).abs = (y2.sub x2).abs → recomputeVal t x1 y1 = recomputeVal t x2 y2) ∧
    recomputeVal t y1 x1 = recomputeVal t x1 y1 := by
  refine ⟨?_, fun heq => recomputeVal_congr t x1 y1 x2 y2 heq,
    recomputeVal_congr t y1 x1 x1 y1 (absSubVal_swap_any x1 y1).symm⟩
  intro hget h0 h2 herror hsize hd2 hle
  have hE : u.TrustRatedCount ≠ 0 → |u.TrustTotalError| ≤ 2 ^ 1000 :=
    fun _ => by rw [abs_of_nonneg herror]; exact hsize
  have hb1 := recomputeVal_eq_recompute u d1 p1 h0 h2 hE (le_trans hle hd2)
  have hb2 := recomputeVal_eq_recompute u d2 p2 h0 h2 hE hd2
  refine ⟨trust_update_persists env h id d1 p1 u hget,
    trust_update_persists env h id d2 p2 u hget, hb1.symm, hb2.symm, ?_⟩
  rw [hb1, hb2]
  exact recompute_score_antitone u d1 p1 d2 p2 h0 h2 hle

/-- C29, witness: the account of the test "multiple ratings", rated with declared 4.0 and
observed 4.5 and with declared 2.0 and observed 4.5. -/
theorem trust_score_antitone_in_error_witness :
    stubEnv.UserGetByID [] "supplier1" = .ok (some sampleUser) ∧
    (0 : ℤ) ≤ sampleUser.TrustRatedCount ∧
    sampleUser.TrustRatedCount + 1 ≤ 2 ^ 53 ∧
    0 ≤ sampleUser.TrustTotalError ∧ sampleUser.TrustTotalError ≤ 2 ^ 1000 ∧
    |(9 / 2 : ℚ) - 2| ≤ 2 ^ 1000 ∧
    |(9 / 2 : ℚ) - 4| ≤ |(9 / 2 : ℚ) - 2| ∧
    (recomputeVal sampleUser.trustData (.fin 2) (.fin (9 / 2))).TrustScore ≤
      (recomputeVal sampleUser.trustData (.fin 4) (.fin (9 / 2))).TrustScore ∧
    recomputeVal sampleUser.trustData (.fin (9 / 2)) (.fin 4) =
      recomputeVal sampleUser.trustData (.fin 4) (.fin (9 / 2)) :=
  have h1 : sampleUser.TrustTotalError ≤ 2 ^ 1000 := by
    norm_num [sampleUser]
  have h2 : |(9 / 2 : ℚ) - 2| ≤ 2 ^ 1000 := by
    have : (4 : ℚ) ≤ 2 ^ 1000 :=
      le_trans (by norm_num) (pow_le_pow_right₀ (by norm_num) (by norm_num : 2 ≤ 1000))
    rw [abs_of_pos (by norm_num)]
    linarith
  have h3 : |(9 / 2 : ℚ) - 4| ≤ |(9 / 2 : ℚ) - 2| := by
    rw [abs_of_pos (by norm_num), abs_of_pos (by norm_num)]
    norm_num
  ⟨rfl, by decide, by decide, by norm_num [sampleUser], h1, h2, h3,
    ((trust_score_antitone_in_error stubEnv [] "supplier1" sampleUser 4 (9 / 2) 2 (9 / 2)
      sampleUser.trustData (.fin 4) (.fin (9 / 2)) (.fin 2) (.fin (9 / 2))).1 rfl
      (by decide) (by decide) (by norm_num [sampleUser]) h1 h2 h3).2.2.2.2,
    (trust_score_antitone_in_error stubEnv [] "supplier1" sampleUser 4 (9 / 2) 2 (9 / 2)
      sampleUser.trustData (.fin 4) (.fin (9 / 2)) (.fin 2) (.fin (9 / 2))).2.2⟩
